import Mathlib

/-!
# Verification development for the DMS replication task resource and the
# auto scaling plans finder / status prober

The Go handlers are embedded as pure functions: the resource data container is
passed explicitly, every remote call takes its response from an explicit
environment argument and is recorded in a call log, and a Go run-time fault
(index out of range, nil dereference) is the error side of `Except Panic`.
A Go pointer is an `Option`; a Go slice of pointers is a list of options.
-/

namespace Aws

/-! ## Go values -/

/-- Go run-time faults that the embedded code can raise. -/
inductive Panic where
  | indexOutOfRange
  | nilDereference
  deriving DecidableEq

/-- The request of `DescribeScalingPlans` (autoscalingplans.DescribeScalingPlansInput). -/
structure DescribeScalingPlansInput where
  ScalingPlanNames : List String
  ScalingPlanVersion : Int
  deriving DecidableEq

/-- The kinds of failure of strconv.ParseInt. -/
inductive NumErrorKind where
  | errSyntax
  | errRange
  deriving DecidableEq

/-- An error returned by an AWS SDK operation: `aws` implements awserr.Error
(it carries a code), `other` is an error value that does not. -/
inductive SdkError where
  | aws (code message : String)
  | other (message : String)
  deriving DecidableEq

/-- Go `error` values that the embedded code returns. -/
inductive GoError where
  /-- an error of a remote call, passed on as it is -/
  | sdk (e : SdkError)
  /-- fmt.Errorf without an error argument -/
  | message (text : String)
  /-- a resource.NotFoundError literal with its LastError and LastRequest -/
  | notFound (lastError : Option SdkError) (lastRequest : DescribeScalingPlansInput)
  /-- tfresource.NewEmptyResultError(input) -/
  | emptyResult (lastRequest : DescribeScalingPlansInput)
  /-- a strconv.NumError of ParseInt -/
  | numError (num : String) (kind : NumErrorKind)
  /-- fmt.Errorf(format, args..., cause) -/
  | errorf (format : String) (args : List String) (cause : GoError)
  /-- the error of a wait that ended in FAILED, describing the failed state -/
  | unexpectedState (state : String) (expected : List String)
  /-- the error of a wait that ended in TIMED_OUT -/
  | timeoutError (expected : List String)
  deriving DecidableEq

/-- The test `err.(awserr.Error); ok && dmserr.Code() == code` on the error of a
remote call. -/
def SdkError.hasCode (code : String) : SdkError → Bool
  | .aws c _ => c == code
  | .other _ => false

/-- The aws.StringValue helper: the pointed-to string, or "" for nil. -/
def StringValue (p : Option String) : String :=
  p.getD ""

/-! ## DMS wire types -/

/-- The dms.Filter struct. -/
structure Filter where
  Name : Option String
  Values : List (Option String)
  deriving DecidableEq

/-- The dms.DescribeReplicationTasksInput struct. -/
structure DescribeReplicationTasksInput where
  Filters : List (Option Filter)
  deriving DecidableEq

/-- The fields of dms.ReplicationTask that the resource reads. -/
structure ReplicationTask where
  CdcStartPosition : Option String
  MigrationType : Option String
  ReplicationInstanceArn : Option String
  ReplicationTaskArn : Option String
  ReplicationTaskIdentifier : Option String
  ReplicationTaskSettings : Option String
  SourceEndpointArn : Option String
  Status : Option String
  TableMappings : Option String
  TargetEndpointArn : Option String
  deriving DecidableEq

/-- The dms.DescribeReplicationTasksOutput struct; `none` is the nil slice. -/
structure DescribeReplicationTasksOutput where
  ReplicationTasks : Option (List (Option ReplicationTask))
  deriving DecidableEq

/-- What one DescribeReplicationTasks call returns: `(output, err)`. -/
structure DescribeResponse where
  output : Option DescribeReplicationTasksOutput
  err : Option SdkError
  deriving DecidableEq

/-- The triple `(interface{}, string, error)` returned by a resource.StateRefreshFunc. -/
structure ProbeResult (α : Type) where
  result : Option α
  label : String
  err : Option GoError
  deriving DecidableEq

/-- The request that both the read handler and the status prober build from `d.Id()`. -/
def describeByIdInput (id : String) : DescribeReplicationTasksInput :=
  { Filters := [some { Name := some "replication-task-id", Values := [some id] }] }

/-- The expression `*v.ReplicationTasks[0].Status`: indexing a nil or empty slice
faults, as does dereferencing a nil element or a nil Status. -/
def firstTaskStatus (v : DescribeReplicationTasksOutput) : Except Panic String :=
  match v.ReplicationTasks.getD [] with
  | [] => .error .indexOutOfRange
  | none :: _ => .error .nilDereference
  | some t :: _ =>
    match t.Status with
    | none => .error .nilDereference
    | some s => .ok s

/-- The remote DescribeReplicationTasks operation at one moment: the response it
gives to a request. -/
abbrev DescribeApi := DescribeReplicationTasksInput → DescribeResponse

/-- The closure returned by resourceAwsDmsReplicationTaskStateRefreshFunc for a
resource whose `d.Id()` is `id`, run against the remote operation `conn`. -/
def resourceAwsDmsReplicationTaskStateRefreshFunc (id : String) (conn : DescribeApi) :
    Except Panic (ProbeResult DescribeReplicationTasksOutput) :=
  let resp := conn (describeByIdInput id)
  match resp.err with
  | some e =>
    if e.hasCode "ResourceNotFoundFault" then
      .ok { result := none, label := "", err := none }
    else
      .ok { result := none, label := "", err := some (.sdk e) }
  | none =>
    match resp.output with
    | none => .ok { result := none, label := "", err := none }
    | some v => do
      if v.ReplicationTasks.isSome then
        let _ ← firstTaskStatus v
      let status ← firstTaskStatus v
      pure { result := some v, label := status, err := none }

/-! ## Auto scaling plans: finder and status prober -/

/-- The fields of autoscalingplans.ScalingPlan that the code reads. -/
structure ScalingPlan where
  ScalingPlanName : Option String
  ScalingPlanVersion : Option Int
  StatusCode : Option String
  deriving DecidableEq

/-- The autoscalingplans.DescribeScalingPlansOutput struct. -/
structure DescribeScalingPlansOutput where
  ScalingPlans : List (Option ScalingPlan)
  deriving DecidableEq

/-- The constant autoscalingplans.ErrCodeObjectNotFoundException. -/
def ErrCodeObjectNotFoundException : String := "ObjectNotFoundException"

/-- The helper tfawserr.ErrCodeEquals on the error of a remote call. -/
def ErrCodeEquals (err : Option SdkError) (code : String) : Bool :=
  match err with
  | none => false
  | some e => e.hasCode code

/-- The remote DescribeScalingPlans operation: the `(output, err)` pair it gives
to a request. -/
abbrev DescribeScalingPlansApi :=
  DescribeScalingPlansInput → Option DescribeScalingPlansOutput × Option SdkError

/-- The function ScalingPlanByNameAndVersion of the finder package. -/
def ScalingPlanByNameAndVersion (conn : DescribeScalingPlansApi) (scalingPlanName : String)
    (scalingPlanVersion : Int) : Option ScalingPlan × Option GoError :=
  let input : DescribeScalingPlansInput :=
    { ScalingPlanNames := [scalingPlanName], ScalingPlanVersion := scalingPlanVersion }
  let (output, err) := conn input
  if ErrCodeEquals err ErrCodeObjectNotFoundException then
    (none, some (.notFound err input))
  else
    match err with
    | some e => (none, some (.sdk e))
    | none =>
      match output with
      | none => (none, some (.emptyResult input))
      | some out =>
        match out.ScalingPlans with
        | [] => (none, some (.emptyResult input))
        | none :: _ => (none, some (.emptyResult input))
        | some plan :: _ => (some plan, none)

/-- The closure returned by statusScalingPlanCode. The finder it calls
(FindScalingPlanByNameAndVersion of the service package) and the predicate
tfresource.NotFound are not part of the sources and are parameters; `Find` has
the connection already applied. Reading `scalingPlan.StatusCode` through a nil
pointer faults. -/
def statusScalingPlanCode (NotFound : Option GoError → Bool)
    (Find : String → Int → Option ScalingPlan × Option GoError)
    (scalingPlanName : String) (scalingPlanVersion : Int) :
    Except Panic (ProbeResult ScalingPlan) :=
  let (scalingPlan, err) := Find scalingPlanName scalingPlanVersion
  if NotFound err then
    .ok { result := none, label := "", err := none }
  else
    match err with
    | some e => .ok { result := none, label := "", err := some e }
    | none =>
      match scalingPlan with
      | none => .error .nilDereference
      | some plan =>
        .ok { result := some plan, label := StringValue plan.StatusCode, err := none }

/-! ## The waiter -/

/-- Modelled from the spec: the states of the waiter state machine (the waiter,
StateChangeConf.WaitForState of the plugin SDK, is missing from the sources).
PENDING is initial, the other four are terminal. -/
inductive WaiterState where
  | PENDING
  | TARGET
  | FAILED
  | TIMED_OUT
  | ERROR
  deriving DecidableEq

/-- The resource.StateChangeConf literal as the handlers fill it, without the
Refresh field; durations are in seconds. -/
structure StateChangeConf where
  Pending : List String
  Target : List String
  Timeout : Nat
  MinTimeout : Nat
  Delay : Nat
  deriving DecidableEq

/-- Modelled from the spec: the probe outcome "confirmed absence", the explicit
not-found signal `(nil, "", nil)` of a status prober. The waiter
(StateChangeConf.WaitForState of the plugin SDK) is missing from the sources. -/
def isAbsent {α : Type} (r : ProbeResult α) : Bool :=
  r.result.isNone && r.label == "" && r.err.isNone

/-- Modelled from the spec: whether "absent" is an acceptable target of the wait.
The waiter is missing from the sources; a wait for absence (the delete-wait) is
the one configured with the empty target set. -/
def absentIsTarget (conf : StateChangeConf) : Bool :=
  conf.Target.isEmpty

/-- Modelled from the spec: the transition rule of the waiter state machine,
evaluated after each probe (the waiter is missing from the sources). In order:
a probe error gives ERROR; absence gives TARGET when absence is an acceptable
target; a label of the target set gives TARGET; a label of the pending set gives
PENDING; absence in any other wait is treated as PENDING; every other label
gives FAILED. -/
def transition {α : Type} (conf : StateChangeConf) (r : ProbeResult α) : WaiterState :=
  if r.err.isSome then .ERROR
  else if isAbsent r && absentIsTarget conf then .TARGET
  else if r.label ∈ conf.Target then .TARGET
  else if r.label ∈ conf.Pending then .PENDING
  else if isAbsent r then .PENDING
  else .FAILED

/-- Modelled from the spec: what a finished wait hands back (the waiter is missing
from the sources): the terminal state, the number of probes issued, and the error
returned to the caller, nil for TARGET, the probe error for ERROR, an error
describing the failed state for FAILED and a distinct timeout error for TIMED_OUT. -/
structure WaitOutcome where
  state : WaiterState
  probes : Nat
  err : Option GoError
  deriving DecidableEq

/-- Modelled from the spec: the waiter loop (StateChangeConf.WaitForState of the
plugin SDK is missing from the sources). `remote` lists the remote operation as
it stands at each successive probe that the timeout leaves room for: the waiter
probes, applies the transition rule, and while PENDING probes again; when the
timeout leaves room for no further probe it ends in TIMED_OUT. `n` counts the
probes already issued. A fault of the probe propagates. -/
def WaitForState {α β : Type} (conf : StateChangeConf)
    (Refresh : β → Except Panic (ProbeResult α)) : List β → Nat → Except Panic WaitOutcome
  | [], n => .ok { state := .TIMED_OUT, probes := n, err := some (.timeoutError conf.Target) }
  | conn :: remote, n =>
    match Refresh conn with
    | .error p => .error p
    | .ok r =>
      match transition conf r with
      | .PENDING => WaitForState conf Refresh remote (n + 1)
      | .TARGET => .ok { state := .TARGET, probes := n + 1, err := none }
      | .FAILED =>
        .ok { state := .FAILED, probes := n + 1,
              err := some (.unexpectedState r.label conf.Target) }
      | .ERROR => .ok { state := .ERROR, probes := n + 1, err := r.err }
      | .TIMED_OUT =>
        .ok { state := .TIMED_OUT, probes := n + 1, err := some (.timeoutError conf.Target) }

/-- Whether the probe against `conn` returns without a fault and leaves the
waiter in PENDING. -/
def keepsPending {α β : Type} (conf : StateChangeConf)
    (Refresh : β → Except Panic (ProbeResult α)) (conn : β) : Bool :=
  match Refresh conn with
  | .ok r => transition conf r == .PENDING
  | .error _ => false

/-! ## strconv.ParseInt in base 10 with 64 bits -/

/-- The largest uint64. -/
def maxUint64 : Nat := 2 ^ 64 - 1

/-- The digit loop of strconv.ParseUint(s, 10, 64): a non-digit is a syntax
error, an overflow of uint64 a range error. -/
def parseUintDigits : List Char → Nat → Except NumErrorKind Nat
  | [], n => .ok n
  | c :: cs, n =>
    if c.isDigit then
      if n ≥ maxUint64 / 10 + 1 then .error .errRange
      else
        let n1 := n * 10 + (c.toNat - 48)
        if n1 > maxUint64 then .error .errRange
        else parseUintDigits cs n1
    else .error .errSyntax

/-- The call strconv.ParseUint(s, 10, 64) on the characters of s. -/
def ParseUint (s : List Char) : Except NumErrorKind Nat :=
  match s with
  | [] => .error .errSyntax
  | _ => parseUintDigits s 0

/-- The call strconv.ParseInt(s, 10, 64): an optional sign, then the unsigned
digits, then the range check against 2^63. -/
def ParseInt (s : String) : Except NumErrorKind Int :=
  match s.toList with
  | [] => .error .errSyntax
  | c :: cs =>
    let neg := c == '-'
    let body := if c == '+' || c == '-' then cs else c :: cs
    match ParseUint body with
    | .error k => .error k
    | .ok un =>
      if !neg && un ≥ 2 ^ 63 then .error .errRange
      else if neg && un > 2 ^ 63 then .error .errRange
      else .ok (if neg then -(un : Int) else (un : Int))

/-! ## JSON values and the clean-up of read-only settings -/

/-- A decoded JSON value, as json.Unmarshal stores it in an `interface{}`. -/
inductive JsonValue where
  | null
  | bool (b : Bool)
  | number (value : ℚ)
  | string (s : String)
  | array (items : List JsonValue)
  | object (members : List (String × JsonValue))

/-- A Go `map[string]interface{}` as an association list. -/
abbrev JsonMap := List (String × JsonValue)

/-- The index expression `m[key]` of a map. -/
def mapIndex (m : JsonMap) (key : String) : Option JsonValue :=
  m.lookup key

/-- The statement `delete(m, key)`. -/
def mapDelete (m : JsonMap) (key : String) : JsonMap :=
  m.filter (fun kv => kv.1 != key)

/-- The map `m` after the map stored under `key` was changed in place to `v`. -/
def mapStore (m : JsonMap) (key : String) (v : JsonValue) : JsonMap :=
  m.map (fun kv => if kv.1 == key then (kv.1, v) else kv)

/-- Tags as keyvaluetags.KeyValueTags. -/
abbrev KeyValueTags := List (String × String)

/-- Library functions that the handlers call and that are not part of the
sources: the keyvaluetags helpers and encoding/json for a
`map[string]interface{}` target (`none` is the nil map). -/
structure Lib where
  MergeTags : KeyValueTags → KeyValueTags → KeyValueTags
  IgnoreAws : KeyValueTags → KeyValueTags
  IgnoreConfig : KeyValueTags → KeyValueTags → KeyValueTags
  RemoveDefaultConfig : KeyValueTags → KeyValueTags → KeyValueTags
  Unmarshal : String → Except GoError (Option JsonMap)
  Marshal : Option JsonMap → Except GoError String

/-- The two type assertions with deletes of dmsReplicationTaskRemoveReadOnlySettings
on a non-nil map. -/
def removeReadOnlyKeys (settingsData : JsonMap) : JsonMap :=
  let settingsData :=
    match mapIndex settingsData "ControlTablesSettings" with
    | some (.object controlTablesSettings) =>
      mapStore settingsData "ControlTablesSettings"
        (.object (mapDelete controlTablesSettings "historyTimeslotInMinutes"))
    | _ => settingsData
  match mapIndex settingsData "Logging" with
  | some (.object logging) =>
    mapStore settingsData "Logging"
      (.object (mapDelete (mapDelete logging "CloudWatchLogGroup") "CloudWatchLogStream"))
  | _ => settingsData

/-- The function dmsReplicationTaskRemoveReadOnlySettings; it returns `(*string, error)`. -/
def dmsReplicationTaskRemoveReadOnlySettings (lib : Lib) (settings : String) :
    Option String × Option GoError :=
  match lib.Unmarshal settings with
  | .error e => (none, some e)
  | .ok settingsData =>
    match lib.Marshal (settingsData.map removeReadOnlyKeys) with
    | .error e => (none, some e)
    | .ok cleanedSettings => (some cleanedSettings, none)

/-! ## encoding/json for a map target -/

/-- The statement `m[key] = v` of a map: the value of a present key is replaced,
an absent key is added. -/
def mapAssign (m : JsonMap) (key : String) (v : JsonValue) : JsonMap :=
  if (mapIndex m key).isSome then mapStore m key v else m ++ [(key, v)]

/-- The Go map that json.Unmarshal builds from the decoded members of a JSON
object, one assignment `m[key] = v` per member in the order of the text: a
repeated key keeps its last value. -/
def toMap (members : List (String × JsonValue)) : JsonMap :=
  members.foldl (fun m kv => mapAssign m kv.1 kv.2) []

mutual
/-- The Go value that json.Unmarshal stores in an `interface{}` for a JSON value:
a number becomes the float64 that strconv.ParseFloat gives for its literal
(`ParseFloat` is `none` for a literal outside the float64 range, which
json.Unmarshal reports as an error), an array becomes a slice and an object a
map; `none` when a number inside is rejected. -/
def decodeInterface (ParseFloat : ℚ → Option ℚ) : JsonValue → Option JsonValue
  | .null => some .null
  | .bool b => some (.bool b)
  | .number value => (ParseFloat value).map .number
  | .string s => some (.string s)
  | .array items => (decodeItems ParseFloat items).map .array
  | .object members => (decodeMembers ParseFloat members).map (fun l => .object (toMap l))
/-- The values of `decodeInterface` for the items of an array. -/
def decodeItems (ParseFloat : ℚ → Option ℚ) : List JsonValue → Option (List JsonValue)
  | [] => some []
  | v :: rest =>
    match decodeInterface ParseFloat v, decodeItems ParseFloat rest with
    | some w, some ws => some (w :: ws)
    | _, _ => none
/-- The values of `decodeInterface` for the members of an object, in the order of
the text. -/
def decodeMembers (ParseFloat : ℚ → Option ℚ) :
    List (String × JsonValue) → Option (List (String × JsonValue))
  | [] => some []
  | (key, v) :: rest =>
    match decodeInterface ParseFloat v, decodeMembers ParseFloat rest with
    | some w, some ws => some ((key, w) :: ws)
    | _, _ => none
end

/-- The parts of encoding/json and strconv, which are not part of the sources,
that json.Unmarshal and json.Marshal for a `map[string]interface{}` rest on:
`parse`, the value of a text that encoding/json accepts as a JSON text, each
number at the exact value of its literal, and `none` for a text it rejects;
`ParseFloat`, the float64 of a number literal, `none` outside the float64 range;
`unmarshalError`, the error json.Unmarshal returns for a rejected text; and
`encode`, the text json.Marshal writes for a map of decoded values. -/
structure JsonCodec where
  parse : String → Option JsonValue
  ParseFloat : ℚ → Option ℚ
  unmarshalError : String → GoError
  encode : Option JsonMap → String

/-- The call json.Unmarshal(data, &m) for a nil `m` of type
`map[string]interface{}`: a text that is not JSON is rejected; `null` leaves the
map nil; an object fills the map, and is rejected when a number inside does not
fit float64; every other JSON value is rejected as a value of the wrong type. -/
def JsonCodec.Unmarshal (codec : JsonCodec) (data : String) :
    Except GoError (Option JsonMap) :=
  match codec.parse data with
  | none => .error (codec.unmarshalError data)
  | some .null => .ok none
  | some (.object members) =>
    match decodeMembers codec.ParseFloat members with
    | none => .error (codec.unmarshalError data)
    | some decoded => .ok (some (toMap decoded))
  | some _ => .error (codec.unmarshalError data)

/-- The call json.Marshal(m) for a map of decoded values: such a map holds
nothing that json.Marshal rejects. -/
def JsonCodec.Marshal (codec : JsonCodec) (m : Option JsonMap) : Except GoError String :=
  .ok (codec.encode m)

/-- The library functions with encoding/json given by `codec`. -/
def JsonCodec.lib (codec : JsonCodec) (base : Lib) : Lib :=
  { base with Unmarshal := codec.Unmarshal, Marshal := codec.Marshal }

/-! ## The resource data container -/

/-- The schema.ResourceData container of a replication task: the identity, the
string attributes now and in the prior state, the tag maps and the create timeout
(seconds). -/
structure ResourceData where
  id : String
  attrs : List (String × String)
  prior : List (String × String)
  tags : KeyValueTags
  tagsAll : KeyValueTags
  priorTagsAll : KeyValueTags
  timeoutCreate : Nat
  deriving DecidableEq

namespace ResourceData

/-- The method `d.Id()`. -/
def Id (d : ResourceData) : String := d.id

/-- The method `d.SetId(v)`. -/
def SetId (d : ResourceData) (v : String) : ResourceData := { d with id := v }

/-- The expression `d.Get(key).(string)`: the zero value "" when the key is unset. -/
def Get (d : ResourceData) (key : String) : String :=
  (d.attrs.lookup key).getD ""

/-- The method `d.GetOk(key)`: the value when it is set to a non-zero value. -/
def GetOk (d : ResourceData) (key : String) : Option String :=
  if d.Get key == "" then none else some (d.Get key)

/-- The method `d.Set(key, value)` for a `*string` value; nil stores the zero value. -/
def Set (d : ResourceData) (key : String) (value : Option String) : ResourceData :=
  { d with attrs := (key, StringValue value) :: d.attrs.filter (fun kv => kv.1 != key) }

/-- The method `d.HasChange(key)` for a string attribute. -/
def HasChange (d : ResourceData) (key : String) : Bool :=
  (d.prior.lookup key).getD "" != d.Get key

end ResourceData

/-- The fields of the provider client that the handlers read. -/
structure AWSClient where
  DefaultTagsConfig : KeyValueTags
  IgnoreTagsConfig : KeyValueTags
  deriving DecidableEq

/-! ## Requests and the call log -/

/-- The dms.CreateReplicationTaskInput struct; CdcStartTime is in Unix seconds. -/
structure CreateReplicationTaskInput where
  MigrationType : Option String
  ReplicationInstanceArn : Option String
  ReplicationTaskIdentifier : Option String
  SourceEndpointArn : Option String
  TableMappings : Option String
  Tags : KeyValueTags
  TargetEndpointArn : Option String
  CdcStartPosition : Option String
  CdcStartTime : Option Int
  ReplicationTaskSettings : Option String
  deriving DecidableEq

/-- The dms.ModifyReplicationTaskInput struct; CdcStartTime is in Unix seconds. -/
structure ModifyReplicationTaskInput where
  ReplicationTaskArn : Option String
  CdcStartPosition : Option String
  CdcStartTime : Option Int
  MigrationType : Option String
  ReplicationTaskSettings : Option String
  TableMappings : Option String
  deriving DecidableEq

/-- The dms.DeleteReplicationTaskInput struct. -/
structure DeleteReplicationTaskInput where
  ReplicationTaskArn : Option String
  deriving DecidableEq

/-- A remote call, as recorded in the call log of a handler. -/
inductive Call where
  | CreateReplicationTask (request : CreateReplicationTaskInput)
  | DescribeReplicationTasks (request : DescribeReplicationTasksInput)
  | ListTags (arn : String)
  | UpdateTags (arn : String) (oldTags newTags : KeyValueTags)
  | ModifyReplicationTask (request : ModifyReplicationTaskInput)
  | DeleteReplicationTask (request : DeleteReplicationTaskInput)
  deriving DecidableEq

/-- What a handler leaves behind: the resource data, the returned error and the
remote calls it issued, in order. -/
structure HandlerResult where
  d : ResourceData
  err : Option GoError
  calls : List Call
  deriving DecidableEq

/-- The remote side during a read: the describe operation, the tag listing
(keyvaluetags.DatabasemigrationserviceListTags) and the results of the two
`d.Set` calls for the tag maps. -/
structure ReadEnv where
  describe : DescribeApi
  listTags : String → KeyValueTags × Option GoError
  setTagsErr : Option GoError
  setTagsAllErr : Option GoError

/-- The remote side during a create: the create operation, the describe operation
at each probe of the wait, and the read that follows. -/
structure CreateEnv where
  create : CreateReplicationTaskInput → Option SdkError
  wait : List DescribeApi
  read : ReadEnv

/-- The remote side during an update. -/
structure UpdateEnv where
  updateTags : String → KeyValueTags → KeyValueTags → Option GoError
  modify : ModifyReplicationTaskInput → Option SdkError
  wait : List DescribeApi
  read : ReadEnv

/-- The remote side during a delete. -/
structure DeleteEnv where
  delete : DeleteReplicationTaskInput → Option SdkError
  wait : List DescribeApi

/-! ## The handlers -/

/-- The function resourceAwsDmsReplicationTaskSetState; `task` is a pointer, and
so is `task.ReplicationTaskSettings`, which is dereferenced unguarded. -/
def resourceAwsDmsReplicationTaskSetState (lib : Lib) (d : ResourceData)
    (task : Option ReplicationTask) : Except Panic (ResourceData × Option GoError) :=
  match task with
  | none => .error .nilDereference
  | some task =>
    let d := d.SetId (StringValue task.ReplicationTaskIdentifier)
    let d := d.Set "cdc_start_position" task.CdcStartPosition
    let d := d.Set "migration_type" task.MigrationType
    let d := d.Set "replication_instance_arn" task.ReplicationInstanceArn
    let d := d.Set "replication_task_arn" task.ReplicationTaskArn
    let d := d.Set "replication_task_id" task.ReplicationTaskIdentifier
    let d := d.Set "source_endpoint_arn" task.SourceEndpointArn
    let d := d.Set "table_mappings" task.TableMappings
    let d := d.Set "target_endpoint_arn" task.TargetEndpointArn
    match task.ReplicationTaskSettings with
    | none => .error .nilDereference
    | some raw =>
      match dmsReplicationTaskRemoveReadOnlySettings lib raw with
      | (_, some err) => .ok (d, some err)
      | (settings, none) => .ok (d.Set "replication_task_settings" settings, none)

/-- The function resourceAwsDmsReplicationTaskRead. -/
def resourceAwsDmsReplicationTaskRead (lib : Lib) (client : AWSClient) (env : ReadEnv)
    (d : ResourceData) : Except Panic HandlerResult :=
  let request := describeByIdInput d.Id
  let calls := [Call.DescribeReplicationTasks request]
  let resp := env.describe request
  match resp.err with
  | some e =>
    if e.hasCode "ResourceNotFoundFault" then
      .ok { d := d.SetId "", err := none, calls := calls }
    else
      .ok { d := d, err := some (.sdk e), calls := calls }
  | none =>
    match resp.output with
    | none => .error .nilDereference
    | some response =>
      match response.ReplicationTasks.getD [] with
      | [] => .error .indexOutOfRange
      | task :: _ =>
        match resourceAwsDmsReplicationTaskSetState lib d task with
        | .error p => .error p
        | .ok (d, some err) => .ok { d := d, err := some err, calls := calls }
        | .ok (d, none) =>
          let arn := d.Get "replication_task_arn"
          let calls := calls ++ [Call.ListTags arn]
          match env.listTags arn with
          | (_, some err) =>
            .ok { d := d,
                  err := some (.errorf "error listing tags for DMS Replication Task (%s): %s"
                    [arn] err),
                  calls := calls }
          | (tags, none) =>
            let tags := lib.IgnoreConfig (lib.IgnoreAws tags) client.IgnoreTagsConfig
            match env.setTagsErr with
            | some err =>
              .ok { d := d, err := some (.errorf "error setting tags: %w" [] err), calls := calls }
            | none =>
              let d := { d with tags := lib.RemoveDefaultConfig tags client.DefaultTagsConfig }
              match env.setTagsAllErr with
              | some err =>
                .ok { d := d, err := some (.errorf "error setting tags_all: %w" [] err),
                      calls := calls }
              | none => .ok { d := { d with tagsAll := tags }, err := none, calls := calls }

/-- The StateChangeConf literal of resourceAwsDmsReplicationTaskCreate. -/
def createStateConf (d : ResourceData) : StateChangeConf :=
  { Pending := ["creating"], Target := ["ready"],
    Timeout := d.timeoutCreate, MinTimeout := 10, Delay := 30 }

/-- The StateChangeConf literal of resourceAwsDmsReplicationTaskUpdate. -/
def updateStateConf (d : ResourceData) : StateChangeConf :=
  { Pending := ["modifying"], Target := ["ready", "stopped", "failed"],
    Timeout := d.timeoutCreate, MinTimeout := 10, Delay := 30 }

/-- The StateChangeConf literal of resourceAwsDmsReplicationTaskDelete. -/
def deleteStateConf (d : ResourceData) : StateChangeConf :=
  { Pending := ["deleting"], Target := [],
    Timeout := d.timeoutCreate, MinTimeout := 10, Delay := 30 }

/-- The log entries of the probes of a wait: each probe is one
DescribeReplicationTasks call built from `d.Id()`. -/
def probeCalls (d : ResourceData) (probes : Nat) : List Call :=
  List.replicate probes (Call.DescribeReplicationTasks (describeByIdInput d.Id))

/-- The wait of a handler: the waiter run with the status prober of `d`. -/
def waitForTask (conf : StateChangeConf) (d : ResourceData) (remote : List DescribeApi) :
    Except Panic WaitOutcome :=
  WaitForState conf (resourceAwsDmsReplicationTaskStateRefreshFunc d.Id) remote 0

/-- The request that resourceAwsDmsReplicationTaskCreate builds, or the error of
parsing cdc_start_time. -/
def createRequest (lib : Lib) (client : AWSClient) (d : ResourceData) :
    Except GoError CreateReplicationTaskInput :=
  let tags := lib.MergeTags client.DefaultTagsConfig d.tags
  let request : CreateReplicationTaskInput :=
    { MigrationType := some (d.Get "migration_type"),
      ReplicationInstanceArn := some (d.Get "replication_instance_arn"),
      ReplicationTaskIdentifier := some (d.Get "replication_task_id"),
      SourceEndpointArn := some (d.Get "source_endpoint_arn"),
      TableMappings := some (d.Get "table_mappings"),
      Tags := lib.IgnoreAws tags,
      TargetEndpointArn := some (d.Get "target_endpoint_arn"),
      CdcStartPosition := none, CdcStartTime := none, ReplicationTaskSettings := none }
  let request :=
    match d.GetOk "cdc_start_position" with
    | some v => { request with CdcStartPosition := some v }
    | none => request
  let parsed : Except GoError CreateReplicationTaskInput :=
    match d.GetOk "cdc_start_time" with
    | some v =>
      match ParseInt v with
      | .error kind =>
        .error (.errorf "DMS create replication task. Invalid CDC Unix timestamp: %s" []
          (.numError v kind))
      | .ok seconds => .ok { request with CdcStartTime := some seconds }
    | none => .ok request
  match parsed with
  | .error err => .error err
  | .ok request =>
    match d.GetOk "replication_task_settings" with
    | some v => .ok { request with ReplicationTaskSettings := some v }
    | none => .ok request

/-- The function resourceAwsDmsReplicationTaskCreate. -/
def resourceAwsDmsReplicationTaskCreate (lib : Lib) (client : AWSClient) (env : CreateEnv)
    (d : ResourceData) : Except Panic HandlerResult :=
  match createRequest lib client d with
  | .error err => .ok { d := d, err := some err, calls := [] }
  | .ok request =>
    let calls := [Call.CreateReplicationTask request]
    match env.create request with
    | some e => .ok { d := d, err := some (.sdk e), calls := calls }
    | none =>
      let taskId := d.Get "replication_task_id"
      let d := d.SetId taskId
      match waitForTask (createStateConf d) d env.wait with
      | .error p => .error p
      | .ok w =>
        let calls := calls ++ probeCalls d w.probes
        match w.err with
        | some err => .ok { d := d, err := some err, calls := calls }
        | none =>
          match resourceAwsDmsReplicationTaskRead lib client env.read d with
          | .error p => .error p
          | .ok r => .ok { r with calls := calls ++ r.calls }

/-- The request that resourceAwsDmsReplicationTaskUpdate builds together with its
hasChanges flag, or the error of parsing cdc_start_time. -/
def updateRequest (d : ResourceData) : Except GoError (ModifyReplicationTaskInput × Bool) :=
  let request : ModifyReplicationTaskInput :=
    { ReplicationTaskArn := some (d.Get "replication_task_arn"),
      CdcStartPosition := none, CdcStartTime := none, MigrationType := none,
      ReplicationTaskSettings := none, TableMappings := none }
  let hasChanges := false
  let (request, hasChanges) :=
    if d.HasChange "cdc_start_position" then
      ({ request with CdcStartPosition := some (d.Get "cdc_start_position") }, true)
    else (request, hasChanges)
  let parsed : Except GoError (ModifyReplicationTaskInput × Bool) :=
    if d.HasChange "cdc_start_time" then
      match ParseInt (d.Get "cdc_start_time") with
      | .error kind =>
        .error (.errorf "DMS update replication task. Invalid CRC Unix timestamp: %s" []
          (.numError (d.Get "cdc_start_time") kind))
      | .ok seconds => .ok ({ request with CdcStartTime := some seconds }, true)
    else .ok (request, hasChanges)
  match parsed with
  | .error err => .error err
  | .ok (request, hasChanges) =>
    let (request, hasChanges) :=
      if d.HasChange "migration_type" then
        ({ request with MigrationType := some (d.Get "migration_type") }, true)
      else (request, hasChanges)
    let (request, hasChanges) :=
      if d.HasChange "replication_task_settings" then
        ({ request with
            ReplicationTaskSettings := some (d.Get "replication_task_settings") }, true)
      else (request, hasChanges)
    let (request, hasChanges) :=
      if d.HasChange "table_mappings" then
        ({ request with TableMappings := some (d.Get "table_mappings") }, true)
      else (request, hasChanges)
    .ok (request, hasChanges)

/-- The function resourceAwsDmsReplicationTaskUpdate. The attribute tags_all has
changed when its map differs from the one of the prior state. -/
def resourceAwsDmsReplicationTaskUpdate (lib : Lib) (client : AWSClient) (env : UpdateEnv)
    (d : ResourceData) : Except Panic HandlerResult :=
  match updateRequest d with
  | .error err => .ok { d := d, err := some err, calls := [] }
  | .ok (request, hasChanges) =>
    let arn := d.Get "replication_task_arn"
    let tagsChanged := d.priorTagsAll != d.tagsAll
    let tagCalls := if tagsChanged then [Call.UpdateTags arn d.priorTagsAll d.tagsAll] else []
    let tagErr := if tagsChanged then env.updateTags arn d.priorTagsAll d.tagsAll else none
    match tagErr with
    | some err =>
      .ok { d := d,
            err := some (.errorf "error updating DMS Replication Task (%s) tags: %s" [arn] err),
            calls := tagCalls }
    | none =>
      if hasChanges then
        let calls := tagCalls ++ [Call.ModifyReplicationTask request]
        match env.modify request with
        | some e => .ok { d := d, err := some (.sdk e), calls := calls }
        | none =>
          match waitForTask (updateStateConf d) d env.wait with
          | .error p => .error p
          | .ok w =>
            let calls := calls ++ probeCalls d w.probes
            match w.err with
            | some err => .ok { d := d, err := some err, calls := calls }
            | none =>
              match resourceAwsDmsReplicationTaskRead lib client env.read d with
              | .error p => .error p
              | .ok r => .ok { r with calls := calls ++ r.calls }
      else .ok { d := d, err := none, calls := tagCalls }

/-- The function resourceAwsDmsReplicationTaskDelete. -/
def resourceAwsDmsReplicationTaskDelete (env : DeleteEnv) (d : ResourceData) :
    Except Panic HandlerResult :=
  let request : DeleteReplicationTaskInput :=
    { ReplicationTaskArn := some (d.Get "replication_task_arn") }
  let calls := [Call.DeleteReplicationTask request]
  match env.delete request with
  | some e =>
    if e.hasCode "ResourceNotFoundFault" then
      .ok { d := d, err := none, calls := calls }
    else
      .ok { d := d, err := some (.sdk e), calls := calls }
  | none =>
    match waitForTask (deleteStateConf d) d env.wait with
    | .error p => .error p
    | .ok w => .ok { d := d, err := w.err, calls := calls ++ probeCalls d w.probes }

/-! ## The instance data source: wire types -/

/-- The helper aws.Int64Value: the pointed-to integer, or 0 for nil. -/
def Int64Value (p : Option Int) : Int :=
  p.getD 0

/-- The helper aws.BoolValue: the pointed-to boolean, or false for nil. -/
def BoolValue (p : Option Bool) : Bool :=
  p.getD false

/-- The ec2.InstanceState struct. -/
structure InstanceState where
  Name : Option String
  deriving DecidableEq

/-- The fields of ec2.Placement that the data source reads. -/
structure Placement where
  AvailabilityZone : Option String
  GroupName : Option String
  PartitionNumber : Option Int
  Tenancy : Option String
  HostId : Option String
  deriving DecidableEq

/-- The ec2.IamInstanceProfile struct. -/
structure IamInstanceProfile where
  Arn : Option String
  deriving DecidableEq

/-- The ec2.InstanceNetworkInterfaceAttachment struct. -/
structure InstanceNetworkInterfaceAttachment where
  DeviceIndex : Option Int
  deriving DecidableEq

/-- The ec2.InstancePrivateIpAddress struct. -/
structure InstancePrivateIpAddress where
  Primary : Option Bool
  PrivateIpAddress : Option String
  deriving DecidableEq

/-- The ec2.InstanceIpv6Address struct. -/
structure InstanceIpv6Address where
  Ipv6Address : Option String
  deriving DecidableEq

/-- The fields of ec2.InstanceNetworkInterface that the data source reads; of
the Association pointer only whether it is nil matters. -/
structure InstanceNetworkInterface where
  Attachment : Option InstanceNetworkInterfaceAttachment
  SubnetId : Option String
  NetworkInterfaceId : Option String
  Association : Option Unit
  PrivateIpAddresses : List (Option InstancePrivateIpAddress)
  Ipv6Addresses : List (Option InstanceIpv6Address)
  deriving DecidableEq

/-- The ec2.Monitoring struct. -/
structure Monitoring where
  State : Option String
  deriving DecidableEq

/-- A value that the data source only hands on to a flatten helper. -/
abbrev Ec2Options := List (String × String)

/-- The fields of ec2.Instance that instanceDescriptionAttributes reads. Tags
stands for the tag slice as keyvaluetags.Ec2KeyValueTags converts it. -/
structure Instance where
  InstanceId : Option String
  State : Option InstanceState
  Placement : Option Placement
  ImageId : Option String
  InstanceType : Option String
  KeyName : Option String
  PublicDnsName : Option String
  PublicIpAddress : Option String
  PrivateDnsName : Option String
  PrivateIpAddress : Option String
  OutpostArn : Option String
  IamInstanceProfile : Option IamInstanceProfile
  NetworkInterfaces : List (Option InstanceNetworkInterface)
  SubnetId : Option String
  EbsOptimized : Option Bool
  SourceDestCheck : Option Bool
  Monitoring : Option Monitoring
  Tags : KeyValueTags
  MetadataOptions : Option Ec2Options
  EnclaveOptions : Option Ec2Options
  deriving DecidableEq

/-- The ec2.DescribeInstanceAttributeInput struct. -/
structure DescribeInstanceAttributeInput where
  Attribute : Option String
  InstanceId : Option String
  deriving DecidableEq

/-- The ec2.AttributeBooleanValue struct. -/
structure AttributeBooleanValue where
  Value : Option Bool
  deriving DecidableEq

/-- The ec2.AttributeValue struct. -/
structure AttributeValue where
  Value : Option String
  deriving DecidableEq

/-- The fields of ec2.DescribeInstanceAttributeOutput that the data source reads. -/
structure DescribeInstanceAttributeOutput where
  DisableApiTermination : Option AttributeBooleanValue
  UserData : Option AttributeValue
  deriving DecidableEq

/-- The search parameters of ec2.DescribeInstancesInput: filters as name and
values, and instance ids. -/
structure DescribeInstancesInput where
  Filters : List (String × List String)
  InstanceIds : List (Option String)
  deriving DecidableEq

/-- A call on the EC2 connection, as recorded in the call log: the two SDK
operations the data source calls itself, and the helpers it hands the connection
to; `other` is any other operation of the connection, by its name. -/
inductive Ec2Call where
  | DescribeInstances (params : DescribeInstancesInput)
  | DescribeInstanceAttribute (input : DescribeInstanceAttributeInput)
  | readSecurityGroups
  | readBlockDevices
  | getCreditSpecifications (instanceId : String)
  | getAwsEc2InstancePasswordData (instanceId : String)
  | other (operation : String)
  deriving DecidableEq

/-! ## The instance data source: resource data -/

/-- A value stored in the resource data of the instance data source. `null` is
what `d.Set` stores for nil. -/
inductive AttrValue where
  | null
  | str (s : String)
  | bool (b : Bool)
  | int (n : Int)
  | strings (l : List String)
  | tags (t : KeyValueTags)
  | blocks (l : List (List (String × String)))
  deriving DecidableEq

/-- Whether a stored value is the zero value of its type. -/
def AttrValue.isZero : AttrValue → Bool
  | .null => true
  | .str s => s == ""
  | .bool b => !b
  | .int n => n == 0
  | .strings l => l.isEmpty
  | .tags t => t.isEmpty
  | .blocks l => l.isEmpty

/-- What `d.Set` stores for a `*string`. -/
def AttrValue.ofString : Option String → AttrValue
  | some s => .str s
  | none => .null

/-- What `d.Set` stores for a `*bool`. -/
def AttrValue.ofBool : Option Bool → AttrValue
  | some b => .bool b
  | none => .null

/-- What `d.Set` stores for a `*int64`. -/
def AttrValue.ofInt : Option Int → AttrValue
  | some n => .int n
  | none => .null

/-- The schema.ResourceData container of the instance data source. -/
structure InstanceData where
  id : String
  attrs : List (String × AttrValue)
  deriving DecidableEq

namespace InstanceData

/-- The method `d.Id()`. -/
def Id (d : InstanceData) : String := d.id

/-- The method `d.SetId(v)`. -/
def SetId (d : InstanceData) (v : String) : InstanceData := { d with id := v }

/-- The method `d.Set(key, value)`. -/
def Set (d : InstanceData) (key : String) (value : AttrValue) : InstanceData :=
  { d with attrs := (key, value) :: d.attrs.filter (fun kv => kv.1 != key) }

/-- Whether the attribute was written by `d.Set`. -/
def isSet (d : InstanceData) (key : String) : Bool :=
  (d.attrs.lookup key).isSome

/-- The method `d.Get(key)`. -/
def Get (d : InstanceData) (key : String) : AttrValue :=
  (d.attrs.lookup key).getD .null

/-- The boolean `ok` of `d.GetOk(key)`: the attribute is set to a non-zero value. -/
def GetOk (d : InstanceData) (key : String) : Bool :=
  !(d.Get key).isZero

/-- The expression `d.Get(key).(bool)`. -/
def GetBool (d : InstanceData) (key : String) : Bool :=
  match d.Get key with
  | .bool b => b
  | _ => false

end InstanceData

/-- What instanceDescriptionAttributes leaves behind: the resource data, the
returned error and the calls on the connection, in order. -/
structure InstanceResult where
  d : InstanceData
  err : Option GoError
  calls : List Ec2Call
  deriving DecidableEq

/-- The surroundings of instanceDescriptionAttributes that are not part of the
sources: the helper functions it calls, the remote DescribeInstanceAttribute
operation, and `setErr key`, the result of those `d.Set` calls whose error the
function checks. -/
structure InstanceEnv where
  InstanceProfileARNToName : String → String × Option GoError
  setErr : String → Option GoError
  readSecurityGroups : InstanceData → Instance → InstanceData × Option GoError
  readBlockDevices : InstanceData → Instance → InstanceData × Option GoError
  DescribeInstanceAttribute :
    DescribeInstanceAttributeInput → Option DescribeInstanceAttributeOutput × Option SdkError
  userDataHashSum : String → String
  getCreditSpecifications : String → List (List (String × String)) × Option GoError
  isAWSErr : GoError → String → String → Bool
  flattenEc2InstanceMetadataOptions : Option Ec2Options → List (List (String × String))
  flattenEc2EnclaveOptions : Option Ec2Options → List (List (String × String))

/-! ## The instance data source: instanceDescriptionAttributes -/

/-- The helper strings.HasPrefix. -/
def HasPrefix (s start : String) : Bool :=
  start.toList.isPrefixOf s.toList

/-- The constant ec2.InstanceAttributeNameUserData. -/
def InstanceAttributeNameUserData : String := "userData"

/-- The placement statements of instanceDescriptionAttributes: availability_zone
is guarded by `instance.Placement != nil`; the four conditions that follow
dereference `instance.Placement` unguarded. -/
def setPlacementAttributes (d : InstanceData) (inst : Instance) : Except Panic InstanceData :=
  let d :=
    match inst.Placement with
    | some placement => d.Set "availability_zone" (.ofString placement.AvailabilityZone)
    | none => d
  match inst.Placement with
  | none => .error .nilDereference
  | some placement =>
    let d :=
      if placement.GroupName.isSome then d.Set "placement_group" (.ofString placement.GroupName)
      else d
    let d :=
      if placement.PartitionNumber.isSome then
        d.Set "placement_partition_number" (.ofInt placement.PartitionNumber)
      else d
    let d :=
      if placement.Tenancy.isSome then d.Set "tenancy" (.ofString placement.Tenancy) else d
    let d :=
      if placement.HostId.isSome then d.Set "host_id" (.ofString placement.HostId) else d
    .ok d

/-- The iam_instance_profile statements of instanceDescriptionAttributes. -/
def setIamInstanceProfile (env : InstanceEnv) (d : InstanceData) (inst : Instance) :
    InstanceData × Option GoError :=
  match inst.IamInstanceProfile with
  | some profile =>
    match profile.Arn with
    | some arn =>
      match env.InstanceProfileARNToName arn with
      | (_, some err) => (d, some (.errorf "error setting iam_instance_profile: %w" [] err))
      | (name, none) => (d.Set "iam_instance_profile" (.str name), none)
    | none => (d.Set "iam_instance_profile" .null, none)
  | none => (d.Set "iam_instance_profile" .null, none)

/-- The loop that collects the non-primary private addresses of a network
interface; a nil element faults. -/
def secondaryIPs : List (Option InstancePrivateIpAddress) → Except Panic (List String)
  | [] => .ok []
  | none :: _ => .error .nilDereference
  | some ip :: rest =>
    match secondaryIPs rest with
    | .error p => .error p
    | .ok ips =>
      if !BoolValue ip.Primary then .ok (StringValue ip.PrivateIpAddress :: ips) else .ok ips

/-- The loop that collects the IPv6 addresses of a network interface; a nil
element faults. -/
def ipV6Addresses : List (Option InstanceIpv6Address) → Except Panic (List String)
  | [] => .ok []
  | none :: _ => .error .nilDereference
  | some ip :: rest =>
    match ipV6Addresses rest with
    | .error p => .error p
    | .ok ips => .ok (StringValue ip.Ipv6Address :: ips)

/-- The loop over `instance.NetworkInterfaces`: attributes are set from every
interface whose attachment has device index 0; a nil interface or a nil
attachment faults, and an error of a checked `d.Set` is returned at once. -/
def setNetworkInterfaces (env : InstanceEnv) :
    List (Option InstanceNetworkInterface) → InstanceData →
      Except Panic (InstanceData × Option GoError)
  | [], d => .ok (d, none)
  | none :: _, _ => .error .nilDereference
  | some ni :: rest, d =>
    match ni.Attachment with
    | none => .error .nilDereference
    | some attachment =>
      if Int64Value attachment.DeviceIndex == 0 then
        let d := d.Set "subnet_id" (.ofString ni.SubnetId)
        let d := d.Set "network_interface_id" (.ofString ni.NetworkInterfaceId)
        let d := d.Set "associate_public_ip_address" (.bool ni.Association.isSome)
        match secondaryIPs ni.PrivateIpAddresses with
        | .error p => .error p
        | .ok ips =>
          match env.setErr "secondary_private_ips" with
          | some err =>
            .ok (d, some (.errorf "error setting secondary_private_ips: %w" [] err))
          | none =>
            let d := d.Set "secondary_private_ips" (.strings ips)
            match ipV6Addresses ni.Ipv6Addresses with
            | .error p => .error p
            | .ok ips6 =>
              match env.setErr "ipv6_addresses" with
              | some err => .ok (d, some (.errorf "error setting ipv6_addresses: %w" [] err))
              | none => setNetworkInterfaces env rest (d.Set "ipv6_addresses" (.strings ips6))
      else setNetworkInterfaces env rest d

/-- The two DescribeInstanceAttribute blocks of instanceDescriptionAttributes;
the first dereferences `attr.DisableApiTermination` unguarded. The result is the
resource data, the returned error and the calls issued. -/
def readInstanceAttributes (env : InstanceEnv) (d : InstanceData) :
    Except Panic (InstanceData × Option GoError × List Ec2Call) :=
  let terminationInput : DescribeInstanceAttributeInput :=
    { Attribute := some "disableApiTermination", InstanceId := some d.Id }
  match env.DescribeInstanceAttribute terminationInput with
  | (_, some e) => .ok (d, some (.sdk e), [Ec2Call.DescribeInstanceAttribute terminationInput])
  | (none, none) => .error .nilDereference
  | (some attr, none) =>
    match attr.DisableApiTermination with
    | none => .error .nilDereference
    | some termination =>
      let d := d.Set "disable_api_termination" (.ofBool termination.Value)
      let userDataInput : DescribeInstanceAttributeInput :=
        { Attribute := some InstanceAttributeNameUserData, InstanceId := some d.Id }
      let calls := [Ec2Call.DescribeInstanceAttribute terminationInput,
        Ec2Call.DescribeInstanceAttribute userDataInput]
      match env.DescribeInstanceAttribute userDataInput with
      | (_, some e) => .ok (d, some (.sdk e), calls)
      | (attr, none) =>
        match attr.bind (fun a => a.UserData) |>.bind (fun u => u.Value) with
        | some value =>
          let d := d.Set "user_data" (.str (env.userDataHashSum value))
          let d := if d.GetBool "get_user_data" then d.Set "user_data_base64" (.str value) else d
          .ok (d, none, calls)
        | none => .ok (d, none, calls)

/-- The credit specification lookup of instanceDescriptionAttributes: only for
instance types that start with "t2" or "t3"; an error is returned unless isAWSErr
recognises it as UnsupportedOperation. The result is the specifications, the
returned error and the calls issued. -/
def readCreditSpecifications (env : InstanceEnv) (d : InstanceData) (inst : Instance) :
    List (List (String × String)) × Option GoError × List Ec2Call :=
  if HasPrefix (StringValue inst.InstanceType) "t2"
      || HasPrefix (StringValue inst.InstanceType) "t3" then
    match env.getCreditSpecifications d.Id with
    | (creditSpecifications, some err) =>
      if !env.isAWSErr err "UnsupportedOperation" "" then
        ([], some (.errorf "error getting EC2 Instance (%s) Credit Specifications: %w"
          [d.Id] err), [Ec2Call.getCreditSpecifications d.Id])
      else (creditSpecifications, none, [Ec2Call.getCreditSpecifications d.Id])
    | (creditSpecifications, none) =>
      (creditSpecifications, none, [Ec2Call.getCreditSpecifications d.Id])
  else ([], none, [])

/-- The function instanceDescriptionAttributes. `inst` is the instance pointer,
`env` stands for the connection and the helpers, `ignoreTagsConfig` for the
ignore configuration. -/
def instanceDescriptionAttributes (lib : Lib) (env : InstanceEnv) (d : InstanceData)
    (inst : Option Instance) (ignoreTagsConfig : KeyValueTags) : Except Panic InstanceResult :=
  match inst with
  | none => .error .nilDereference
  | some inst =>
    let d := d.SetId (StringValue inst.InstanceId)
    match inst.State with
    | none => .error .nilDereference
    | some state =>
      let d := d.Set "instance_state" (.ofString state.Name)
      match setPlacementAttributes d inst with
      | .error p => .error p
      | .ok d =>
        let d := d.Set "ami" (.ofString inst.ImageId)
        let d := d.Set "instance_type" (.ofString inst.InstanceType)
        let d := d.Set "key_name" (.ofString inst.KeyName)
        let d := d.Set "public_dns" (.ofString inst.PublicDnsName)
        let d := d.Set "public_ip" (.ofString inst.PublicIpAddress)
        let d := d.Set "private_dns" (.ofString inst.PrivateDnsName)
        let d := d.Set "private_ip" (.ofString inst.PrivateIpAddress)
        let d := d.Set "outpost_arn" (.ofString inst.OutpostArn)
        match setIamInstanceProfile env d inst with
        | (d, some err) => .ok { d := d, err := some err, calls := [] }
        | (d, none) =>
          let interfaces : Except Panic (InstanceData × Option GoError) :=
            if inst.NetworkInterfaces.length > 0 then
              setNetworkInterfaces env inst.NetworkInterfaces d
            else
              .ok ((d.Set "subnet_id" (.ofString inst.SubnetId)).Set "network_interface_id"
                (.str ""), none)
          match interfaces with
          | .error p => .error p
          | .ok (d, some err) => .ok { d := d, err := some err, calls := [] }
          | .ok (d, none) =>
            let d := d.Set "ebs_optimized" (.ofBool inst.EbsOptimized)
            let d :=
              if StringValue inst.SubnetId != "" then
                d.Set "source_dest_check" (.ofBool inst.SourceDestCheck)
              else d
            let d :=
              match inst.Monitoring with
              | some monitoring =>
                let monitoringState := StringValue monitoring.State
                d.Set "monitoring"
                  (.bool (monitoringState == "enabled" || monitoringState == "pending"))
              | none => d
            match env.setErr "tags" with
            | some err =>
              .ok { d := d, err := some (.errorf "error setting tags: %w" [] err), calls := [] }
            | none =>
              let d := d.Set "tags"
                (.tags (lib.IgnoreConfig (lib.IgnoreAws inst.Tags) ignoreTagsConfig))
              match env.readSecurityGroups d inst with
              | (d, some err) =>
                .ok { d := d, err := some err, calls := [Ec2Call.readSecurityGroups] }
              | (d, none) =>
                let calls := [Ec2Call.readSecurityGroups, Ec2Call.readBlockDevices]
                match env.readBlockDevices d inst with
                | (d, some err) => .ok { d := d, err := some err, calls := calls }
                | (d, none) =>
                  let d :=
                    if !d.GetOk "ephemeral_block_device" then
                      d.Set "ephemeral_block_device" (.blocks [])
                    else d
                  match readInstanceAttributes env d with
                  | .error p => .error p
                  | .ok (d, some err, attrCalls) =>
                    .ok { d := d, err := some err, calls := calls ++ attrCalls }
                  | .ok (d, none, attrCalls) =>
                    let calls := calls ++ attrCalls
                    match readCreditSpecifications env d inst with
                    | (_, some err, creditCalls) =>
                      .ok { d := d, err := some err, calls := calls ++ creditCalls }
                    | (creditSpecifications, none, creditCalls) =>
                      let calls := calls ++ creditCalls
                      match env.setErr "credit_specification" with
                      | some err =>
                        .ok { d := d,
                              err := some (.errorf "error setting credit_specification: %w" []
                                err),
                              calls := calls }
                      | none =>
                        let d := d.Set "credit_specification" (.blocks creditSpecifications)
                        match env.setErr "metadata_options" with
                        | some err =>
                          .ok { d := d,
                                err := some (.errorf "error setting metadata_options: %w" [] err),
                                calls := calls }
                        | none =>
                          let d := d.Set "metadata_options"
                            (.blocks (env.flattenEc2InstanceMetadataOptions inst.MetadataOptions))
                          match env.setErr "enclave_options" with
                          | some err =>
                            .ok { d := d,
                                  err := some (.errorf "error setting enclave_options: %w" []
                                    err),
                                  calls := calls }
                          | none =>
                            .ok { d := d.Set "enclave_options"
                                    (.blocks (env.flattenEc2EnclaveOptions inst.EnclaveOptions)),
                                  err := none, calls := calls }

/-! ## The instance data source: dataSourceAwsInstanceRead -/

/-- The ec2.Reservation struct: the instance pointers of a reservation. -/
structure Reservation where
  Instances : List (Option Instance)
  deriving DecidableEq

/-- The ec2.DescribeInstancesOutput struct. -/
structure DescribeInstancesOutput where
  Reservations : List (Option Reservation)
  deriving DecidableEq

/-- The fields of AWSClient that dataSourceAwsInstanceRead reads. -/
structure InstanceClient where
  IgnoreTagsConfig : KeyValueTags
  partition : String
  region : String
  accountid : String
  deriving DecidableEq

/-- The arn.ARN struct of the AWS SDK. -/
structure ARN where
  Partition : String
  Service : String
  Region : String
  AccountID : String
  Resource : String
  deriving DecidableEq

/-- The method arn.ARN.String: the five parts after the "arn:" prefix, joined by
colons. -/
def ARN.String (a : ARN) : String :=
  "arn:" ++ a.Partition ++ ":" ++ a.Service ++ ":" ++ a.Region ++ ":" ++ a.AccountID
    ++ ":" ++ a.Resource

/-- The constant ec2.ServiceName. -/
def Ec2ServiceName : String := "ec2"

/-- The constant ec2.InstanceStateNameTerminated. -/
def InstanceStateNameTerminated : String := "terminated"

/-- The expression `d.Get(key).(string)` for an attribute of schema type string. -/
def InstanceData.GetString (d : InstanceData) (key : String) : String :=
  match d.Get key with
  | .str s => s
  | _ => ""

/-- The surroundings of dataSourceAwsInstanceRead that are not part of the
sources: those of instanceDescriptionAttributes, the two filter builders, the
remote DescribeInstances operation and the password data helper. -/
structure InstanceReadEnv where
  attributes : InstanceEnv
  buildAwsDataSourceFilters : AttrValue → List (String × List String)
  ec2TagFiltersFromMap : AttrValue → List (String × List String)
  DescribeInstances :
    DescribeInstancesInput → Option DescribeInstancesOutput × Option SdkError
  getAwsEc2InstancePasswordData : String → String × Option GoError

/-- The statements of dataSourceAwsInstanceRead that build up the search
parameters. -/
def searchParams (env : InstanceReadEnv) (d : InstanceData) : DescribeInstancesInput :=
  let params : DescribeInstancesInput := { Filters := [], InstanceIds := [] }
  let params :=
    if d.GetOk "filter" then
      { params with Filters := env.buildAwsDataSourceFilters (d.Get "filter") }
    else params
  let params :=
    if d.GetOk "instance_id" then
      { params with InstanceIds := [some (d.GetString "instance_id")] }
    else params
  let params :=
    if d.GetOk "instance_tags" then
      { params with
        Filters := params.Filters ++ env.ec2TagFiltersFromMap (d.Get "instance_tags") }
    else params
  params

/-- The condition of the filter loop:
`instance.State != nil && aws.StringValue(instance.State.Name) != "terminated"`. -/
def isLive (inst : Instance) : Bool :=
  match inst.State with
  | some state => StringValue state.Name != InstanceStateNameTerminated
  | none => false

/-- The inner loop of dataSourceAwsInstanceRead over the instances of one
reservation: an instance that passes the condition is appended to
`filteredInstances`; a nil instance pointer faults. -/
def appendLiveInstances :
    List (Option Instance) → List Instance → Except Panic (List Instance)
  | [], filteredInstances => .ok filteredInstances
  | none :: _, _ => .error .nilDereference
  | some inst :: rest, filteredInstances =>
    if isLive inst then appendLiveInstances rest (filteredInstances ++ [inst])
    else appendLiveInstances rest filteredInstances

/-- The outer loop of dataSourceAwsInstanceRead over the reservations; a nil
reservation pointer faults. -/
def filterReservations :
    List (Option Reservation) → List Instance → Except Panic (List Instance)
  | [], filteredInstances => .ok filteredInstances
  | none :: _, _ => .error .nilDereference
  | some res :: rest, filteredInstances =>
    match appendLiveInstances res.Instances filteredInstances with
    | .error p => .error p
    | .ok filteredInstances => filterReservations rest filteredInstances

/-- The error of dataSourceAwsInstanceRead for an empty selection. -/
def noResultsError : GoError :=
  .message "Your query returned no results. Please change your search criteria and try again."

/-- The error of dataSourceAwsInstanceRead for a selection of several instances. -/
def moreThanOneError : GoError :=
  .message
    "Your query returned more than one result. Please try a more specific search criteria."

/-- The statements of dataSourceAwsInstanceRead from the response to the
selected instance: the returned error, or the instance `filteredInstances[0]`. -/
def selectInstance (resp : DescribeInstancesOutput) : Except Panic (Except GoError Instance) :=
  if resp.Reservations.length == 0 then .ok (.error noResultsError)
  else
    match filterReservations resp.Reservations [] with
    | .error p => .error p
    | .ok filteredInstances =>
      if filteredInstances.length < 1 then .ok (.error noResultsError)
      else if filteredInstances.length > 1 then .ok (.error moreThanOneError)
      else
        match filteredInstances with
        | inst :: _ => .ok (.ok inst)
        | [] => .error .indexOutOfRange

/-- The statements of dataSourceAwsInstanceRead after the selection: the call of
instanceDescriptionAttributes, the password data and the ARN. The calls are those
after DescribeInstances. -/
def describeSelected (lib : Lib) (client : InstanceClient) (env : InstanceReadEnv)
    (d : InstanceData) (inst : Instance) : Except Panic InstanceResult :=
  match instanceDescriptionAttributes lib env.attributes d (some inst)
      client.IgnoreTagsConfig with
  | .error p => .error p
  | .ok r =>
    match r.err with
    | some err => .ok { d := r.d, err := some err, calls := r.calls }
    | none =>
      let d := r.d
      let instanceId := StringValue inst.InstanceId
      let password : InstanceData × Option GoError × List Ec2Call :=
        if d.GetBool "get_password_data" then
          match env.getAwsEc2InstancePasswordData instanceId with
          | (_, some err) =>
            (d, some err, [Ec2Call.getAwsEc2InstancePasswordData instanceId])
          | (passwordData, none) =>
            (d.Set "password_data" (.str passwordData), none,
              [Ec2Call.getAwsEc2InstancePasswordData instanceId])
        else (d, none, [])
      match password with
      | (d, some err, passwordCalls) =>
        .ok { d := d, err := some err, calls := r.calls ++ passwordCalls }
      | (d, none, passwordCalls) =>
        let arn : ARN :=
          { Partition := client.partition, Region := client.region,
            Service := Ec2ServiceName, AccountID := client.accountid,
            Resource := "instance/" ++ d.Id }
        .ok { d := d.Set "arn" (.str arn.String), err := none,
              calls := r.calls ++ passwordCalls }

/-- The function dataSourceAwsInstanceRead. `client` stands for `meta`, `env` for
the connection and the helpers. -/
def dataSourceAwsInstanceRead (lib : Lib) (client : InstanceClient) (env : InstanceReadEnv)
    (d : InstanceData) : Except Panic InstanceResult :=
  if !d.GetOk "filter" && !d.GetOk "instance_id" && !d.GetOk "instance_tags" then
    .ok { d := d,
          err := some (.message "One of filters, instance_tags, or instance_id must be assigned"),
          calls := [] }
  else
    let params := searchParams env d
    match env.DescribeInstances params with
    | (_, some e) =>
      .ok { d := d, err := some (.sdk e), calls := [Ec2Call.DescribeInstances params] }
    | (none, none) => .error .nilDereference
    | (some resp, none) =>
      match selectInstance resp with
      | .error p => .error p
      | .ok (.error err) =>
        .ok { d := d, err := some err, calls := [Ec2Call.DescribeInstances params] }
      | .ok (.ok inst) =>
        match describeSelected lib client env d inst with
        | .error p => .error p
        | .ok r =>
          .ok { d := r.d, err := r.err, calls := Ec2Call.DescribeInstances params :: r.calls }

/-! ## The instance data source: the calls on every path -/

/-- An execution of the data source read: the calls on the connection up to its
end, and how it ended, with a fault or with the resource data and the returned
error. -/
structure InstanceRun where
  calls : List Ec2Call
  outcome : Except Panic (InstanceData × Option GoError)

/-- The result of an execution as an `InstanceResult`; a fault keeps no call
log. -/
def InstanceRun.toResult (run : InstanceRun) : Except Panic InstanceResult :=
  match run.outcome with
  | .error p => .error p
  | .ok (d, err) => .ok { d := d, err := err, calls := run.calls }

/-- The two DescribeInstanceAttribute blocks of instanceDescriptionAttributes as
an execution: as `readInstanceAttributes`, with the calls kept when the first
block faults. -/
def readInstanceAttributesRun (env : InstanceEnv) (d : InstanceData) : InstanceRun :=
  let terminationInput : DescribeInstanceAttributeInput :=
    { Attribute := some "disableApiTermination", InstanceId := some d.Id }
  match env.DescribeInstanceAttribute terminationInput with
  | (_, some e) =>
    { calls := [Ec2Call.DescribeInstanceAttribute terminationInput],
      outcome := .ok (d, some (.sdk e)) }
  | (none, none) =>
    { calls := [Ec2Call.DescribeInstanceAttribute terminationInput],
      outcome := .error .nilDereference }
  | (some attr, none) =>
    match attr.DisableApiTermination with
    | none =>
      { calls := [Ec2Call.DescribeInstanceAttribute terminationInput],
        outcome := .error .nilDereference }
    | some termination =>
      let d := d.Set "disable_api_termination" (.ofBool termination.Value)
      let userDataInput : DescribeInstanceAttributeInput :=
        { Attribute := some InstanceAttributeNameUserData, InstanceId := some d.Id }
      let calls := [Ec2Call.DescribeInstanceAttribute terminationInput,
        Ec2Call.DescribeInstanceAttribute userDataInput]
      match env.DescribeInstanceAttribute userDataInput with
      | (_, some e) => { calls := calls, outcome := .ok (d, some (.sdk e)) }
      | (attr, none) =>
        match attr.bind (fun a => a.UserData) |>.bind (fun u => u.Value) with
        | some value =>
          let d := d.Set "user_data" (.str (env.userDataHashSum value))
          let d := if d.GetBool "get_user_data" then d.Set "user_data_base64" (.str value) else d
          { calls := calls, outcome := .ok (d, none) }
        | none => { calls := calls, outcome := .ok (d, none) }

/-- The function instanceDescriptionAttributes as an execution: as
`instanceDescriptionAttributes`, with the calls kept when it faults. -/
def instanceDescriptionAttributesRun (lib : Lib) (env : InstanceEnv) (d : InstanceData)
    (inst : Option Instance) (ignoreTagsConfig : KeyValueTags) : InstanceRun :=
  match inst with
  | none => { calls := [], outcome := .error .nilDereference }
  | some inst =>
    let d := d.SetId (StringValue inst.InstanceId)
    match inst.State with
    | none => { calls := [], outcome := .error .nilDereference }
    | some state =>
      let d := d.Set "instance_state" (.ofString state.Name)
      match setPlacementAttributes d inst with
      | .error p => { calls := [], outcome := .error p }
      | .ok d =>
        let d := d.Set "ami" (.ofString inst.ImageId)
        let d := d.Set "instance_type" (.ofString inst.InstanceType)
        let d := d.Set "key_name" (.ofString inst.KeyName)
        let d := d.Set "public_dns" (.ofString inst.PublicDnsName)
        let d := d.Set "public_ip" (.ofString inst.PublicIpAddress)
        let d := d.Set "private_dns" (.ofString inst.PrivateDnsName)
        let d := d.Set "private_ip" (.ofString inst.PrivateIpAddress)
        let d := d.Set "outpost_arn" (.ofString inst.OutpostArn)
        match setIamInstanceProfile env d inst with
        | (d, some err) => { calls := [], outcome := .ok (d, some err) }
        | (d, none) =>
          let interfaces : Except Panic (InstanceData × Option GoError) :=
            if inst.NetworkInterfaces.length > 0 then
              setNetworkInterfaces env inst.NetworkInterfaces d
            else
              .ok ((d.Set "subnet_id" (.ofString inst.SubnetId)).Set "network_interface_id"
                (.str ""), none)
          match interfaces with
          | .error p => { calls := [], outcome := .error p }
          | .ok (d, some err) => { calls := [], outcome := .ok (d, some err) }
          | .ok (d, none) =>
            let d := d.Set "ebs_optimized" (.ofBool inst.EbsOptimized)
            let d :=
              if StringValue inst.SubnetId != "" then
                d.Set "source_dest_check" (.ofBool inst.SourceDestCheck)
              else d
            let d :=
              match inst.Monitoring with
              | some monitoring =>
                let monitoringState := StringValue monitoring.State
                d.Set "monitoring"
                  (.bool (monitoringState == "enabled" || monitoringState == "pending"))
              | none => d
            match env.setErr "tags" with
            | some err =>
              { calls := [], outcome := .ok (d, some (.errorf "error setting tags: %w" [] err)) }
            | none =>
              let d := d.Set "tags"
                (.tags (lib.IgnoreConfig (lib.IgnoreAws inst.Tags) ignoreTagsConfig))
              match env.readSecurityGroups d inst with
              | (d, some err) =>
                { calls := [Ec2Call.readSecurityGroups], outcome := .ok (d, some err) }
              | (d, none) =>
                let calls := [Ec2Call.readSecurityGroups, Ec2Call.readBlockDevices]
                match env.readBlockDevices d inst with
                | (d, some err) => { calls := calls, outcome := .ok (d, some err) }
                | (d, none) =>
                  let d :=
                    if !d.GetOk "ephemeral_block_device" then
                      d.Set "ephemeral_block_device" (.blocks [])
                    else d
                  let attributes := readInstanceAttributesRun env d
                  let calls := calls ++ attributes.calls
                  match attributes.outcome with
                  | .error p => { calls := calls, outcome := .error p }
                  | .ok (d, some err) => { calls := calls, outcome := .ok (d, some err) }
                  | .ok (d, none) =>
                    match readCreditSpecifications env d inst with
                    | (_, some err, creditCalls) =>
                      { calls := calls ++ creditCalls, outcome := .ok (d, some err) }
                    | (creditSpecifications, none, creditCalls) =>
                      let calls := calls ++ creditCalls
                      match env.setErr "credit_specification" with
                      | some err =>
                        { calls := calls,
                          outcome := .ok (d,
                            some (.errorf "error setting credit_specification: %w" [] err)) }
                      | none =>
                        let d := d.Set "credit_specification" (.blocks creditSpecifications)
                        match env.setErr "metadata_options" with
                        | some err =>
                          { calls := calls,
                            outcome := .ok (d,
                              some (.errorf "error setting metadata_options: %w" [] err)) }
                        | none =>
                          let d := d.Set "metadata_options"
                            (.blocks (env.flattenEc2InstanceMetadataOptions inst.MetadataOptions))
                          match env.setErr "enclave_options" with
                          | some err =>
                            { calls := calls,
                              outcome := .ok (d,
                                some (.errorf "error setting enclave_options: %w" [] err)) }
                          | none =>
                            { calls := calls,
                              outcome := .ok (d.Set "enclave_options"
                                (.blocks (env.flattenEc2EnclaveOptions inst.EnclaveOptions)),
                                none) }

/-- The statements of dataSourceAwsInstanceRead after the selection as an
execution: as `describeSelected`, with the calls kept when
instanceDescriptionAttributes faults. -/
def describeSelectedRun (lib : Lib) (client : InstanceClient) (env : InstanceReadEnv)
    (d : InstanceData) (inst : Instance) : InstanceRun :=
  let described := instanceDescriptionAttributesRun lib env.attributes d (some inst)
    client.IgnoreTagsConfig
  match described.outcome with
  | .error p => { calls := described.calls, outcome := .error p }
  | .ok (d, some err) => { calls := described.calls, outcome := .ok (d, some err) }
  | .ok (d, none) =>
    let instanceId := StringValue inst.InstanceId
    let password : InstanceData × Option GoError × List Ec2Call :=
      if d.GetBool "get_password_data" then
        match env.getAwsEc2InstancePasswordData instanceId with
        | (_, some err) =>
          (d, some err, [Ec2Call.getAwsEc2InstancePasswordData instanceId])
        | (passwordData, none) =>
          (d.Set "password_data" (.str passwordData), none,
            [Ec2Call.getAwsEc2InstancePasswordData instanceId])
      else (d, none, [])
    match password with
    | (d, some err, passwordCalls) =>
      { calls := described.calls ++ passwordCalls, outcome := .ok (d, some err) }
    | (d, none, passwordCalls) =>
      let arn : ARN :=
        { Partition := client.partition, Region := client.region,
          Service := Ec2ServiceName, AccountID := client.accountid,
          Resource := "instance/" ++ d.Id }
      { calls := described.calls ++ passwordCalls,
        outcome := .ok (d.Set "arn" (.str arn.String), none) }

/-- The function dataSourceAwsInstanceRead as an execution: as
`dataSourceAwsInstanceRead`, with the calls kept when it faults. -/
def dataSourceAwsInstanceReadRun (lib : Lib) (client : InstanceClient)
    (env : InstanceReadEnv) (d : InstanceData) : InstanceRun :=
  if !d.GetOk "filter" && !d.GetOk "instance_id" && !d.GetOk "instance_tags" then
    { calls := [],
      outcome := .ok (d,
        some (.message "One of filters, instance_tags, or instance_id must be assigned")) }
  else
    let params := searchParams env d
    match env.DescribeInstances params with
    | (_, some e) =>
      { calls := [Ec2Call.DescribeInstances params], outcome := .ok (d, some (.sdk e)) }
    | (none, none) =>
      { calls := [Ec2Call.DescribeInstances params], outcome := .error .nilDereference }
    | (some resp, none) =>
      match selectInstance resp with
      | .error p => { calls := [Ec2Call.DescribeInstances params], outcome := .error p }
      | .ok (.error err) =>
        { calls := [Ec2Call.DescribeInstances params], outcome := .ok (d, some err) }
      | .ok (.ok inst) =>
        let selected := describeSelectedRun lib client env d inst
        { calls := Ec2Call.DescribeInstances params :: selected.calls,
          outcome := selected.outcome }

/-- Whether the name of an operation of the EC2 API is that of a describe or a
get operation. -/
def isDescribeOrGet (operation : String) : Bool :=
  HasPrefix operation "Describe" || HasPrefix operation "Get"

/-- Whether a logged call is the call of one of the four helpers that receive the
connection and are not part of the sources. -/
def Ec2Call.isHelper : Ec2Call → Bool
  | .readSecurityGroups => true
  | .readBlockDevices => true
  | .getCreditSpecifications _ => true
  | .getAwsEc2InstancePasswordData _ => true
  | _ => false

/-- The operations of the EC2 API behind a logged call: the operation itself for
a call on the connection, and for the call of a helper the operations `issued`
that the helper issues, which the sources do not show. -/
def Ec2Call.operations (issued : Ec2Call → List String) : Ec2Call → List String
  | .DescribeInstances _ => ["DescribeInstances"]
  | .DescribeInstanceAttribute _ => ["DescribeInstanceAttribute"]
  | .other operation => [operation]
  | .readSecurityGroups => issued .readSecurityGroups
  | .readBlockDevices => issued .readBlockDevices
  | .getCreditSpecifications instanceId => issued (.getCreditSpecifications instanceId)
  | .getAwsEc2InstancePasswordData instanceId =>
    issued (.getAwsEc2InstancePasswordData instanceId)

/-! ## Concrete inputs -/

/-- A stand-in for the library functions at concrete inputs: tags pass through
unchanged and every settings string decodes to the empty object. -/
def stubLib : Lib :=
  { MergeTags := fun a b => a ++ b,
    IgnoreAws := fun t => t,
    IgnoreConfig := fun t _ => t,
    RemoveDefaultConfig := fun t _ => t,
    Unmarshal := fun _ => .ok (some []),
    Marshal := fun _ => .ok "\x7b\x7d" }

/-- A client without default or ignored tags. -/
def plainClient : AWSClient :=
  { DefaultTagsConfig := [], IgnoreTagsConfig := [] }

/-- A resource with identity "task-1" and no attribute set. -/
def sampleData : ResourceData :=
  { id := "task-1", attrs := [("replication_task_id", "task-1")], prior := [],
    tags := [], tagsAll := [], priorTagsAll := [], timeoutCreate := 600 }

/-- A remote task "task-1" in the given status. -/
def taskWithStatus (status : String) : ReplicationTask :=
  { CdcStartPosition := none, MigrationType := some "full-load",
    ReplicationInstanceArn := some "arn:instance", ReplicationTaskArn := some "arn:task",
    ReplicationTaskIdentifier := some "task-1", ReplicationTaskSettings := some "\x7b\x7d",
    SourceEndpointArn := some "arn:source", Status := some status,
    TableMappings := some "\x7b\x7d", TargetEndpointArn := some "arn:target" }

/-- A remote task "task-1" whose Status field is nil. -/
def taskWithoutStatus : ReplicationTask :=
  { taskWithStatus "ready" with Status := none }

/-- A describe operation that finds the task "task-1" in the given status. -/
def describeStatus (status : String) : DescribeApi :=
  fun _ => { output := some { ReplicationTasks := some [some (taskWithStatus status)] },
             err := none }

/-- A describe operation that fails with the given error. -/
def describeError (e : SdkError) : DescribeApi :=
  fun _ => { output := none, err := some e }

/-- A describe operation that succeeds with the given output. -/
def describeOutput (v : DescribeReplicationTasksOutput) : DescribeApi :=
  fun _ => { output := some v, err := none }

/-- A read environment around the given describe operation; the tag calls succeed. -/
def readEnvOf (describe : DescribeApi) : ReadEnv :=
  { describe := describe, listTags := fun _ => ([], none),
    setTagsErr := none, setTagsAllErr := none }

/-- A resource "task-1" whose migration_type differs from the prior state. -/
def changedData : ResourceData :=
  { id := "task-1",
    attrs := [("replication_task_id", "task-1"), ("replication_task_arn", "arn:task"),
      ("migration_type", "full-load")],
    prior := [("replication_task_id", "task-1"), ("replication_task_arn", "arn:task"),
      ("migration_type", "cdc")],
    tags := [], tagsAll := [], priorTagsAll := [], timeoutCreate := 600 }

/-- An update environment in which the modify call succeeds and every probe of
the wait, like the read after it, finds the task in status "failed". -/
def updateEnvFailed : UpdateEnv :=
  { updateTags := fun _ _ _ => none, modify := fun _ => none,
    wait := [describeStatus "failed"], read := readEnvOf (describeStatus "failed") }

/-- A stand-in for tfresource.NotFound at concrete inputs: true for a
NotFoundError and for an empty-result error, false for nil and other errors. -/
def sampleNotFound : Option GoError → Bool
  | some (.notFound _ _) => true
  | some (.emptyResult _) => true
  | _ => false

/-- A scaling plan "plan" in version 1 with status code "Active". -/
def activePlan : ScalingPlan :=
  { ScalingPlanName := some "plan", ScalingPlanVersion := some 1, StatusCode := some "Active" }

/-- A resource "task-1" whose cdc_start_time is set to a string that is no
integer, and differs from the prior state. -/
def malformedTimeData : ResourceData :=
  { id := "task-1",
    attrs := [("replication_task_id", "task-1"), ("replication_task_arn", "arn:task"),
      ("cdc_start_time", "2021-01-01")],
    prior := [("replication_task_id", "task-1"), ("replication_task_arn", "arn:task")],
    tags := [], tagsAll := [("env", "prod")], priorTagsAll := [], timeoutCreate := 600 }

/-- A delete environment whose delete call fails with the given error; the
remote would answer "deleting" to a probe. -/
def deleteEnvError (e : SdkError) : DeleteEnv :=
  { delete := fun _ => some e, wait := [describeStatus "deleting"] }

/-- An imported resource: only the identity "task-1" is set. -/
def importedData : ResourceData :=
  { id := "task-1", attrs := [], prior := [], tags := [], tagsAll := [], priorTagsAll := [],
    timeoutCreate := 600 }

/-- The resource of `changedData` under another identity, "task-2", with the same
replication_task_arn attribute. -/
def otherIdData : ResourceData :=
  { changedData with id := "task-2" }

/-- The settings document `{"Logging":{"CloudWatchLogGroup":"g"}}` as text. -/
def loggingSettingsText : String :=
  "\x7b\"Logging\":\x7b\"CloudWatchLogGroup\":\"g\"\x7d\x7d"

/-- The settings document `{"Logging":{}}` as text. -/
def emptyLoggingSettingsText : String :=
  "\x7b\"Logging\":\x7b\x7d\x7d"

/-- A stand-in for json.Unmarshal at concrete inputs: it decodes `null`, the
empty object and the two logging documents above, and rejects every other string. -/
def sampleUnmarshal (s : String) : Except GoError (Option JsonMap) :=
  if s = "null" then .ok none
  else if s = "\x7b\x7d" then .ok (some [])
  else if s = loggingSettingsText then
    .ok (some [("Logging", .object [("CloudWatchLogGroup", .string "g")])])
  else if s = emptyLoggingSettingsText then .ok (some [("Logging", .object [])])
  else .error (.message "invalid character looking for beginning of value")

/-- A stand-in for json.Marshal at concrete inputs: it encodes the nil map, the
empty object and an object whose only member is an empty "Logging" object. -/
def sampleMarshal : Option JsonMap → Except GoError String
  | none => .ok "null"
  | some [] => .ok "\x7b\x7d"
  | some [(key, .object [])] =>
    if key = "Logging" then .ok emptyLoggingSettingsText
    else .error (.message "unsupported value")
  | some _ => .error (.message "unsupported value")

/-- The library stand-in with the two JSON stand-ins above. -/
def jsonLib : Lib :=
  { stubLib with Unmarshal := sampleUnmarshal, Marshal := sampleMarshal }

/-- A remote task "task-1" in status "ready" with the given settings pointer. -/
def taskWithSettings (settings : Option String) : ReplicationTask :=
  { taskWithStatus "ready" with ReplicationTaskSettings := settings }

/-- Whether a logged call is a ModifyReplicationTask call. -/
def Call.isModify : Call → Bool
  | .ModifyReplicationTask _ => true
  | _ => false

/-- The resource of `changedData` with a change of tags_all as well. -/
def changedTagsData : ResourceData :=
  { changedData with tagsAll := [("env", "prod")] }

/-- An update environment in which the tag update is denied. -/
def updateEnvTagsDenied : UpdateEnv :=
  { updateEnvFailed with
    updateTags := fun _ _ _ => some (.sdk (.aws "AccessDeniedException" "denied")) }

/-- The statement pattern of the clean-up,
`if o, ok := m[key].(map[string]interface{}); ok { ... }`: when the value under
`key` is an object it is changed in place by `f`, otherwise the map stays. -/
def storeObject (m : JsonMap) (key : String) (f : JsonMap → JsonMap) : JsonMap :=
  match mapIndex m key with
  | some (.object o) => mapStore m key (.object (f o))
  | _ => m

/-- The settings document `{"a":1e999}` as text: a JSON object whose only member
is a number beyond the float64 range. -/
def outOfRangeNumberText : String :=
  "\x7b\"a\":1e999\x7d"

/-- The settings document `{"a":12345678901234567890}` as text: a JSON object
whose only member is an integer that is no float64. -/
def bigNumberText : String :=
  "\x7b\"a\":12345678901234567890\x7d"

/-- The settings document `{"a":12345678901234567000}` as text. -/
def roundedNumberText : String :=
  "\x7b\"a\":12345678901234567000\x7d"

/-- A stand-in for the JSON texts at concrete inputs: the values of `null`, `[]`,
`"x"`, `1`, the empty object, the two logging documents and the three number
documents; every other string counts as no JSON text. -/
def sampleParse (s : String) : Option JsonValue :=
  if s = "null" then some .null
  else if s = "[]" then some (.array [])
  else if s = "\"x\"" then some (.string "x")
  else if s = "1" then some (.number 1)
  else if s = "\x7b\x7d" then some (.object [])
  else if s = loggingSettingsText then
    some (.object [("Logging", .object [("CloudWatchLogGroup", .string "g")])])
  else if s = emptyLoggingSettingsText then some (.object [("Logging", .object [])])
  else if s = outOfRangeNumberText then some (.object [("a", .number (10 ^ 999))])
  else if s = bigNumberText then some (.object [("a", .number 12345678901234567890)])
  else if s = roundedNumberText then some (.object [("a", .number 12345678901234567000)])
  else none

/-- A stand-in for strconv.ParseFloat with 64 bits at concrete inputs: 1e999 is
out of range, 12345678901234567890 is rounded to the nearest float64,
12345678901234567168, and every other number of the sample documents is a
float64. -/
def sampleParseFloat (value : ℚ) : Option ℚ :=
  if value = 10 ^ 999 then none
  else if value = 12345678901234567890 then some 12345678901234567168
  else some value

/-- A stand-in for the text json.Marshal writes at concrete inputs: the nil map,
the empty object, an object whose only member is an empty "Logging" object, and
the object whose only member "a" is the float64 12345678901234567168, written
with the shortest digits that give this float64 back. -/
def sampleEncode : Option JsonMap → String
  | none => "null"
  | some [] => "\x7b\x7d"
  | some [(key, .object [])] => if key = "Logging" then emptyLoggingSettingsText else ""
  | some [(key, .number value)] =>
    if key = "a" ∧ value = 12345678901234567168 then roundedNumberText else ""
  | some _ => ""

/-- A stand-in for the error of json.Unmarshal at concrete inputs. -/
def sampleUnmarshalError (data : String) : GoError :=
  if data = outOfRangeNumberText then
    .message "json: cannot unmarshal number 1e999 into Go value of type float64"
  else if data = "[]" then
    .message "json: cannot unmarshal array into Go value of type map[string]interface \x7b\x7d"
  else .message "json: rejected"

/-- The stand-ins above as a codec. -/
def sampleCodec : JsonCodec :=
  { parse := sampleParse, ParseFloat := sampleParseFloat,
    unmarshalError := sampleUnmarshalError, encode := sampleEncode }

/-- A remote task in status "ready" whose ReplicationTaskIdentifier is nil. -/
def taskWithoutIdentifier : ReplicationTask :=
  { taskWithStatus "ready" with ReplicationTaskIdentifier := none }

/-- A DescribeInstances response without nil pointers: one reservation for every
list of instances. -/
def responseOf (rs : List (List Instance)) : DescribeInstancesOutput :=
  { Reservations := rs.map (fun instances => some { Instances := instances.map some }) }

/-- A T2 instance "i-1" in the given state, with a placement and without network
interfaces. -/
def instanceInState (name : String) : Instance :=
  { InstanceId := some "i-1", State := some { Name := some name },
    Placement := some { AvailabilityZone := some "eu-west-1a", GroupName := none,
                        PartitionNumber := none, Tenancy := some "default", HostId := none },
    ImageId := some "ami-1", InstanceType := some "t2.micro", KeyName := none,
    PublicDnsName := none, PublicIpAddress := none, PrivateDnsName := none,
    PrivateIpAddress := some "10.0.0.1", OutpostArn := none, IamInstanceProfile := none,
    NetworkInterfaces := [], SubnetId := some "subnet-1", EbsOptimized := some false,
    SourceDestCheck := some true, Monitoring := some { State := some "disabled" },
    Tags := [], MetadataOptions := none, EnclaveOptions := none }

/-- A stand-in for the helper isAWSErr: the error is an SDK error with the given
code (the message is not compared). -/
def sampleIsAWSErr (err : GoError) (code : String) (_message : String) : Bool :=
  match err with
  | .sdk e => e.hasCode code
  | _ => false

/-- Surroundings in which every helper and every remote operation succeeds; the
credit specification lookup returns `credit`. -/
def instanceEnvWithCredit (credit : List (List (String × String)) × Option GoError) :
    InstanceEnv :=
  { InstanceProfileARNToName := fun arn => (arn, none),
    setErr := fun _ => none,
    readSecurityGroups := fun d _ => (d, none),
    readBlockDevices := fun d _ => (d, none),
    DescribeInstanceAttribute := fun _ =>
      (some { DisableApiTermination := some { Value := some false }, UserData := none }, none),
    userDataHashSum := fun s => s,
    getCreditSpecifications := fun _ => credit,
    isAWSErr := sampleIsAWSErr,
    flattenEc2InstanceMetadataOptions := fun _ => [],
    flattenEc2EnclaveOptions := fun _ => [] }

/-- Surroundings in which the credit specification lookup returns one
specification and no error. -/
def plainInstanceEnv : InstanceEnv :=
  instanceEnvWithCredit ([[("cpu_credits", "standard")]], none)

/-- Surroundings in which the credit specification lookup returns an
UnsupportedOperation error. -/
def unsupportedCreditEnv : InstanceEnv :=
  instanceEnvWithCredit
    ([], some (.sdk (.aws "UnsupportedOperation" "The functionality is not supported")))

/-- Surroundings of the read in which DescribeInstances returns the given
instances in reservations and the password data lookup succeeds. -/
def instanceReadEnv (attributes : InstanceEnv) (rs : List (List Instance)) : InstanceReadEnv :=
  { attributes := attributes,
    buildAwsDataSourceFilters := fun _ => [],
    ec2TagFiltersFromMap := fun _ => [],
    DescribeInstances := fun _ => (some (responseOf rs), none),
    getAwsEc2InstancePasswordData := fun _ => ("secret", none) }

/-- A client in partition "aws", region "eu-west-1", account "123456789012". -/
def regionClient : InstanceClient :=
  { IgnoreTagsConfig := [], partition := "aws", region := "eu-west-1",
    accountid := "123456789012" }

/-- The configuration `instance_id = "i-1"` of the instance data source. -/
def instanceIdData : InstanceData :=
  { id := "", attrs := [("instance_id", .str "i-1")] }

/-- A configuration of the instance data source without filter, instance_tags and
instance_id. -/
def emptyInstanceData : InstanceData :=
  { id := "", attrs := [] }

/-- The configuration `instance_id = "i-1"` with get_password_data set. -/
def passwordInstanceData : InstanceData :=
  { id := "", attrs := [("instance_id", .str "i-1"), ("get_password_data", .bool true)] }

/-- A stand-in for the operations that the four helpers issue on the connection. -/
def sampleIssued : Ec2Call → List String
  | .readSecurityGroups => ["DescribeVpcs"]
  | .readBlockDevices => ["DescribeVolumes"]
  | .getCreditSpecifications _ => ["DescribeInstanceCreditSpecifications"]
  | .getAwsEc2InstancePasswordData _ => ["GetPasswordData"]
  | _ => []

/-! ## Theorems -/

/-- C1: for every resource state, when DescribeReplicationTasks fails with an AWS
error whose code is "ResourceNotFoundFault", the read handler returns normally,
with the identity set to the empty string and no error. -/
theorem resourceAwsDmsReplicationTaskRead_not_found (lib : Lib) (client : AWSClient)
    (env : ReadEnv) (d : ResourceData) (msg : String)
    (h : (env.describe (describeByIdInput d.Id)).err
      = some (.aws "ResourceNotFoundFault" msg)) :
    ∃ r, resourceAwsDmsReplicationTaskRead lib client env d = .ok r
      ∧ r.d.Id = "" ∧ r.err = none := by
  refine ⟨{ d := d.SetId "", err := none,
            calls := [Call.DescribeReplicationTasks (describeByIdInput d.Id)] }, ?_, rfl, rfl⟩
  simp [resourceAwsDmsReplicationTaskRead, h, SdkError.hasCode]

/-- C1 at a concrete input: the read of "task-1" against a remote that answers
ResourceNotFoundFault. -/
theorem resourceAwsDmsReplicationTaskRead_not_found_witness :
    ∃ r, resourceAwsDmsReplicationTaskRead stubLib plainClient
        (readEnvOf (describeError (.aws "ResourceNotFoundFault" "gone"))) sampleData = .ok r
      ∧ r.d.Id = "" ∧ r.err = none :=
  resourceAwsDmsReplicationTaskRead_not_found stubLib plainClient
    (readEnvOf (describeError (.aws "ResourceNotFoundFault" "gone"))) sampleData "gone" rfl

/-- An error of a remote call that is not an AWS error with the given code does
not pass the code test. -/
theorem hasCode_eq_false_of_ne (code : String) (e : SdkError)
    (h : ¬ ∃ msg, e = .aws code msg) : e.hasCode code = false := by
  cases e with
  | aws c m =>
    have hc : c ≠ code := fun hc => h ⟨m, by rw [hc]⟩
    simp [SdkError.hasCode, hc]
  | other m => rfl

/-- C2: when the remote query fails with error `e`, the DMS status prober returns
confirmed absence `(nil, "", nil)` if `e` is an AWS error with code
"ResourceNotFoundFault", and `(nil, "", e)` with `e` unchanged for every other
error; so no other error becomes a result without an error. -/
theorem resourceAwsDmsReplicationTaskStateRefreshFunc_error (id : String) (conn : DescribeApi)
    (e : SdkError) (h : (conn (describeByIdInput id)).err = some e) :
    ((∃ msg, e = .aws "ResourceNotFoundFault" msg) →
        resourceAwsDmsReplicationTaskStateRefreshFunc id conn
          = .ok { result := none, label := "", err := none })
    ∧ ((¬ ∃ msg, e = .aws "ResourceNotFoundFault" msg) →
        resourceAwsDmsReplicationTaskStateRefreshFunc id conn
          = .ok { result := none, label := "", err := some (.sdk e) })
    ∧ ((¬ ∃ msg, e = .aws "ResourceNotFoundFault" msg) →
        ∀ r, resourceAwsDmsReplicationTaskStateRefreshFunc id conn = .ok r → r.err ≠ none) := by
  refine ⟨?_, ?_, ?_⟩
  · rintro ⟨msg, rfl⟩
    simp [resourceAwsDmsReplicationTaskStateRefreshFunc, h, SdkError.hasCode]
  · intro hne
    simp [resourceAwsDmsReplicationTaskStateRefreshFunc, h, hasCode_eq_false_of_ne _ e hne]
  · intro hne r hr
    simp [resourceAwsDmsReplicationTaskStateRefreshFunc, h, hasCode_eq_false_of_ne _ e hne] at hr
    rw [← hr]
    simp

/-- C2 at concrete inputs: an access-denied error is handed on unchanged. -/
theorem resourceAwsDmsReplicationTaskStateRefreshFunc_error_witness :
    resourceAwsDmsReplicationTaskStateRefreshFunc "task-1"
        (describeError (.aws "AccessDeniedException" "denied"))
      = .ok { result := none, label := "", err := some (.sdk (.aws "AccessDeniedException" "denied")) } :=
  (resourceAwsDmsReplicationTaskStateRefreshFunc_error "task-1"
    (describeError (.aws "AccessDeniedException" "denied"))
    (.aws "AccessDeniedException" "denied") rfl).2.1 (by simp)

/-- C3, the code at the failing inputs: for a successful, non-nil response the
status prober faults when the task list is nil (index out of range), when it is
empty (index out of range), and when the first task has no Status (nil
dereference). -/
theorem resourceAwsDmsReplicationTaskStateRefreshFunc_faults (id : String) :
    resourceAwsDmsReplicationTaskStateRefreshFunc id
        (describeOutput { ReplicationTasks := none }) = .error .indexOutOfRange
    ∧ resourceAwsDmsReplicationTaskStateRefreshFunc id
        (describeOutput { ReplicationTasks := some [] }) = .error .indexOutOfRange
    ∧ resourceAwsDmsReplicationTaskStateRefreshFunc id
        (describeOutput { ReplicationTasks := some [some taskWithoutStatus] })
        = .error .nilDereference := by
  refine ⟨rfl, rfl, rfl⟩

/-- C4: with `(plan, err)` the pair returned by the finder, statusScalingPlanCode
returns `(nil, "", nil)` exactly when `err` is a not-found error; for every other
error it returns `(nil, "", err)` with the same `err`; and on success (no error,
which is not a not-found error, and a plan) it returns the plan with its
StatusCode as label, the empty string when StatusCode is nil. -/
theorem statusScalingPlanCode_outcomes (NotFound : Option GoError → Bool)
    (Find : String → Int → Option ScalingPlan × Option GoError) (name : String) (version : Int) :
    (statusScalingPlanCode NotFound Find name version
        = .ok { result := none, label := "", err := none }
      ↔ NotFound (Find name version).2 = true)
    ∧ (∀ e, (Find name version).2 = some e → NotFound (some e) = false →
        statusScalingPlanCode NotFound Find name version
          = .ok { result := none, label := "", err := some e })
    ∧ (∀ plan, Find name version = (some plan, none) → NotFound none = false →
        statusScalingPlanCode NotFound Find name version
          = .ok { result := some plan, label := StringValue plan.StatusCode, err := none }
        ∧ (plan.StatusCode = none → StringValue plan.StatusCode = "")) := by
  refine ⟨?_, ?_, ?_⟩
  · rcases hF : Find name version with ⟨plan, err⟩
    cases hN : NotFound err with
    | true => simp [statusScalingPlanCode, hF, hN]
    | false =>
      cases err with
      | some e => simp [statusScalingPlanCode, hF, hN]
      | none =>
        cases plan with
        | none => simp [statusScalingPlanCode, hF, hN]
        | some p => simp [statusScalingPlanCode, hF, hN]
  · intro e he hN
    rcases hF : Find name version with ⟨plan, err⟩
    rw [hF] at he
    simp only at he
    subst he
    simp [statusScalingPlanCode, hF, hN]
  · intro plan hF hN
    refine ⟨?_, ?_⟩
    · simp [statusScalingPlanCode, hF, hN]
    · intro h
      simp [StringValue, h]

/-- C4 at concrete inputs: a found plan gives its status code as label, a
validation error is handed on unchanged, and an empty-result error, which the
stand-in predicate counts as not found, gives `(nil, "", nil)`. -/
theorem statusScalingPlanCode_outcomes_witness :
    statusScalingPlanCode sampleNotFound (fun _ _ => (some activePlan, none)) "plan" 1
        = .ok { result := some activePlan, label := "Active", err := none }
    ∧ statusScalingPlanCode sampleNotFound
        (fun _ _ => (none, some (.sdk (.aws "ValidationException" "bad")))) "plan" 1
        = .ok { result := none, label := "",
                err := some (.sdk (.aws "ValidationException" "bad")) }
    ∧ statusScalingPlanCode sampleNotFound
        (fun _ _ => (none, some (.emptyResult ⟨["plan"], 1⟩))) "plan" 1
        = .ok { result := none, label := "", err := none } :=
  ⟨((statusScalingPlanCode_outcomes sampleNotFound (fun _ _ => (some activePlan, none))
      "plan" 1).2.2 activePlan rfl rfl).1,
   (statusScalingPlanCode_outcomes sampleNotFound
      (fun _ _ => (none, some (.sdk (.aws "ValidationException" "bad")))) "plan" 1).2.1
      _ rfl rfl,
   (statusScalingPlanCode_outcomes sampleNotFound
      (fun _ _ => (none, some (.emptyResult ⟨["plan"], 1⟩))) "plan" 1).1.2 rfl⟩

/-- C5: with `(output, err)` the pair that DescribeScalingPlans returns for the
request built from the name and version, the finder (1) on an AWS error with code
ObjectNotFoundException returns a NotFoundError with that error as LastError and
the request as LastRequest, (2) returns every other error unchanged, (3) on a nil
output, an empty ScalingPlans list or a nil first element returns an empty-result
error, (4) otherwise returns the first plan and a nil error; and (5) the returned
plan is non-nil if and only if the returned error is nil. -/
theorem ScalingPlanByNameAndVersion_cases (conn : DescribeScalingPlansApi) (name : String)
    (version : Int) :
    (∀ msg, (conn ⟨[name], version⟩).2 = some (.aws "ObjectNotFoundException" msg) →
        ScalingPlanByNameAndVersion conn name version
          = (none, some (.notFound (some (.aws "ObjectNotFoundException" msg))
              ⟨[name], version⟩)))
    ∧ (∀ e, (conn ⟨[name], version⟩).2 = some e →
        (¬ ∃ msg, e = .aws "ObjectNotFoundException" msg) →
        ScalingPlanByNameAndVersion conn name version = (none, some (.sdk e)))
    ∧ ((conn ⟨[name], version⟩).2 = none →
        ((conn ⟨[name], version⟩).1 = none
          ∨ (conn ⟨[name], version⟩).1 = some ⟨[]⟩
          ∨ ∃ rest, (conn ⟨[name], version⟩).1 = some ⟨none :: rest⟩) →
        ScalingPlanByNameAndVersion conn name version
          = (none, some (.emptyResult ⟨[name], version⟩)))
    ∧ (∀ plan rest, conn ⟨[name], version⟩ = (some ⟨some plan :: rest⟩, none) →
        ScalingPlanByNameAndVersion conn name version = (some plan, none))
    ∧ ((ScalingPlanByNameAndVersion conn name version).1 ≠ none
        ↔ (ScalingPlanByNameAndVersion conn name version).2 = none) := by
  rcases hc : conn ⟨[name], version⟩ with ⟨output, err⟩
  refine ⟨?_, ?_, ?_, ?_, ?_⟩
  · intro msg h
    simp only at h
    subst h
    simp [ScalingPlanByNameAndVersion, hc, ErrCodeEquals, SdkError.hasCode,
      ErrCodeObjectNotFoundException]
  · intro e h hne
    simp only at h
    subst h
    simp [ScalingPlanByNameAndVersion, hc, ErrCodeEquals, ErrCodeObjectNotFoundException,
      hasCode_eq_false_of_ne _ e hne]
  · intro h hout
    simp only at h hout
    subst h
    rcases hout with h | h | ⟨rest, h⟩ <;> subst h <;>
      simp [ScalingPlanByNameAndVersion, hc, ErrCodeEquals]
  · intro plan rest h
    simp only [Prod.mk.injEq] at h
    obtain ⟨h1, h2⟩ := h
    subst h1 h2
    simp [ScalingPlanByNameAndVersion, hc, ErrCodeEquals]
  · cases err with
    | some e =>
      cases hcode : e.hasCode "ObjectNotFoundException" <;>
        simp [ScalingPlanByNameAndVersion, hc, ErrCodeEquals, ErrCodeObjectNotFoundException,
          hcode]
    | none =>
      cases output with
      | none => simp [ScalingPlanByNameAndVersion, hc, ErrCodeEquals]
      | some out =>
        rcases out with ⟨plans⟩
        cases plans with
        | nil => simp [ScalingPlanByNameAndVersion, hc, ErrCodeEquals]
        | cons p rest =>
          cases p <;> simp [ScalingPlanByNameAndVersion, hc, ErrCodeEquals]

/-- C5 at concrete inputs: an ObjectNotFoundException becomes a NotFoundError
with the error and the request, a throttling error is returned unchanged, an
empty list gives an empty-result error, and a found plan is returned. -/
theorem ScalingPlanByNameAndVersion_cases_witness :
    ScalingPlanByNameAndVersion
        (fun _ => (none, some (.aws "ObjectNotFoundException" "no plan"))) "plan" 1
      = (none, some (.notFound (some (.aws "ObjectNotFoundException" "no plan"))
          ⟨["plan"], 1⟩))
    ∧ ScalingPlanByNameAndVersion
        (fun _ => (none, some (.aws "ThrottlingException" "slow down"))) "plan" 1
      = (none, some (.sdk (.aws "ThrottlingException" "slow down")))
    ∧ ScalingPlanByNameAndVersion (fun _ => (some ⟨[]⟩, none)) "plan" 1
      = (none, some (.emptyResult ⟨["plan"], 1⟩))
    ∧ ScalingPlanByNameAndVersion (fun _ => (some ⟨[some activePlan]⟩, none)) "plan" 1
      = (some activePlan, none) :=
  ⟨(ScalingPlanByNameAndVersion_cases
      (fun _ => (none, some (.aws "ObjectNotFoundException" "no plan"))) "plan" 1).1
      "no plan" rfl,
   (ScalingPlanByNameAndVersion_cases
      (fun _ => (none, some (.aws "ThrottlingException" "slow down"))) "plan" 1).2.1
      _ rfl (by simp),
   (ScalingPlanByNameAndVersion_cases (fun _ => (some ⟨[]⟩, none)) "plan" 1).2.2.1
      rfl (Or.inr (Or.inl rfl)),
   (ScalingPlanByNameAndVersion_cases (fun _ => (some ⟨[some activePlan]⟩, none))
      "plan" 1).2.2.2.1 activePlan [] rfl⟩

/-! ### The waiter -/

/-- Probes that leave the waiter in PENDING are passed over: the wait goes on with
the rest of the remote trace and the probe count raised by their number. -/
theorem WaitForState_append_pending {α β : Type} (conf : StateChangeConf)
    (Refresh : β → Except Panic (ProbeResult α)) (pre rest : List β) (n : Nat)
    (hpre : ∀ c ∈ pre, keepsPending conf Refresh c = true) :
    WaitForState conf Refresh (pre ++ rest) n
      = WaitForState conf Refresh rest (n + pre.length) := by
  induction pre generalizing n with
  | nil => simp
  | cons c cs ih =>
    have hc : keepsPending conf Refresh c = true := hpre c (List.mem_cons_self c cs)
    have hcs : ∀ x ∈ cs, keepsPending conf Refresh x = true :=
      fun x hx => hpre x (List.mem_cons_of_mem c hx)
    unfold keepsPending at hc
    cases hR : Refresh c with
    | error p => simp [hR] at hc
    | ok r =>
      simp only [hR, beq_iff_eq] at hc
      have step : WaitForState conf Refresh (c :: (cs ++ rest)) n
          = WaitForState conf Refresh (cs ++ rest) (n + 1) := by
        simp only [WaitForState, hR, hc]
      rw [List.cons_append, step, ih (n + 1) hcs, List.length_cons]
      congr 1
      omega

/-- The waiter ends on the first probe that does not leave it in PENDING: a probe
with a terminal transition after `pre` pending probes ends the wait in that
state, with `pre.length + 1` probes issued whatever the remote would answer later. -/
theorem WaitForState_stops {α β : Type} (conf : StateChangeConf)
    (Refresh : β → Except Panic (ProbeResult α)) (pre post : List β) (conn : β)
    (r : ProbeResult α) (hpre : ∀ c ∈ pre, keepsPending conf Refresh c = true)
    (hr : Refresh conn = .ok r) :
    (transition conf r = .TARGET →
      WaitForState conf Refresh (pre ++ conn :: post) 0
        = .ok { state := .TARGET, probes := pre.length + 1, err := none })
    ∧ (transition conf r = .FAILED →
      WaitForState conf Refresh (pre ++ conn :: post) 0
        = .ok { state := .FAILED, probes := pre.length + 1,
                err := some (.unexpectedState r.label conf.Target) })
    ∧ (transition conf r = .ERROR →
      WaitForState conf Refresh (pre ++ conn :: post) 0
        = .ok { state := .ERROR, probes := pre.length + 1, err := r.err }) := by
  rw [WaitForState_append_pending conf Refresh pre (conn :: post) 0 hpre]
  refine ⟨?_, ?_, ?_⟩ <;> intro ht <;> simp [WaitForState, hr, ht]

/-- A remote trace on which every probe leaves the waiter in PENDING ends the
wait in TIMED_OUT after one probe per entry. -/
theorem WaitForState_all_pending {α β : Type} (conf : StateChangeConf)
    (Refresh : β → Except Panic (ProbeResult α)) (remote : List β)
    (h : ∀ c ∈ remote, keepsPending conf Refresh c = true) :
    WaitForState conf Refresh remote 0
      = .ok { state := .TIMED_OUT, probes := remote.length,
              err := some (.timeoutError conf.Target) } := by
  have := WaitForState_append_pending conf Refresh remote [] 0 h
  simpa [WaitForState] using this

/-- C6: in a wait of a DMS replication task handler, the first probe whose label
is in the configured target set ends the wait with TARGET on that very probe:
after `pre` probes that left the waiter pending, the wait has issued exactly
`pre.length + 1` probes and returns no error, whatever the remote would answer
to later probes. -/
theorem waitForTask_target_label (conf : StateChangeConf) (d : ResourceData)
    (pre post : List DescribeApi) (conn : DescribeApi)
    (r : ProbeResult DescribeReplicationTasksOutput)
    (hpre : ∀ c ∈ pre,
      keepsPending conf (resourceAwsDmsReplicationTaskStateRefreshFunc d.Id) c = true)
    (hr : resourceAwsDmsReplicationTaskStateRefreshFunc d.Id conn = .ok r)
    (herr : r.err = none) (hlabel : r.label ∈ conf.Target) :
    waitForTask conf d (pre ++ conn :: post)
      = .ok { state := .TARGET, probes := pre.length + 1, err := none } := by
  have ht : transition conf r = .TARGET := by
    unfold transition
    simp [herr, hlabel]
  exact (WaitForState_stops conf _ pre post conn r hpre hr).1 ht

/-- C6 at the scenario of the create wait (pending "creating", target "ready"):
the label sequence creating, creating, ready ends with TARGET after exactly the
third probe, also when the remote would go on answering. -/
theorem waitForTask_target_label_witness :
    waitForTask (createStateConf sampleData) sampleData
        ([describeStatus "creating", describeStatus "creating"]
          ++ describeStatus "ready" :: [describeStatus "creating"])
      = .ok { state := .TARGET, probes := 3, err := none } :=
  waitForTask_target_label (createStateConf sampleData) sampleData
    [describeStatus "creating", describeStatus "creating"] [describeStatus "creating"]
    (describeStatus "ready")
    { result := some { ReplicationTasks := some [some (taskWithStatus "ready")] },
      label := "ready", err := none }
    (by decide) rfl rfl (by decide)

/-- A probe result other than confirmed absence whose label is outside both
configured sets takes the waiter to FAILED. -/
theorem transition_failed {α : Type} (conf : StateChangeConf) (r : ProbeResult α)
    (herr : r.err = none) (habs : isAbsent r = false)
    (hP : r.label ∉ conf.Pending) (hT : r.label ∉ conf.Target) :
    transition conf r = .FAILED := by
  unfold transition
  simp [herr, habs, hP, hT]

/-- The create handler when its wait ends in FAILED: after the create call and
`pre` pending probes, a probe other than confirmed absence with a label other
than "creating" and "ready" makes the handler return the error of the failed
state; the call log is the create call followed by the `pre.length + 1` probes. -/
theorem resourceAwsDmsReplicationTaskCreate_wait_failed (lib : Lib) (client : AWSClient)
    (env : CreateEnv) (d : ResourceData) (request : CreateReplicationTaskInput)
    (pre post : List DescribeApi) (conn : DescribeApi)
    (r : ProbeResult DescribeReplicationTasksOutput)
    (hreq : createRequest lib client d = .ok request)
    (hcreate : env.create request = none)
    (hwait : env.wait = pre ++ conn :: post)
    (hpre : ∀ c ∈ pre,
      keepsPending (createStateConf d)
        (resourceAwsDmsReplicationTaskStateRefreshFunc (d.Get "replication_task_id")) c = true)
    (hr : resourceAwsDmsReplicationTaskStateRefreshFunc (d.Get "replication_task_id") conn
      = .ok r)
    (herr : r.err = none) (habs : isAbsent r = false)
    (hP : r.label ≠ "creating") (hT : r.label ≠ "ready") :
    resourceAwsDmsReplicationTaskCreate lib client env d
      = .ok { d := d.SetId (d.Get "replication_task_id"),
              err := some (.unexpectedState r.label ["ready"]),
              calls := Call.CreateReplicationTask request
                :: probeCalls (d.SetId (d.Get "replication_task_id")) (pre.length + 1) } := by
  have hw : waitForTask (createStateConf (d.SetId (d.Get "replication_task_id")))
      (d.SetId (d.Get "replication_task_id")) env.wait
      = .ok { state := .FAILED, probes := pre.length + 1,
              err := some (.unexpectedState r.label ["ready"]) } := by
    rw [hwait]
    exact (WaitForState_stops _ _ pre post conn r hpre hr).2.1
      (transition_failed _ r herr habs (by simpa [createStateConf] using hP)
        (by simpa [createStateConf] using hT))
  simp [resourceAwsDmsReplicationTaskCreate, hreq, hcreate, hw]

/-- C7: (1) in a wait of a DMS replication task handler, a probe that returns a
label in neither the pending set nor the target set ends the wait with FAILED on
that very probe; (2) in the create handler such a probe, after `pre` pending
probes, makes the handler return the error of the failed state, and its call log
is the create call followed by exactly the `pre.length + 1` probes: the read is
not performed. -/
theorem waitForTask_failed_label :
    (∀ (conf : StateChangeConf) (d : ResourceData) (pre post : List DescribeApi)
        (conn : DescribeApi) (r : ProbeResult DescribeReplicationTasksOutput),
      (∀ c ∈ pre,
        keepsPending conf (resourceAwsDmsReplicationTaskStateRefreshFunc d.Id) c = true) →
      resourceAwsDmsReplicationTaskStateRefreshFunc d.Id conn = .ok r →
      r.err = none → isAbsent r = false → r.label ∉ conf.Pending → r.label ∉ conf.Target →
      waitForTask conf d (pre ++ conn :: post)
        = .ok { state := .FAILED, probes := pre.length + 1,
                err := some (.unexpectedState r.label conf.Target) })
    ∧ (∀ (lib : Lib) (client : AWSClient) (env : CreateEnv) (d : ResourceData)
        (request : CreateReplicationTaskInput) (pre post : List DescribeApi)
        (conn : DescribeApi) (r : ProbeResult DescribeReplicationTasksOutput),
      createRequest lib client d = .ok request →
      env.create request = none →
      env.wait = pre ++ conn :: post →
      (∀ c ∈ pre,
        keepsPending (createStateConf d)
          (resourceAwsDmsReplicationTaskStateRefreshFunc (d.Get "replication_task_id")) c
          = true) →
      resourceAwsDmsReplicationTaskStateRefreshFunc (d.Get "replication_task_id") conn = .ok r →
      r.err = none → isAbsent r = false → r.label ≠ "creating" → r.label ≠ "ready" →
      resourceAwsDmsReplicationTaskCreate lib client env d
        = .ok { d := d.SetId (d.Get "replication_task_id"),
                err := some (.unexpectedState r.label ["ready"]),
                calls := Call.CreateReplicationTask request
                  :: probeCalls (d.SetId (d.Get "replication_task_id")) (pre.length + 1) }) := by
  refine ⟨?_, ?_⟩
  · intro conf d pre post conn r hpre hr herr habs hP hT
    exact (WaitForState_stops conf _ pre post conn r hpre hr).2.1
      (transition_failed conf r herr habs hP hT)
  · intro lib client env d request pre post conn r hreq hcreate hwait hpre hr herr habs hP hT
    exact resourceAwsDmsReplicationTaskCreate_wait_failed lib client env d request pre post
      conn r hreq hcreate hwait hpre hr herr habs hP hT

/-- C7 at the scenario of the create wait: the label sequence creating, failed
ends with FAILED after exactly the second probe, and the create handler returns
the error of the failed state after the create call and two probes, without a read. -/
theorem waitForTask_failed_label_witness :
    waitForTask (createStateConf sampleData) sampleData
        ([describeStatus "creating"] ++ describeStatus "failed" :: [])
      = .ok { state := .FAILED, probes := 2,
              err := some (.unexpectedState "failed" ["ready"]) }
    ∧ ∃ request,
      resourceAwsDmsReplicationTaskCreate stubLib plainClient
          { create := fun _ => none,
            wait := [describeStatus "creating"] ++ describeStatus "failed" :: [],
            read := readEnvOf (describeStatus "ready") } sampleData
        = .ok { d := sampleData, err := some (.unexpectedState "failed" ["ready"]),
                calls := [Call.CreateReplicationTask request,
                  Call.DescribeReplicationTasks (describeByIdInput "task-1"),
                  Call.DescribeReplicationTasks (describeByIdInput "task-1")] } :=
  ⟨waitForTask_failed_label.1 (createStateConf sampleData) sampleData
      [describeStatus "creating"] [] (describeStatus "failed")
      { result := some { ReplicationTasks := some [some (taskWithStatus "failed")] },
        label := "failed", err := none }
      (by decide) rfl rfl rfl (by decide) (by decide),
   ⟨_, waitForTask_failed_label.2 stubLib plainClient
      { create := fun _ => none,
        wait := [describeStatus "creating"] ++ describeStatus "failed" :: [],
        read := readEnvOf (describeStatus "ready") } sampleData _
      [describeStatus "creating"] [] (describeStatus "failed")
      { result := some { ReplicationTasks := some [some (taskWithStatus "failed")] },
        label := "failed", err := none }
      rfl rfl rfl (by decide) rfl rfl rfl (by decide) (by decide)⟩⟩

/-- C8 as stated fails for the update handler: with the remote task in status
"failed" during the update wait, the wait ends with TARGET after one probe and
the handler completes with no error. -/
theorem resourceAwsDmsReplicationTaskUpdate_failed_label_no_error :
    waitForTask (updateStateConf changedData) changedData updateEnvFailed.wait
      = .ok { state := .TARGET, probes := 1, err := none }
    ∧ ∃ r, resourceAwsDmsReplicationTaskUpdate stubLib plainClient updateEnvFailed changedData
        = .ok r ∧ r.err = none := by
  refine ⟨rfl, ?_⟩
  exact ⟨_, rfl, rfl⟩

/-- C8 as amended: (1) when the label "failed" is observed during the create wait
(after `pre` pending probes), the create handler returns the error of the failed
state and performs no read; (2) during the update wait "failed" is one of the
configured target labels, so the wait ends with TARGET on that probe and the
update handler goes on to the read and returns what the read returns. -/
theorem failed_label_in_create_and_update_wait :
    (∀ (lib : Lib) (client : AWSClient) (env : CreateEnv) (d : ResourceData)
        (request : CreateReplicationTaskInput) (pre post : List DescribeApi)
        (conn : DescribeApi) (r : ProbeResult DescribeReplicationTasksOutput),
      createRequest lib client d = .ok request →
      env.create request = none →
      env.wait = pre ++ conn :: post →
      (∀ c ∈ pre,
        keepsPending (createStateConf d)
          (resourceAwsDmsReplicationTaskStateRefreshFunc (d.Get "replication_task_id")) c
          = true) →
      resourceAwsDmsReplicationTaskStateRefreshFunc (d.Get "replication_task_id") conn = .ok r →
      r.err = none → isAbsent r = false → r.label = "failed" →
      resourceAwsDmsReplicationTaskCreate lib client env d
        = .ok { d := d.SetId (d.Get "replication_task_id"),
                err := some (.unexpectedState "failed" ["ready"]),
                calls := Call.CreateReplicationTask request
                  :: probeCalls (d.SetId (d.Get "replication_task_id")) (pre.length + 1) })
    ∧ (∀ (lib : Lib) (client : AWSClient) (env : UpdateEnv) (d : ResourceData)
        (request : ModifyReplicationTaskInput) (pre post : List DescribeApi)
        (conn : DescribeApi) (r : ProbeResult DescribeReplicationTasksOutput),
      updateRequest d = .ok (request, true) →
      ((d.priorTagsAll != d.tagsAll) = true →
        env.updateTags (d.Get "replication_task_arn") d.priorTagsAll d.tagsAll = none) →
      env.modify request = none →
      env.wait = pre ++ conn :: post →
      (∀ c ∈ pre,
        keepsPending (updateStateConf d)
          (resourceAwsDmsReplicationTaskStateRefreshFunc d.Id) c = true) →
      resourceAwsDmsReplicationTaskStateRefreshFunc d.Id conn = .ok r →
      r.err = none → r.label = "failed" →
      waitForTask (updateStateConf d) d env.wait
          = .ok { state := .TARGET, probes := pre.length + 1, err := none }
        ∧ resourceAwsDmsReplicationTaskUpdate lib client env d
          = match resourceAwsDmsReplicationTaskRead lib client env.read d with
            | .error p => .error p
            | .ok res =>
              .ok { res with
                calls := ((if (d.priorTagsAll != d.tagsAll) = true then
                      [Call.UpdateTags (d.Get "replication_task_arn") d.priorTagsAll d.tagsAll]
                    else [])
                    ++ [Call.ModifyReplicationTask request])
                  ++ probeCalls d (pre.length + 1) ++ res.calls }) := by
  refine ⟨?_, ?_⟩
  · intro lib client env d request pre post conn r hreq hcreate hwait hpre hr herr habs hlabel
    have h := resourceAwsDmsReplicationTaskCreate_wait_failed lib client env d request pre post
      conn r hreq hcreate hwait hpre hr herr habs (by simp [hlabel]) (by simp [hlabel])
    rw [hlabel] at h
    exact h
  · intro lib client env d request pre post conn r hreq htags hmodify hwait hpre hr herr hlabel
    have ht : transition (updateStateConf d) r = .TARGET := by
      unfold transition
      simp [herr, hlabel, updateStateConf]
    have hw : waitForTask (updateStateConf d) d env.wait
        = .ok { state := .TARGET, probes := pre.length + 1, err := none } := by
      rw [hwait]
      exact (WaitForState_stops _ _ pre post conn r hpre hr).1 ht
    refine ⟨hw, ?_⟩
    cases hchg : (d.priorTagsAll != d.tagsAll) with
    | false =>
      simp [resourceAwsDmsReplicationTaskUpdate, hreq, hmodify, hw, hchg]
    | true =>
      have hu := htags hchg
      simp [resourceAwsDmsReplicationTaskUpdate, hreq, hmodify, hw, hchg, hu]

/-- C8 as amended, at concrete inputs: the label sequence creating, failed makes
the create handler return the error of the failed state, and the label "failed"
in the update wait ends that wait with TARGET. -/
theorem failed_label_in_create_and_update_wait_witness :
    (∃ request,
      resourceAwsDmsReplicationTaskCreate stubLib plainClient
          { create := fun _ => none,
            wait := [describeStatus "creating"] ++ describeStatus "failed" :: [],
            read := readEnvOf (describeStatus "ready") } sampleData
        = .ok { d := sampleData, err := some (.unexpectedState "failed" ["ready"]),
                calls := [Call.CreateReplicationTask request,
                  Call.DescribeReplicationTasks (describeByIdInput "task-1"),
                  Call.DescribeReplicationTasks (describeByIdInput "task-1")] })
    ∧ waitForTask (updateStateConf changedData) changedData updateEnvFailed.wait
        = .ok { state := .TARGET, probes := 1, err := none } :=
  ⟨⟨_, failed_label_in_create_and_update_wait.1 stubLib plainClient
      { create := fun _ => none,
        wait := [describeStatus "creating"] ++ describeStatus "failed" :: [],
        read := readEnvOf (describeStatus "ready") } sampleData _
      [describeStatus "creating"] [] (describeStatus "failed")
      { result := some { ReplicationTasks := some [some (taskWithStatus "failed")] },
        label := "failed", err := none }
      rfl rfl rfl (by decide) rfl rfl rfl rfl⟩,
   (failed_label_in_create_and_update_wait.2 stubLib plainClient updateEnvFailed changedData
      _ [] [] (describeStatus "failed")
      { result := some { ReplicationTasks := some [some (taskWithStatus "failed")] },
        label := "failed", err := none }
      rfl (by decide) rfl rfl (by decide) rfl rfl rfl).1⟩

/-- C10: (1) a probe that returns confirmed absence `(nil, "", nil)` ends the
delete wait (pending "deleting", empty target set) with TARGET on that probe, and
the delete handler returns nil; (2) the DMS status prober returns confirmed
absence for ResourceNotFoundFault; (3) in the create wait (target "ready") the
same probe result leaves the waiter in PENDING, and (4) a create wait whose
probes all return confirmed absence stays pending until the timeout and ends in
TIMED_OUT. -/
theorem confirmed_absence_in_delete_and_create_wait :
    (∀ (env : DeleteEnv) (d : ResourceData) (pre post : List DescribeApi) (conn : DescribeApi),
      env.delete { ReplicationTaskArn := some (d.Get "replication_task_arn") } = none →
      env.wait = pre ++ conn :: post →
      (∀ c ∈ pre,
        keepsPending (deleteStateConf d)
          (resourceAwsDmsReplicationTaskStateRefreshFunc d.Id) c = true) →
      resourceAwsDmsReplicationTaskStateRefreshFunc d.Id conn
        = .ok { result := none, label := "", err := none } →
      waitForTask (deleteStateConf d) d env.wait
          = .ok { state := .TARGET, probes := pre.length + 1, err := none }
        ∧ resourceAwsDmsReplicationTaskDelete env d
          = .ok { d := d, err := none,
                  calls := Call.DeleteReplicationTask
                      { ReplicationTaskArn := some (d.Get "replication_task_arn") }
                    :: probeCalls d (pre.length + 1) })
    ∧ (∀ (id msg : String) (conn : DescribeApi),
      (conn (describeByIdInput id)).err = some (.aws "ResourceNotFoundFault" msg) →
      resourceAwsDmsReplicationTaskStateRefreshFunc id conn
        = .ok { result := none, label := "", err := none })
    ∧ (∀ (d : ResourceData),
      transition (createStateConf d)
        ({ result := none, label := "", err := none } :
          ProbeResult DescribeReplicationTasksOutput) = .PENDING)
    ∧ (∀ (d : ResourceData) (remote : List DescribeApi),
      (∀ c ∈ remote, resourceAwsDmsReplicationTaskStateRefreshFunc d.Id c
        = .ok { result := none, label := "", err := none }) →
      waitForTask (createStateConf d) d remote
        = .ok { state := .TIMED_OUT, probes := remote.length,
                err := some (.timeoutError ["ready"]) }) := by
  refine ⟨?_, ?_, ?_, ?_⟩
  · intro env d pre post conn hdelete hwait hpre hr
    have ht : transition (deleteStateConf d)
        ({ result := none, label := "", err := none } :
          ProbeResult DescribeReplicationTasksOutput) = .TARGET := by
      simp [transition, isAbsent, absentIsTarget, deleteStateConf]
    have hw : waitForTask (deleteStateConf d) d env.wait
        = .ok { state := .TARGET, probes := pre.length + 1, err := none } := by
      rw [hwait]
      exact (WaitForState_stops _ _ pre post conn _ hpre hr).1 ht
    refine ⟨hw, ?_⟩
    simp [resourceAwsDmsReplicationTaskDelete, hdelete, hw]
  · intro id msg conn h
    simp [resourceAwsDmsReplicationTaskStateRefreshFunc, h, SdkError.hasCode]
  · intro d
    simp [transition, isAbsent, absentIsTarget, createStateConf]
  · intro d remote h
    have hp : ∀ c ∈ remote,
        keepsPending (createStateConf d)
          (resourceAwsDmsReplicationTaskStateRefreshFunc d.Id) c = true := by
      intro c hc
      simp [keepsPending, h c hc, transition, isAbsent, absentIsTarget, createStateConf]
    exact WaitForState_all_pending _ _ remote hp

/-- C10 at concrete inputs: a remote that answers "deleting" and then
ResourceNotFoundFault ends the delete wait with TARGET after the second probe
and the delete handler returns nil; three not-found answers in a create wait end
it in TIMED_OUT after three probes. -/
theorem confirmed_absence_in_delete_and_create_wait_witness :
    resourceAwsDmsReplicationTaskDelete
        { delete := fun _ => none,
          wait := [describeStatus "deleting"]
            ++ describeError (.aws "ResourceNotFoundFault" "gone") :: [] } sampleData
      = .ok { d := sampleData, err := none,
              calls := [Call.DeleteReplicationTask { ReplicationTaskArn := some "" },
                Call.DescribeReplicationTasks (describeByIdInput "task-1"),
                Call.DescribeReplicationTasks (describeByIdInput "task-1")] }
    ∧ waitForTask (createStateConf sampleData) sampleData
        (List.replicate 3 (describeError (.aws "ResourceNotFoundFault" "gone")))
      = .ok { state := .TIMED_OUT, probes := 3, err := some (.timeoutError ["ready"]) } :=
  ⟨(confirmed_absence_in_delete_and_create_wait.1
      { delete := fun _ => none,
        wait := [describeStatus "deleting"]
          ++ describeError (.aws "ResourceNotFoundFault" "gone") :: [] } sampleData
      [describeStatus "deleting"] [] (describeError (.aws "ResourceNotFoundFault" "gone"))
      rfl rfl (by decide) rfl).2,
   confirmed_absence_in_delete_and_create_wait.2.2.2 sampleData
      (List.replicate 3 (describeError (.aws "ResourceNotFoundFault" "gone")))
      (by
        intro c hc
        rw [List.eq_of_mem_replicate hc]
        rfl)⟩

/-! ### Ordering and early returns of the handlers -/

/-- C11: once the request is built, the create handler runs the create call, then
the wait, then the read, and stops at the first error. (1) If
CreateReplicationTask fails, that error is returned, the only call is the create
call and the resource data, identity included, is untouched. (2) If the wait
returns an error, that error is returned and the calls are the create call and
the probes of the wait: no read. (3) If the wait returns no error, the read runs
on the data with the identity assigned, and the handler returns what the read
returns, its calls placed after the create call and the probes. -/
theorem resourceAwsDmsReplicationTaskCreate_order (lib : Lib) (client : AWSClient)
    (env : CreateEnv) (d : ResourceData) (request : CreateReplicationTaskInput)
    (hreq : createRequest lib client d = .ok request) :
    (∀ e, env.create request = some e →
      resourceAwsDmsReplicationTaskCreate lib client env d
        = .ok { d := d, err := some (.sdk e), calls := [Call.CreateReplicationTask request] })
    ∧ (∀ w err, env.create request = none →
      waitForTask (createStateConf (d.SetId (d.Get "replication_task_id")))
        (d.SetId (d.Get "replication_task_id")) env.wait = .ok w →
      w.err = some err →
      resourceAwsDmsReplicationTaskCreate lib client env d
        = .ok { d := d.SetId (d.Get "replication_task_id"), err := some err,
                calls := Call.CreateReplicationTask request
                  :: probeCalls (d.SetId (d.Get "replication_task_id")) w.probes })
    ∧ (∀ w r, env.create request = none →
      waitForTask (createStateConf (d.SetId (d.Get "replication_task_id")))
        (d.SetId (d.Get "replication_task_id")) env.wait = .ok w →
      w.err = none →
      resourceAwsDmsReplicationTaskRead lib client env.read
        (d.SetId (d.Get "replication_task_id")) = .ok r →
      resourceAwsDmsReplicationTaskCreate lib client env d
        = .ok { d := r.d, err := r.err,
                calls := Call.CreateReplicationTask request
                  :: (probeCalls (d.SetId (d.Get "replication_task_id")) w.probes
                    ++ r.calls) }) := by
  refine ⟨?_, ?_, ?_⟩
  · intro e he
    simp [resourceAwsDmsReplicationTaskCreate, hreq, he]
  · intro w err hc hw he
    simp [resourceAwsDmsReplicationTaskCreate, hreq, hc, hw, he]
  · intro w r hc hw he hr
    simp [resourceAwsDmsReplicationTaskCreate, hreq, hc, hw, he, hr]

/-- C11 at concrete inputs: a failing create call leaves the identity empty and
is the only call; after creating, ready the read follows the two probes. -/
theorem resourceAwsDmsReplicationTaskCreate_order_witness :
    (∃ request,
      resourceAwsDmsReplicationTaskCreate stubLib plainClient
          { create := fun _ => some (.aws "AccessDeniedException" "denied"),
            wait := [describeStatus "ready"], read := readEnvOf (describeStatus "ready") }
          { sampleData with id := "" }
        = .ok { d := { sampleData with id := "" },
                err := some (.sdk (.aws "AccessDeniedException" "denied")),
                calls := [Call.CreateReplicationTask request] })
    ∧ (∃ (request : CreateReplicationTaskInput) (r : HandlerResult),
      resourceAwsDmsReplicationTaskCreate stubLib plainClient
          { create := fun _ => none,
            wait := [describeStatus "creating", describeStatus "ready"],
            read := readEnvOf (describeStatus "ready") }
          { sampleData with id := "" }
        = .ok { d := r.d, err := none,
                calls := [Call.CreateReplicationTask request,
                  Call.DescribeReplicationTasks (describeByIdInput "task-1"),
                  Call.DescribeReplicationTasks (describeByIdInput "task-1"),
                  Call.DescribeReplicationTasks (describeByIdInput "task-1"),
                  Call.ListTags "arn:task"] }) :=
  ⟨⟨_, (resourceAwsDmsReplicationTaskCreate_order stubLib plainClient
      { create := fun _ => some (.aws "AccessDeniedException" "denied"),
        wait := [describeStatus "ready"], read := readEnvOf (describeStatus "ready") }
      { sampleData with id := "" } _ rfl).1 _ rfl⟩,
   ⟨_, _, (resourceAwsDmsReplicationTaskCreate_order stubLib plainClient
      { create := fun _ => none,
        wait := [describeStatus "creating", describeStatus "ready"],
        read := readEnvOf (describeStatus "ready") }
      { sampleData with id := "" } _ rfl).2.2
      { state := .TARGET, probes := 2, err := none } _ rfl rfl rfl rfl⟩⟩

/-- What strconv.ParseInt accepts is a signed 64-bit integer. -/
theorem ParseInt_range (s : String) (n : Int) (h : ParseInt s = .ok n) :
    -(2 : Int) ^ 63 ≤ n ∧ n < (2 : Int) ^ 63 := by
  unfold ParseInt at h
  split at h
  · cases h
  · rename_i c cs _
    simp only at h
    split at h
    · cases h
    · rename_i un _
      split at h
      · cases h
      · rename_i h1
        split at h
        · cases h
        · rename_i h2
          simp only [Except.ok.injEq] at h
          by_cases hneg : (c == '-') = true
          · simp only [hneg, if_true] at h
            simp only [hneg, Bool.not_true, Bool.false_and, Bool.true_and, decide_eq_true_eq,
              not_lt, Bool.false_eq_true, not_false_eq_true] at h1 h2
            subst h
            have : (un : Int) ≤ 2 ^ 63 := by exact_mod_cast h2
            constructor <;> omega
          · have hneg' : (c == '-') = false := by simpa using hneg
            simp only [hneg', Bool.false_eq_true, if_false] at h
            simp only [hneg', Bool.not_false, Bool.true_and, Bool.false_and, decide_eq_true_eq,
              not_le, Bool.false_eq_true, not_false_eq_true] at h1 h2
            subst h
            have : (un : Int) < 2 ^ 63 := by exact_mod_cast h1
            constructor <;> omega

/-- C16: a malformed cdc_start_time is surfaced before any remote call. (1) In
the create handler, when cdc_start_time is set and strconv.ParseInt rejects it,
the handler returns the invalid-timestamp error, the resource data is untouched
and the call log is empty. (2) In the update handler, when cdc_start_time has
changed and strconv.ParseInt rejects its new value, the handler returns the
invalid-timestamp error with an empty call log: no modify call and no tag call,
also when tags_all has changed. -/
theorem malformed_cdc_start_time_no_remote_call :
    (∀ (lib : Lib) (client : AWSClient) (env : CreateEnv) (d : ResourceData) (v : String)
        (kind : NumErrorKind),
      d.GetOk "cdc_start_time" = some v → ParseInt v = .error kind →
      resourceAwsDmsReplicationTaskCreate lib client env d
        = .ok { d := d,
                err := some (.errorf
                  "DMS create replication task. Invalid CDC Unix timestamp: %s" []
                  (.numError v kind)),
                calls := [] })
    ∧ (∀ (lib : Lib) (client : AWSClient) (env : UpdateEnv) (d : ResourceData)
        (kind : NumErrorKind),
      d.HasChange "cdc_start_time" = true →
      ParseInt (d.Get "cdc_start_time") = .error kind →
      resourceAwsDmsReplicationTaskUpdate lib client env d
        = .ok { d := d,
                err := some (.errorf
                  "DMS update replication task. Invalid CRC Unix timestamp: %s" []
                  (.numError (d.Get "cdc_start_time") kind)),
                calls := [] }) := by
  refine ⟨?_, ?_⟩
  · intro lib client env d v kind hv hp
    have hreq : createRequest lib client d
        = .error (.errorf "DMS create replication task. Invalid CDC Unix timestamp: %s" []
          (.numError v kind)) := by
      simp [createRequest, hv, hp]
    simp [resourceAwsDmsReplicationTaskCreate, hreq]
  · intro lib client env d kind hc hp
    have hreq : updateRequest d
        = .error (.errorf "DMS update replication task. Invalid CRC Unix timestamp: %s" []
          (.numError (d.Get "cdc_start_time") kind)) := by
      simp [updateRequest, hc, hp]
    simp [resourceAwsDmsReplicationTaskUpdate, hreq]

/-- C16 at concrete inputs: with cdc_start_time "2021-01-01", which is no
integer, both handlers return the invalid-timestamp error and issue no call,
although tags_all has changed as well; a Unix timestamp parses, and a number
beyond 64 bits is out of range. -/
theorem malformed_cdc_start_time_no_remote_call_witness :
    resourceAwsDmsReplicationTaskCreate stubLib plainClient
        { create := fun _ => none, wait := [describeStatus "ready"],
          read := readEnvOf (describeStatus "ready") } malformedTimeData
      = .ok { d := malformedTimeData,
              err := some (.errorf
                "DMS create replication task. Invalid CDC Unix timestamp: %s" []
                (.numError "2021-01-01" .errSyntax)),
              calls := [] }
    ∧ resourceAwsDmsReplicationTaskUpdate stubLib plainClient updateEnvFailed malformedTimeData
      = .ok { d := malformedTimeData,
              err := some (.errorf
                "DMS update replication task. Invalid CRC Unix timestamp: %s" []
                (.numError "2021-01-01" .errSyntax)),
              calls := [] }
    ∧ ParseInt "1484346880" = .ok 1484346880
    ∧ ParseInt "-9223372036854775808" = .ok (-9223372036854775808)
    ∧ ParseInt "9223372036854775808" = .error .errRange :=
  ⟨malformed_cdc_start_time_no_remote_call.1 stubLib plainClient
      { create := fun _ => none, wait := [describeStatus "ready"],
        read := readEnvOf (describeStatus "ready") } malformedTimeData "2021-01-01"
      .errSyntax (by decide) rfl,
   malformed_cdc_start_time_no_remote_call.2 stubLib plainClient updateEnvFailed
      malformedTimeData .errSyntax (by decide) rfl,
   rfl, rfl, rfl⟩

/-- C20: when DeleteReplicationTask fails with error `e`, the delete handler
issues no probe (its only call is the delete call, whatever the remote would
answer to a probe); it returns no error if `e` is an AWS error with code
"ResourceNotFoundFault" and returns `e` itself for every other error. -/
theorem resourceAwsDmsReplicationTaskDelete_error (env : DeleteEnv) (d : ResourceData)
    (e : SdkError)
    (h : env.delete { ReplicationTaskArn := some (d.Get "replication_task_arn") } = some e) :
    ((∃ msg, e = .aws "ResourceNotFoundFault" msg) →
      resourceAwsDmsReplicationTaskDelete env d
        = .ok { d := d, err := none,
                calls := [Call.DeleteReplicationTask
                  { ReplicationTaskArn := some (d.Get "replication_task_arn") }] })
    ∧ ((¬ ∃ msg, e = .aws "ResourceNotFoundFault" msg) →
      resourceAwsDmsReplicationTaskDelete env d
        = .ok { d := d, err := some (.sdk e),
                calls := [Call.DeleteReplicationTask
                  { ReplicationTaskArn := some (d.Get "replication_task_arn") }] }) := by
  refine ⟨?_, ?_⟩
  · rintro ⟨msg, rfl⟩
    simp [resourceAwsDmsReplicationTaskDelete, h, SdkError.hasCode]
  · intro hne
    simp [resourceAwsDmsReplicationTaskDelete, h, hasCode_eq_false_of_ne _ e hne]

/-- C20 at concrete inputs: a not-found answer to the delete call gives no error
and no probe, an access-denied answer is returned as it is, again with no probe. -/
theorem resourceAwsDmsReplicationTaskDelete_error_witness :
    resourceAwsDmsReplicationTaskDelete
        (deleteEnvError (.aws "ResourceNotFoundFault" "gone")) changedData
      = .ok { d := changedData, err := none,
              calls := [Call.DeleteReplicationTask { ReplicationTaskArn := some "arn:task" }] }
    ∧ resourceAwsDmsReplicationTaskDelete
        (deleteEnvError (.aws "AccessDeniedException" "denied")) changedData
      = .ok { d := changedData, err := some (.sdk (.aws "AccessDeniedException" "denied")),
              calls := [Call.DeleteReplicationTask { ReplicationTaskArn := some "arn:task" }] } :=
  ⟨(resourceAwsDmsReplicationTaskDelete_error
      (deleteEnvError (.aws "ResourceNotFoundFault" "gone")) changedData _ rfl).1
      ⟨"gone", rfl⟩,
   (resourceAwsDmsReplicationTaskDelete_error
      (deleteEnvError (.aws "AccessDeniedException" "denied")) changedData _ rfl).2
      (by simp)⟩

/-! ### Requests and the resource identity -/

/-- The calls of a read that returns: the describe call built from `d.Id()`,
alone or followed by the tag listing for the ARN attribute as the read left it. -/
theorem resourceAwsDmsReplicationTaskRead_calls (lib : Lib) (client : AWSClient)
    (env : ReadEnv) (d : ResourceData) (r : HandlerResult)
    (h : resourceAwsDmsReplicationTaskRead lib client env d = .ok r) :
    r.calls = [Call.DescribeReplicationTasks (describeByIdInput d.Id)]
    ∨ r.calls = [Call.DescribeReplicationTasks (describeByIdInput d.Id),
        Call.ListTags (r.d.Get "replication_task_arn")] := by
  unfold resourceAwsDmsReplicationTaskRead at h
  simp only at h
  split at h
  · split at h <;> (cases h; exact Or.inl rfl)
  · split at h
    · cases h
    · split at h
      · cases h
      · split at h
        · cases h
        · cases h
          exact Or.inl rfl
        · split at h
          · cases h
            exact Or.inr rfl
          · split at h
            · cases h
              exact Or.inr rfl
            · split at h <;> (cases h; exact Or.inr rfl)

/-- C18: (1) the request built from an identity is the single filter named
"replication-task-id" whose only value is that identity; (2) the read handler
consults the describe operation at this request only, and (3) this request is the
first call of every read that returns; (4) the status prober consults the
describe operation at this request only; (5) the identity, and with it the
request, does not depend on the replication_task_id attribute. -/
theorem describe_request_is_built_from_id :
    (∀ (id : String),
      describeByIdInput id
        = { Filters := [some { Name := some "replication-task-id", Values := [some id] }] })
    ∧ (∀ (lib : Lib) (client : AWSClient) (env : ReadEnv) (d : ResourceData),
      resourceAwsDmsReplicationTaskRead lib client env d
        = resourceAwsDmsReplicationTaskRead lib client
            { env with describe := fun _ => env.describe (describeByIdInput d.Id) } d)
    ∧ (∀ (lib : Lib) (client : AWSClient) (env : ReadEnv) (d : ResourceData)
        (r : HandlerResult),
      resourceAwsDmsReplicationTaskRead lib client env d = .ok r →
      r.calls.head? = some (Call.DescribeReplicationTasks (describeByIdInput d.Id)))
    ∧ (∀ (id : String) (conn : DescribeApi),
      resourceAwsDmsReplicationTaskStateRefreshFunc id conn
        = resourceAwsDmsReplicationTaskStateRefreshFunc id
            (fun _ => conn (describeByIdInput id)))
    ∧ (∀ (d : ResourceData) (v : Option String),
      describeByIdInput (d.Set "replication_task_id" v).Id = describeByIdInput d.Id) := by
  refine ⟨fun _ => rfl, fun _ _ _ _ => rfl, ?_, fun _ _ => rfl, fun _ _ => rfl⟩
  intro lib client env d r h
  rcases resourceAwsDmsReplicationTaskRead_calls lib client env d r h with hc | hc <;>
    simp [hc]

/-- C18 at a concrete input: the read of an imported resource, whose
replication_task_id attribute is still unset, queries by the identity "task-1"
and fills the attribute from the response. -/
theorem describe_request_is_built_from_id_witness :
    ∃ r, resourceAwsDmsReplicationTaskRead stubLib plainClient
        (readEnvOf (describeStatus "ready")) importedData = .ok r
      ∧ r.calls.head? = some (Call.DescribeReplicationTasks
          { Filters := [some { Name := some "replication-task-id",
                               Values := [some "task-1"] }] })
      ∧ importedData.Get "replication_task_id" = ""
      ∧ r.d.Get "replication_task_id" = "task-1" :=
  ⟨_, rfl, describe_request_is_built_from_id.2.2.1 stubLib plainClient
      (readEnvOf (describeStatus "ready")) importedData _ rfl, rfl, rfl⟩

/-- The modify request of the update handler carries the replication_task_arn
attribute. -/
theorem updateRequest_arn (d : ResourceData) (request : ModifyReplicationTaskInput) (b : Bool)
    (h : updateRequest d = .ok (request, b)) :
    request.ReplicationTaskArn = some (d.Get "replication_task_arn") := by
  unfold updateRequest at h
  simp only at h
  split at h
  · cases h
  · rename_i req hc heq
    simp only [Except.ok.injEq, Prod.mk.injEq] at h
    obtain ⟨h1, _⟩ := h
    subst h1
    split at heq
    · split at heq
      · cases heq
      · simp only [Except.ok.injEq, Prod.mk.injEq] at heq
        obtain ⟨h2, _⟩ := heq
        subst h2
        split_ifs <;> rfl
    · simp only [Except.ok.injEq, Prod.mk.injEq] at heq
      obtain ⟨h2, _⟩ := heq
      subst h2
      split_ifs <;> rfl

/-- Every probe of a wait is the describe call built from `d.Id()`. -/
theorem mem_probeCalls (d : ResourceData) (n : Nat) (c : Call) (h : c ∈ probeCalls d n) :
    c = Call.DescribeReplicationTasks (describeByIdInput d.Id) :=
  List.eq_of_mem_replicate h

/-- C17 as stated fails for the delete handler: for two resources with the
identities "task-1" and "task-2" and the same replication_task_arn attribute the
handler issues the same request, which names the ARN and not the identity. -/
theorem resourceAwsDmsReplicationTaskDelete_request_names_arn :
    changedData.Id = "task-1" ∧ otherIdData.Id = "task-2"
    ∧ resourceAwsDmsReplicationTaskDelete
        (deleteEnvError (.aws "AccessDeniedException" "denied")) changedData
      = .ok { d := changedData, err := some (.sdk (.aws "AccessDeniedException" "denied")),
              calls := [Call.DeleteReplicationTask { ReplicationTaskArn := some "arn:task" }] }
    ∧ resourceAwsDmsReplicationTaskDelete
        (deleteEnvError (.aws "AccessDeniedException" "denied")) otherIdData
      = .ok { d := otherIdData, err := some (.sdk (.aws "AccessDeniedException" "denied")),
              calls := [Call.DeleteReplicationTask { ReplicationTaskArn := some "arn:task" }] } :=
  ⟨rfl, rfl, rfl, rfl⟩

/-- C17 as amended: the describe requests identify the task by the resource id,
the other requests by its ARN. (1) Every call of a read is the describe call
built from `d.Id()` or the tag listing for the replication_task_arn attribute as
the read set it from the response. (2) The status prober consults the describe
operation at the request built from the id only. (3) Every call of a delete is
the delete call for the replication_task_arn attribute or a probe built from
`d.Id()`. (4) Every call of an update is the tag update or the modify call, both
for the replication_task_arn attribute, a probe built from `d.Id()`, or a call of
the read that follows. -/
theorem requests_identify_task_by_id_or_arn :
    (∀ (lib : Lib) (client : AWSClient) (env : ReadEnv) (d : ResourceData)
        (r : HandlerResult),
      resourceAwsDmsReplicationTaskRead lib client env d = .ok r →
      ∀ c ∈ r.calls, c = Call.DescribeReplicationTasks (describeByIdInput d.Id)
        ∨ c = Call.ListTags (r.d.Get "replication_task_arn"))
    ∧ (∀ (id : String) (conn : DescribeApi),
      resourceAwsDmsReplicationTaskStateRefreshFunc id conn
        = resourceAwsDmsReplicationTaskStateRefreshFunc id
            (fun _ => conn (describeByIdInput id)))
    ∧ (∀ (env : DeleteEnv) (d : ResourceData) (r : HandlerResult),
      resourceAwsDmsReplicationTaskDelete env d = .ok r →
      ∀ c ∈ r.calls,
        c = Call.DeleteReplicationTask
            { ReplicationTaskArn := some (d.Get "replication_task_arn") }
        ∨ c = Call.DescribeReplicationTasks (describeByIdInput d.Id))
    ∧ (∀ (lib : Lib) (client : AWSClient) (env : UpdateEnv) (d : ResourceData)
        (r : HandlerResult),
      resourceAwsDmsReplicationTaskUpdate lib client env d = .ok r →
      ∀ c ∈ r.calls,
        c = Call.UpdateTags (d.Get "replication_task_arn") d.priorTagsAll d.tagsAll
        ∨ (∃ request, c = Call.ModifyReplicationTask request
            ∧ request.ReplicationTaskArn = some (d.Get "replication_task_arn"))
        ∨ c = Call.DescribeReplicationTasks (describeByIdInput d.Id)
        ∨ c = Call.ListTags (r.d.Get "replication_task_arn")) := by
  refine ⟨?_, fun _ _ => rfl, ?_, ?_⟩
  · intro lib client env d r h c hc
    rcases resourceAwsDmsReplicationTaskRead_calls lib client env d r h with hr | hr <;>
      · rw [hr] at hc
        simp only [List.mem_cons, List.mem_singleton, List.not_mem_nil, or_false] at hc
        tauto
  · intro env d r h c hc
    unfold resourceAwsDmsReplicationTaskDelete at h
    simp only at h
    split at h
    · split at h <;>
        · cases h
          simp only [List.mem_singleton] at hc
          exact Or.inl hc
    · split at h
      · cases h
      · cases h
        simp only [List.mem_append, List.mem_singleton] at hc
        rcases hc with hc | hc
        · exact Or.inl hc
        · exact Or.inr (mem_probeCalls d _ c hc)
  · intro lib client env d r h c hc
    unfold resourceAwsDmsReplicationTaskUpdate at h
    split at h
    · cases h
      simp at hc
    · rename_i request hasChanges hreq
      have harn := updateRequest_arn d request hasChanges hreq
      simp only at h
      have htag : ∀ x ∈ (if (d.priorTagsAll != d.tagsAll) = true then
            [Call.UpdateTags (d.Get "replication_task_arn") d.priorTagsAll d.tagsAll]
          else []),
          x = Call.UpdateTags (d.Get "replication_task_arn") d.priorTagsAll d.tagsAll := by
        intro x hx
        split at hx
        · simpa using hx
        · simp at hx
      split at h
      · cases h
        exact Or.inl (htag c hc)
      · split at h
        · split at h
          · cases h
            simp only [List.mem_append, List.mem_singleton] at hc
            rcases hc with hc | hc
            · exact Or.inl (htag c hc)
            · exact Or.inr (Or.inl ⟨request, hc, harn⟩)
          · split at h
            · cases h
            · split at h
              · cases h
                simp only [List.mem_append, List.mem_singleton] at hc
                rcases hc with (hc | hc) | hc
                · exact Or.inl (htag c hc)
                · exact Or.inr (Or.inl ⟨request, hc, harn⟩)
                · exact Or.inr (Or.inr (Or.inl (mem_probeCalls d _ c hc)))
              · split at h
                · cases h
                · rename_i rr hread
                  cases h
                  simp only [List.mem_append, List.mem_singleton] at hc
                  rcases hc with ((hc | hc) | hc) | hc
                  · exact Or.inl (htag c hc)
                  · exact Or.inr (Or.inl ⟨request, hc, harn⟩)
                  · exact Or.inr (Or.inr (Or.inl (mem_probeCalls d _ c hc)))
                  · rcases resourceAwsDmsReplicationTaskRead_calls lib client env.read d rr
                        hread with hr | hr <;>
                      · rw [hr] at hc
                        simp only [List.mem_cons, List.mem_singleton, List.not_mem_nil,
                          or_false] at hc
                        tauto
        · cases h
          exact Or.inl (htag c hc)

/-- C17 as amended, at concrete inputs: the update of "task-1" issues the modify
call for the ARN "arn:task" and a probe for the id "task-1", then the calls of
the read. -/
theorem requests_identify_task_by_id_or_arn_witness :
    ∃ r request, resourceAwsDmsReplicationTaskUpdate stubLib plainClient updateEnvFailed
        changedData = .ok r
      ∧ request.ReplicationTaskArn = some "arn:task"
      ∧ r.calls = [Call.ModifyReplicationTask request,
          Call.DescribeReplicationTasks (describeByIdInput "task-1"),
          Call.DescribeReplicationTasks (describeByIdInput "task-1"),
          Call.ListTags "arn:task"]
      ∧ ∀ c ∈ r.calls,
          c = Call.UpdateTags (changedData.Get "replication_task_arn")
              changedData.priorTagsAll changedData.tagsAll
          ∨ (∃ request, c = Call.ModifyReplicationTask request
              ∧ request.ReplicationTaskArn = some (changedData.Get "replication_task_arn"))
          ∨ c = Call.DescribeReplicationTasks (describeByIdInput changedData.Id)
          ∨ c = Call.ListTags (r.d.Get "replication_task_arn") :=
  ⟨_, _, rfl, rfl, rfl,
    requests_identify_task_by_id_or_arn.2.2.2 stubLib plainClient updateEnvFailed
      changedData _ rfl⟩

/-- An error of a remote call that passes the code test is an AWS error with
that code. -/
theorem eq_aws_of_hasCode (code : String) (e : SdkError) (h : e.hasCode code = true) :
    ∃ msg, e = .aws code msg := by
  cases e with
  | aws c m =>
    simp only [SdkError.hasCode, beq_iff_eq] at h
    exact ⟨m, by rw [h]⟩
  | other m => simp [SdkError.hasCode] at h

/-- The identity that resourceAwsDmsReplicationTaskSetState leaves behind is the
ReplicationTaskIdentifier of the task, the empty string when that is nil. -/
theorem resourceAwsDmsReplicationTaskSetState_id (lib : Lib) (d d1 : ResourceData)
    (task : ReplicationTask) (err : Option GoError)
    (h : resourceAwsDmsReplicationTaskSetState lib d (some task) = .ok (d1, err)) :
    d1.Id = StringValue task.ReplicationTaskIdentifier := by
  unfold resourceAwsDmsReplicationTaskSetState at h
  simp only at h
  split at h
  · cases h
  · split at h <;>
      · simp only [Except.ok.injEq, Prod.mk.injEq] at h
        obtain ⟨h1, _⟩ := h
        subst h1
        rfl

/-- The identity after a read that returns: cleared on ResourceNotFoundFault,
untouched on any other error of the describe call, and otherwise the
ReplicationTaskIdentifier of the first task of the response. -/
theorem resourceAwsDmsReplicationTaskRead_id (lib : Lib) (client : AWSClient)
    (env : ReadEnv) (d : ResourceData) (r : HandlerResult)
    (h : resourceAwsDmsReplicationTaskRead lib client env d = .ok r) :
    (∃ msg, (env.describe (describeByIdInput d.Id)).err
        = some (.aws "ResourceNotFoundFault" msg) ∧ r.d.Id = "" ∧ r.err = none)
    ∨ (∃ e, (env.describe (describeByIdInput d.Id)).err = some e
        ∧ (¬ ∃ msg, e = .aws "ResourceNotFoundFault" msg) ∧ r.d = d ∧ r.err = some (.sdk e))
    ∨ (∃ out task rest, (env.describe (describeByIdInput d.Id)).err = none
        ∧ (env.describe (describeByIdInput d.Id)).output = some out
        ∧ out.ReplicationTasks = some (some task :: rest)
        ∧ r.d.Id = StringValue task.ReplicationTaskIdentifier) := by
  unfold resourceAwsDmsReplicationTaskRead at h
  simp only at h
  split at h
  · rename_i e he
    split at h
    · rename_i hcode
      cases h
      obtain ⟨msg, rfl⟩ := eq_aws_of_hasCode _ e hcode
      exact Or.inl ⟨msg, he, rfl, rfl⟩
    · rename_i hcode
      cases h
      refine Or.inr (Or.inl ⟨e, he, ?_, rfl, rfl⟩)
      rintro ⟨msg, rfl⟩
      exact hcode (by simp [SdkError.hasCode])
  · rename_i he
    split at h
    · cases h
    · rename_i out hout
      split at h
      · cases h
      · rename_i task rest hlist
        have htasks : out.ReplicationTasks = some (task :: rest) := by
          cases hrt : out.ReplicationTasks with
          | none => simp [hrt] at hlist
          | some l => simpa [hrt] using hlist
        cases task with
        | none => simp [resourceAwsDmsReplicationTaskSetState] at h
        | some t =>
          have key : ∀ d1 err, resourceAwsDmsReplicationTaskSetState lib d (some t)
              = .ok (d1, err) → d1.Id = StringValue t.ReplicationTaskIdentifier :=
            fun d1 err hs => resourceAwsDmsReplicationTaskSetState_id lib d d1 t err hs
          refine Or.inr (Or.inr ⟨out, t, rest, he, hout, htasks, ?_⟩)
          split at h
          · cases h
          · rename_i d1 err hs
            cases h
            exact key d1 _ hs
          · rename_i d1 hs
            have hid := key d1 _ hs
            split at h
            · cases h
              exact hid
            · split at h
              · cases h
                exact hid
              · split at h <;> (cases h; exact hid)

/-- Claim C19, counterexample. The read of the resource "task-2" against a remote
whose response holds the task "task-1" returns no error and leaves the id
"task-1"; the read of the resource "task-1" against a response whose task has no
identifier returns no error and leaves the id empty. In both the task is found
and the id after the read differs from the id before it. -/
theorem resourceAwsDmsReplicationTaskRead_changes_id :
    otherIdData.Id = "task-2"
    ∧ (resourceAwsDmsReplicationTaskRead stubLib plainClient
        (readEnvOf (describeStatus "ready")) otherIdData).map (fun r => (r.err, r.d.Id))
      = .ok (none, "task-1")
    ∧ sampleData.Id = "task-1"
    ∧ (resourceAwsDmsReplicationTaskRead stubLib plainClient
        (readEnvOf (describeOutput { ReplicationTasks := some [some taskWithoutIdentifier] }))
        sampleData).map (fun r => (r.err, r.d.Id))
      = .ok (none, "") :=
  ⟨rfl, rfl, rfl, rfl⟩

/-- Claim C19, as amended. For a read that returns: (1) when a task is found, the
id after the read is the ReplicationTaskIdentifier of the first task of the
response (empty when that is nil), so it equals the id before the read exactly
when that identifier does; (2) when the describe call answers
ResourceNotFoundFault the id is cleared and no error is returned; (3) on every
other error of the describe call the resource data is untouched; (4) an id that
differs after the read was cleared in that way or was taken from a found task
that carries another identifier. -/
theorem resourceAwsDmsReplicationTaskRead_identity (lib : Lib) (client : AWSClient)
    (env : ReadEnv) (d : ResourceData) (r : HandlerResult)
    (h : resourceAwsDmsReplicationTaskRead lib client env d = .ok r) :
    (∀ out task rest, (env.describe (describeByIdInput d.Id)).err = none →
      (env.describe (describeByIdInput d.Id)).output = some out →
      out.ReplicationTasks = some (some task :: rest) →
      r.d.Id = StringValue task.ReplicationTaskIdentifier
      ∧ (r.d.Id = d.Id ↔ StringValue task.ReplicationTaskIdentifier = d.Id))
    ∧ (∀ msg, (env.describe (describeByIdInput d.Id)).err
        = some (.aws "ResourceNotFoundFault" msg) → r.d.Id = "" ∧ r.err = none)
    ∧ (∀ e, (env.describe (describeByIdInput d.Id)).err = some e →
        (¬ ∃ msg, e = .aws "ResourceNotFoundFault" msg) → r.d = d ∧ r.err = some (.sdk e))
    ∧ (r.d.Id ≠ d.Id →
        (r.d.Id = "" ∧ r.err = none
          ∧ ∃ msg, (env.describe (describeByIdInput d.Id)).err
            = some (.aws "ResourceNotFoundFault" msg))
        ∨ ∃ out task rest, (env.describe (describeByIdInput d.Id)).err = none
            ∧ (env.describe (describeByIdInput d.Id)).output = some out
            ∧ out.ReplicationTasks = some (some task :: rest)
            ∧ r.d.Id = StringValue task.ReplicationTaskIdentifier
            ∧ StringValue task.ReplicationTaskIdentifier ≠ d.Id) := by
  have hid := resourceAwsDmsReplicationTaskRead_id lib client env d r h
  refine ⟨?_, ?_, ?_, ?_⟩
  · intro out task rest he hout htasks
    rcases hid with ⟨msg, he1, _⟩ | ⟨e, he1, _⟩ | ⟨out1, task1, rest1, _, hout1, htasks1, hr⟩
    · rw [he] at he1
      cases he1
    · rw [he] at he1
      cases he1
    · rw [hout] at hout1
      cases hout1
      rw [htasks] at htasks1
      cases htasks1
      exact ⟨hr, by rw [hr]⟩
  · intro msg he
    rcases hid with ⟨msg1, _, h1, h2⟩ | ⟨e, he1, hne, _⟩ | ⟨_, _, _, he1, _⟩
    · exact ⟨h1, h2⟩
    · rw [he] at he1
      cases he1
      exact absurd ⟨msg, rfl⟩ hne
    · rw [he] at he1
      cases he1
  · intro e he hne
    rcases hid with ⟨msg1, he1, _⟩ | ⟨e1, he1, _, hd, herr⟩ | ⟨_, _, _, he1, _⟩
    · rw [he] at he1
      cases he1
      exact absurd ⟨msg1, rfl⟩ hne
    · rw [he] at he1
      cases he1
      exact ⟨hd, herr⟩
    · rw [he] at he1
      cases he1
  · intro hchanged
    rcases hid with ⟨msg, he1, h1, h2⟩ | ⟨e, _, _, hd, _⟩ | ⟨out1, task1, rest1, he1, hout1, htasks1, hr⟩
    · exact Or.inl ⟨h1, h2, msg, he1⟩
    · rw [hd] at hchanged
      exact absurd rfl hchanged
    · refine Or.inr ⟨out1, task1, rest1, he1, hout1, htasks1, hr, ?_⟩
      rw [← hr]
      exact hchanged

/-- C19 as amended, at concrete inputs: the read of "task-1" against a remote
that finds the task "task-1" returns no error and leaves the identity "task-1",
the identifier of the found task. -/
theorem resourceAwsDmsReplicationTaskRead_identity_witness :
    ∃ r, resourceAwsDmsReplicationTaskRead stubLib plainClient
        (readEnvOf (describeStatus "ready")) sampleData = .ok r
      ∧ r.err = none
      ∧ r.d.Id = StringValue (taskWithStatus "ready").ReplicationTaskIdentifier
      ∧ r.d.Id = sampleData.Id := by
  refine ⟨_, rfl, rfl, ?_, rfl⟩
  exact ((resourceAwsDmsReplicationTaskRead_identity stubLib plainClient
    (readEnvOf (describeStatus "ready")) sampleData _ rfl).1
    { ReplicationTasks := some [some (taskWithStatus "ready")] } (taskWithStatus "ready") []
    rfl rfl rfl).1

/-! ### The clean-up of read-only settings -/

/-- Deleting a key from a map removes that key and leaves every other key with
its value. -/
theorem mapIndex_mapDelete (m : JsonMap) (key k : String) :
    mapIndex (mapDelete m key) k = if k = key then none else mapIndex m k := by
  induction m with
  | nil => simp [mapIndex, mapDelete]
  | cons kv rest ih =>
    obtain ⟨a, w⟩ := kv
    simp only [mapIndex, mapDelete] at ih ⊢
    by_cases hak : a = key
    · subst hak
      have hf : List.filter (fun kv : String × JsonValue => kv.1 != a) ((a, w) :: rest)
          = List.filter (fun kv : String × JsonValue => kv.1 != a) rest := by
        simp [List.filter_cons]
      rw [hf, ih]
      by_cases hk : k = a
      · subst hk
        simp
      · have h2 : (k == a) = false := by simp [hk]
        simp [hk, List.lookup_cons, h2]
    · have hf : List.filter (fun kv : String × JsonValue => kv.1 != key) ((a, w) :: rest)
          = (a, w) :: List.filter (fun kv : String × JsonValue => kv.1 != key) rest := by
        simp [List.filter_cons, hak]
      rw [hf, List.lookup_cons, List.lookup_cons, ih]
      by_cases hka : k = a
      · subst hka
        simp [hak]
      · have h2 : (k == a) = false := by simp [hka]
        simp [h2]

/-- Storing a value under a key changes the value of that key, when the map has
it, and leaves every other key with its value. -/
theorem mapIndex_mapStore (m : JsonMap) (key k : String) (v : JsonValue) :
    mapIndex (mapStore m key v) k
      = if k = key then (mapIndex m k).map (fun _ => v) else mapIndex m k := by
  induction m with
  | nil => simp [mapIndex, mapStore]
  | cons kv rest ih =>
    obtain ⟨a, w⟩ := kv
    simp only [mapIndex, mapStore] at ih ⊢
    rw [List.map_cons]
    by_cases hak : a = key
    · subst hak
      have h1 : ((a, w).1 == a) = true := by simp
      rw [if_pos h1, List.lookup_cons, List.lookup_cons, ih]
      by_cases hka : k = a
      · subst hka
        simp
      · have h2 : (k == a) = false := by simp [hka]
        simp [h2]
    · have h1 : ¬ ((a, w).1 == key) = true := by simp [hak]
      rw [if_neg h1, List.lookup_cons, List.lookup_cons, ih]
      by_cases hka : k = a
      · subst hka
        simp [hak]
      · have h2 : (k == a) = false := by simp [hka]
        simp [h2]

/-- Storing a value under a key keeps the keys of the map, in their order. -/
theorem mapStore_keys (m : JsonMap) (key : String) (v : JsonValue) :
    (mapStore m key v).map Prod.fst = m.map Prod.fst := by
  unfold mapStore
  rw [List.map_map]
  apply List.map_congr_left
  intro kv _
  simp only [Function.comp]
  split <;> rfl

/-- The first step of the clean-up, on the value under one key: an object loses
the given keys, every other value stays. -/
theorem mapIndex_store_object (m : JsonMap) (key k : String) (f : JsonMap → JsonMap) :
    mapIndex (match mapIndex m key with
        | some (.object o) => mapStore m key (.object (f o))
        | _ => m) k
      = if k = key then
          (match mapIndex m key with
            | some (.object o) => some (.object (f o))
            | other => other)
        else mapIndex m k := by
  split
  · rename_i o ho
    rw [mapIndex_mapStore]
    by_cases hk : k = key
    · subst hk
      simp [ho]
    · simp [hk]
  · rename_i hno
    by_cases hk : k = key
    · subst hk
      simp only [if_true]
    · simp [hk]

/-- The clean-up keeps the top-level keys of the map, in their order. -/
theorem removeReadOnlyKeys_keys (m : JsonMap) :
    (removeReadOnlyKeys m).map Prod.fst = m.map Prod.fst := by
  unfold removeReadOnlyKeys
  simp only
  split <;> split <;> simp [mapStore_keys]

/-- For an input string that json.Unmarshal decodes to the object `m`,
dmsReplicationTaskRemoveReadOnlySettings returns what json.Marshal gives for the
cleaned object, and the cleaned object is `m` with exactly the read-only keys
removed: (1) the top-level keys are those of `m`; (2) every key other than
"ControlTablesSettings" and "Logging" keeps its value; (3) the value under
"ControlTablesSettings", when it is an object, loses "historyTimeslotInMinutes"
and is untouched otherwise; (4) the value under "Logging", when it is an object,
loses "CloudWatchLogGroup" and "CloudWatchLogStream" and is untouched otherwise;
(5, 6) inside these two objects every other key keeps its value. -/
theorem dmsReplicationTaskRemoveReadOnlySettings_decoded (lib : Lib) (settings : String)
    (m : JsonMap) (h : lib.Unmarshal settings = .ok (some m)) :
    dmsReplicationTaskRemoveReadOnlySettings lib settings
      = (match lib.Marshal (some (removeReadOnlyKeys m)) with
          | .ok cleaned => (some cleaned, none)
          | .error e => (none, some e))
    ∧ (removeReadOnlyKeys m).map Prod.fst = m.map Prod.fst
    ∧ (∀ k, k ≠ "ControlTablesSettings" → k ≠ "Logging" →
        mapIndex (removeReadOnlyKeys m) k = mapIndex m k)
    ∧ mapIndex (removeReadOnlyKeys m) "ControlTablesSettings"
      = (match mapIndex m "ControlTablesSettings" with
          | some (.object o) => some (.object (mapDelete o "historyTimeslotInMinutes"))
          | other => other)
    ∧ mapIndex (removeReadOnlyKeys m) "Logging"
      = (match mapIndex m "Logging" with
          | some (.object o) =>
            some (.object (mapDelete (mapDelete o "CloudWatchLogGroup") "CloudWatchLogStream"))
          | other => other)
    ∧ (∀ (o : JsonMap) (k : String),
        mapIndex (mapDelete o "historyTimeslotInMinutes") k
          = if k = "historyTimeslotInMinutes" then none else mapIndex o k)
    ∧ (∀ (o : JsonMap) (k : String),
        mapIndex (mapDelete (mapDelete o "CloudWatchLogGroup") "CloudWatchLogStream") k
          = if k = "CloudWatchLogGroup" ∨ k = "CloudWatchLogStream" then none
            else mapIndex o k) := by
  have hclean : ∀ k, mapIndex (removeReadOnlyKeys m) k
      = if k = "Logging" then
          (match (if ("Logging" : String) = "ControlTablesSettings" then
                (match mapIndex m "ControlTablesSettings" with
                  | some (.object o) => some (.object (mapDelete o "historyTimeslotInMinutes"))
                  | other => other)
              else mapIndex m "Logging") with
            | some (.object o) =>
              some (.object
                (mapDelete (mapDelete o "CloudWatchLogGroup") "CloudWatchLogStream"))
            | other => other)
        else if k = "ControlTablesSettings" then
          (match mapIndex m "ControlTablesSettings" with
            | some (.object o) => some (.object (mapDelete o "historyTimeslotInMinutes"))
            | other => other)
        else mapIndex m k := by
    intro k
    unfold removeReadOnlyKeys
    simp only
    rw [mapIndex_store_object _ "Logging" k
      (fun o => mapDelete (mapDelete o "CloudWatchLogGroup") "CloudWatchLogStream")]
    rw [mapIndex_store_object m "ControlTablesSettings" "Logging"
      (fun o => mapDelete o "historyTimeslotInMinutes")]
    rw [mapIndex_store_object m "ControlTablesSettings" k
      (fun o => mapDelete o "historyTimeslotInMinutes")]
  refine ⟨?_, removeReadOnlyKeys_keys m, ?_, ?_, ?_, ?_, ?_⟩
  · unfold dmsReplicationTaskRemoveReadOnlySettings
    rw [h]
    simp only [Option.map_some']
    cases lib.Marshal (some (removeReadOnlyKeys m)) <;> rfl
  · intro k h1 h2
    rw [hclean k]
    simp [h1, h2]
  · rw [hclean "ControlTablesSettings"]
    simp
  · rw [hclean "Logging"]
    simp
  · intro o k
    exact mapIndex_mapDelete o _ k
  · intro o k
    rw [mapIndex_mapDelete, mapIndex_mapDelete]
    by_cases h1 : k = "CloudWatchLogStream"
    · simp [h1]
    · by_cases h2 : k = "CloudWatchLogGroup"
      · simp [h2]
      · simp [h1, h2]

/-! ### The attribute mapper -/

/-- Looking up a key after filtering out another key. -/
theorem lookup_filter_ne {β : Type} (l : List (String × β)) (key k : String) :
    (l.filter (fun kv => kv.1 != key)).lookup k = if k = key then none else l.lookup k := by
  induction l with
  | nil => simp
  | cons kv rest ih =>
    obtain ⟨a, w⟩ := kv
    by_cases hak : a = key
    · subst hak
      have hf : List.filter (fun kv : String × β => kv.1 != a) ((a, w) :: rest)
          = List.filter (fun kv : String × β => kv.1 != a) rest := by
        simp [List.filter_cons]
      rw [hf, ih]
      by_cases hk : k = a
      · subst hk
        simp
      · have h2 : (k == a) = false := by simp [hk]
        simp [hk, List.lookup_cons, h2]
    · have hf : List.filter (fun kv : String × β => kv.1 != key) ((a, w) :: rest)
          = (a, w) :: List.filter (fun kv : String × β => kv.1 != key) rest := by
        simp [List.filter_cons, hak]
      rw [hf, List.lookup_cons, List.lookup_cons, ih]
      by_cases hka : k = a
      · subst hka
        simp [hak]
      · have h2 : (k == a) = false := by simp [hka]
        simp [h2]

/-- Reading an attribute after `d.Set`: the stored value for the key that was
set, the former value for every other key. -/
theorem ResourceData.Get_Set (d : ResourceData) (key k : String) (v : Option String) :
    (d.Set key v).Get k = if k = key then StringValue v else d.Get k := by
  unfold ResourceData.Get ResourceData.Set
  simp only [List.lookup_cons]
  by_cases hk : k = key
  · subst hk
    simp
  · have h2 : (k == key) = false := by simp [hk]
    simp [h2, hk, lookup_filter_ne]

/-- Assigning the identity leaves the attributes alone. -/
theorem ResourceData.Get_SetId (d : ResourceData) (id k : String) :
    (d.SetId id).Get k = d.Get k := rfl

/-- The value of `d.GetOk`, read through aws.StringValue, is the value of `d.Get`. -/
theorem ResourceData.StringValue_GetOk (d : ResourceData) (k : String) :
    StringValue (d.GetOk k) = d.Get k := by
  unfold ResourceData.GetOk
  by_cases h : d.Get k = ""
  · simp [h, StringValue]
  · simp [h, StringValue]

/-- The attributes that resourceAwsDmsReplicationTaskSetState leaves behind when
it returns no error: each one is the string value of the field of the task, and
replication_task_settings is the cleaned settings string. -/
theorem resourceAwsDmsReplicationTaskSetState_attrs (lib : Lib) (d d1 : ResourceData)
    (task : ReplicationTask)
    (h : resourceAwsDmsReplicationTaskSetState lib d (some task) = .ok (d1, none)) :
    d1.Get "cdc_start_position" = StringValue task.CdcStartPosition
    ∧ d1.Get "migration_type" = StringValue task.MigrationType
    ∧ d1.Get "replication_instance_arn" = StringValue task.ReplicationInstanceArn
    ∧ d1.Get "replication_task_arn" = StringValue task.ReplicationTaskArn
    ∧ d1.Get "replication_task_id" = StringValue task.ReplicationTaskIdentifier
    ∧ d1.Get "source_endpoint_arn" = StringValue task.SourceEndpointArn
    ∧ d1.Get "table_mappings" = StringValue task.TableMappings
    ∧ d1.Get "target_endpoint_arn" = StringValue task.TargetEndpointArn
    ∧ ∃ raw cleaned, task.ReplicationTaskSettings = some raw
        ∧ dmsReplicationTaskRemoveReadOnlySettings lib raw = (cleaned, none)
        ∧ d1.Get "replication_task_settings" = StringValue cleaned := by
  unfold resourceAwsDmsReplicationTaskSetState at h
  simp only at h
  split at h
  · cases h
  · rename_i raw hraw
    split at h
    · simp at h
    · rename_i cleaned hclean
      simp only [Except.ok.injEq, Prod.mk.injEq, and_true] at h
      subst h
      simp only [ResourceData.Get_Set, ResourceData.Get_SetId]
      refine ⟨by simp, by simp, by simp, by simp, by simp, by simp, by simp, by simp,
        raw, cleaned, hraw, hclean, by simp⟩

/-- The fields of the create request that come from string attributes: six are
pointers to the attribute values, CdcStartPosition and ReplicationTaskSettings
are set only when the attribute is set. -/
theorem createRequest_fields (lib : Lib) (client : AWSClient) (d : ResourceData)
    (request : CreateReplicationTaskInput) (h : createRequest lib client d = .ok request) :
    request.MigrationType = some (d.Get "migration_type")
    ∧ request.ReplicationInstanceArn = some (d.Get "replication_instance_arn")
    ∧ request.ReplicationTaskIdentifier = some (d.Get "replication_task_id")
    ∧ request.SourceEndpointArn = some (d.Get "source_endpoint_arn")
    ∧ request.TableMappings = some (d.Get "table_mappings")
    ∧ request.TargetEndpointArn = some (d.Get "target_endpoint_arn")
    ∧ request.CdcStartPosition = d.GetOk "cdc_start_position"
    ∧ request.ReplicationTaskSettings = d.GetOk "replication_task_settings" := by
  unfold createRequest at h
  simp only at h
  split at h
  · cases h
  · rename_i req heq
    have hreq : req.MigrationType = some (d.Get "migration_type")
        ∧ req.ReplicationInstanceArn = some (d.Get "replication_instance_arn")
        ∧ req.ReplicationTaskIdentifier = some (d.Get "replication_task_id")
        ∧ req.SourceEndpointArn = some (d.Get "source_endpoint_arn")
        ∧ req.TableMappings = some (d.Get "table_mappings")
        ∧ req.TargetEndpointArn = some (d.Get "target_endpoint_arn")
        ∧ req.CdcStartPosition = d.GetOk "cdc_start_position"
        ∧ req.ReplicationTaskSettings = none := by
      split at heq
      · split at heq
        · cases heq
        · simp only [Except.ok.injEq] at heq
          subst heq
          cases d.GetOk "cdc_start_position" <;> simp
      · simp only [Except.ok.injEq] at heq
        subst heq
        cases d.GetOk "cdc_start_position" <;> simp
    obtain ⟨h1, h2, h3, h4, h5, h6, h7, h8⟩ := hreq
    split at h
    · rename_i v hv
      simp only [Except.ok.injEq] at h
      subst h
      exact ⟨h1, h2, h3, h4, h5, h6, h7, hv.symm⟩
    · rename_i hv
      simp only [Except.ok.injEq] at h
      subst h
      exact ⟨h1, h2, h3, h4, h5, h6, h7, by rw [h8, hv]⟩

/-- C13 as stated fails for ReplicationTaskSettings: a response whose settings
are `{"Logging":{"CloudWatchLogGroup":"g"}}` is mapped to local attributes
without error, and the create request built from them carries
`{"Logging":{}}`, a different string that decodes to a different object. -/
theorem settings_round_trip_differs :
    ∃ d1 request,
      resourceAwsDmsReplicationTaskSetState jsonLib importedData
          (some (taskWithSettings (some loggingSettingsText))) = .ok (d1, none)
      ∧ createRequest jsonLib plainClient d1 = .ok request
      ∧ request.ReplicationTaskSettings = some emptyLoggingSettingsText
      ∧ emptyLoggingSettingsText ≠ loggingSettingsText
      ∧ jsonLib.Unmarshal emptyLoggingSettingsText ≠ jsonLib.Unmarshal loggingSettingsText := by
  refine ⟨_, _, rfl, rfl, rfl, by decide, ?_⟩
  have h1 : jsonLib.Unmarshal emptyLoggingSettingsText
      = .ok (some [("Logging", .object [])]) := rfl
  have h2 : jsonLib.Unmarshal loggingSettingsText
      = .ok (some [("Logging", .object [("CloudWatchLogGroup", .string "g")])]) := rfl
  rw [h1, h2]
  intro h
  simp at h

/-- C13 as amended: when resourceAwsDmsReplicationTaskSetState maps a task to
local attributes without error and the create request is built from them, the
request carries the same string value as the task (nil and the empty string
counting as the same) for MigrationType, ReplicationInstanceArn,
ReplicationTaskIdentifier, SourceEndpointArn, TargetEndpointArn, TableMappings
and CdcStartPosition; for ReplicationTaskSettings it carries the settings of the
task as cleaned by dmsReplicationTaskRemoveReadOnlySettings. -/
theorem attribute_mapper_round_trip (lib : Lib) (client : AWSClient) (d d1 : ResourceData)
    (task : ReplicationTask) (request : CreateReplicationTaskInput)
    (hset : resourceAwsDmsReplicationTaskSetState lib d (some task) = .ok (d1, none))
    (hreq : createRequest lib client d1 = .ok request) :
    StringValue request.MigrationType = StringValue task.MigrationType
    ∧ StringValue request.ReplicationInstanceArn = StringValue task.ReplicationInstanceArn
    ∧ StringValue request.ReplicationTaskIdentifier
      = StringValue task.ReplicationTaskIdentifier
    ∧ StringValue request.SourceEndpointArn = StringValue task.SourceEndpointArn
    ∧ StringValue request.TargetEndpointArn = StringValue task.TargetEndpointArn
    ∧ StringValue request.TableMappings = StringValue task.TableMappings
    ∧ StringValue request.CdcStartPosition = StringValue task.CdcStartPosition
    ∧ ∃ raw cleaned, task.ReplicationTaskSettings = some raw
        ∧ dmsReplicationTaskRemoveReadOnlySettings lib raw = (cleaned, none)
        ∧ StringValue request.ReplicationTaskSettings = StringValue cleaned := by
  obtain ⟨a1, a2, a3, _, a5, a6, a7, a8, raw, cleaned, hraw, hclean, a9⟩ :=
    resourceAwsDmsReplicationTaskSetState_attrs lib d d1 task hset
  obtain ⟨r1, r2, r3, r4, r5, r6, r7, r8⟩ := createRequest_fields lib client d1 request hreq
  refine ⟨?_, ?_, ?_, ?_, ?_, ?_, ?_, raw, cleaned, hraw, hclean, ?_⟩
  · rw [r1, ← a2]; rfl
  · rw [r2, ← a3]; rfl
  · rw [r3, ← a5]; rfl
  · rw [r4, ← a6]; rfl
  · rw [r6, ← a8]; rfl
  · rw [r5, ← a7]; rfl
  · rw [r7, ResourceData.StringValue_GetOk, a1]
  · rw [r8, ResourceData.StringValue_GetOk, a9]

/-- C13 as amended, at a concrete input: the task "task-1" with settings
`{"Logging":{"CloudWatchLogGroup":"g"}}` and no CdcStartPosition comes back in
the create request with its migration type, no CdcStartPosition and the cleaned
settings. -/
theorem attribute_mapper_round_trip_witness :
    ∃ d1 request,
      resourceAwsDmsReplicationTaskSetState jsonLib importedData
          (some (taskWithSettings (some loggingSettingsText))) = .ok (d1, none)
      ∧ createRequest jsonLib plainClient d1 = .ok request
      ∧ StringValue request.MigrationType = "full-load"
      ∧ StringValue request.CdcStartPosition = ""
      ∧ ∃ raw cleaned,
          (taskWithSettings (some loggingSettingsText)).ReplicationTaskSettings = some raw
          ∧ dmsReplicationTaskRemoveReadOnlySettings jsonLib raw = (cleaned, none)
          ∧ StringValue request.ReplicationTaskSettings = StringValue cleaned :=
  ⟨_, _, rfl, rfl,
    (attribute_mapper_round_trip jsonLib plainClient importedData _
      (taskWithSettings (some loggingSettingsText)) _ rfl rfl).1,
    (attribute_mapper_round_trip jsonLib plainClient importedData _
      (taskWithSettings (some loggingSettingsText)) _ rfl rfl).2.2.2.2.2.2.1,
    (attribute_mapper_round_trip jsonLib plainClient importedData _
      (taskWithSettings (some loggingSettingsText)) _ rfl rfl).2.2.2.2.2.2.2⟩

/-- C14 as stated fails: a task whose settings string does not decode makes
resourceAwsDmsReplicationTaskSetState return the decode error, and a task whose
ReplicationTaskSettings is absent makes it fault on the nil dereference. -/
theorem resourceAwsDmsReplicationTaskSetState_error_and_fault :
    (∃ d1, resourceAwsDmsReplicationTaskSetState jsonLib importedData
        (some (taskWithSettings (some "not json")))
      = .ok (d1, some (.message "invalid character looking for beginning of value")))
    ∧ resourceAwsDmsReplicationTaskSetState jsonLib importedData
        (some (taskWithSettings none)) = .error .nilDereference :=
  ⟨⟨_, rfl⟩, rfl⟩

/-- C14 as amended: for a task whose ReplicationTaskSettings is present, (1) when
the clean-up of the settings succeeds, resourceAwsDmsReplicationTaskSetState
returns without fault and without error; each of the eight pointer fields is
stored as its string value, so that the attribute of an absent field reads as
unset; and replication_task_settings holds the cleaned settings; (2) when the
clean-up fails, the function returns that error. -/
theorem resourceAwsDmsReplicationTaskSetState_present_settings (lib : Lib) (d : ResourceData)
    (task : ReplicationTask) (raw : String) (hraw : task.ReplicationTaskSettings = some raw) :
    (∀ cleaned, dmsReplicationTaskRemoveReadOnlySettings lib raw = (cleaned, none) →
      ∃ d1, resourceAwsDmsReplicationTaskSetState lib d (some task) = .ok (d1, none)
        ∧ (∀ kf ∈ [("cdc_start_position", task.CdcStartPosition),
              ("migration_type", task.MigrationType),
              ("replication_instance_arn", task.ReplicationInstanceArn),
              ("replication_task_arn", task.ReplicationTaskArn),
              ("replication_task_id", task.ReplicationTaskIdentifier),
              ("source_endpoint_arn", task.SourceEndpointArn),
              ("table_mappings", task.TableMappings),
              ("target_endpoint_arn", task.TargetEndpointArn)],
            d1.Get kf.1 = StringValue kf.2 ∧ (kf.2 = none → d1.GetOk kf.1 = none))
        ∧ d1.Get "replication_task_settings" = StringValue cleaned)
    ∧ (∀ leftover err,
      dmsReplicationTaskRemoveReadOnlySettings lib raw = (leftover, some err) →
      ∃ d1, resourceAwsDmsReplicationTaskSetState lib d (some task) = .ok (d1, some err)) := by
  refine ⟨?_, ?_⟩
  · intro cleaned hclean
    have hs : ∃ d1, resourceAwsDmsReplicationTaskSetState lib d (some task) = .ok (d1, none) := by
      simp [resourceAwsDmsReplicationTaskSetState, hraw, hclean]
    obtain ⟨d1, hd1⟩ := hs
    obtain ⟨a1, a2, a3, a4, a5, a6, a7, a8, raw1, cleaned1, hraw1, hclean1, a9⟩ :=
      resourceAwsDmsReplicationTaskSetState_attrs lib d d1 task hd1
    have hsame : cleaned1 = cleaned := by
      rw [hraw] at hraw1
      cases hraw1
      rw [hclean] at hclean1
      cases hclean1
      rfl
    subst hsame
    have hunset : ∀ (k : String) (f : Option String), d1.Get k = StringValue f →
        d1.Get k = StringValue f ∧ (f = none → d1.GetOk k = none) := by
      intro k f hk
      refine ⟨hk, ?_⟩
      intro hf
      subst hf
      simp [ResourceData.GetOk, hk, StringValue]
    refine ⟨d1, hd1, ?_, a9⟩
    intro kf hkf
    simp only [List.mem_cons, List.mem_singleton, List.not_mem_nil, or_false] at hkf
    rcases hkf with h | h | h | h | h | h | h | h <;> subst h
    · exact hunset _ _ a1
    · exact hunset _ _ a2
    · exact hunset _ _ a3
    · exact hunset _ _ a4
    · exact hunset _ _ a5
    · exact hunset _ _ a6
    · exact hunset _ _ a7
    · exact hunset _ _ a8
  · intro leftover err herr
    simp [resourceAwsDmsReplicationTaskSetState, hraw, herr]

/-- C14 as amended, at a concrete input: the task "task-1" with settings `{}` and
no CdcStartPosition is mapped without error, and cdc_start_position reads as
unset afterwards. -/
theorem resourceAwsDmsReplicationTaskSetState_present_settings_witness :
    ∃ d1, resourceAwsDmsReplicationTaskSetState jsonLib importedData
        (some (taskWithStatus "ready")) = .ok (d1, none)
      ∧ d1.GetOk "cdc_start_position" = none
      ∧ d1.Get "migration_type" = "full-load" := by
  obtain ⟨d1, h1, h2, _⟩ :=
    (resourceAwsDmsReplicationTaskSetState_present_settings jsonLib importedData
      (taskWithStatus "ready") "\x7b\x7d" rfl).1 (some "\x7b\x7d") rfl
  exact ⟨d1, h1, (h2 ("cdc_start_position", none) (by simp [taskWithStatus])).2 rfl,
    (h2 ("migration_type", some "full-load") (by simp [taskWithStatus])).1⟩

/-! ### The instance data source -/

/-- C15, the code at the failing input: for every instance whose State is present
and whose Placement is nil, instanceDescriptionAttributes faults with a nil
dereference, whatever the other fields, the resource data and the surroundings
are: only the availability_zone statement is guarded by the nil test. -/
theorem instanceDescriptionAttributes_nil_placement (lib : Lib) (env : InstanceEnv)
    (d : InstanceData) (inst : Instance) (state : InstanceState)
    (ignoreTagsConfig : KeyValueTags) :
    instanceDescriptionAttributes lib env d
        (some { inst with State := some state, Placement := none }) ignoreTagsConfig
      = .error .nilDereference := by
  simp [instanceDescriptionAttributes, setPlacementAttributes]

/-! ### The update handler -/

/-- The modify request of the update handler, field by field: the ARN attribute,
and each of the five fields exactly when its attribute has changed; the flag
tells whether one of them has. -/
theorem updateRequest_eq (d : ResourceData) (request : ModifyReplicationTaskInput) (b : Bool)
    (h : updateRequest d = .ok (request, b)) :
    request
      = { ReplicationTaskArn := some (d.Get "replication_task_arn"),
          CdcStartPosition :=
            if d.HasChange "cdc_start_position" then some (d.Get "cdc_start_position")
            else none,
          CdcStartTime :=
            if d.HasChange "cdc_start_time" then
              (match ParseInt (d.Get "cdc_start_time") with
                | .ok seconds => some seconds
                | .error _ => none)
            else none,
          MigrationType :=
            if d.HasChange "migration_type" then some (d.Get "migration_type") else none,
          ReplicationTaskSettings :=
            if d.HasChange "replication_task_settings" then
              some (d.Get "replication_task_settings")
            else none,
          TableMappings :=
            if d.HasChange "table_mappings" then some (d.Get "table_mappings") else none }
    ∧ b = (d.HasChange "cdc_start_position" || d.HasChange "cdc_start_time"
        || d.HasChange "migration_type" || d.HasChange "replication_task_settings"
        || d.HasChange "table_mappings") := by
  unfold updateRequest at h
  cases h1 : d.HasChange "cdc_start_position" <;>
  cases h2 : d.HasChange "cdc_start_time" <;>
  cases h3 : d.HasChange "migration_type" <;>
  cases h4 : d.HasChange "replication_task_settings" <;>
  cases h5 : d.HasChange "table_mappings" <;>
  cases hp : ParseInt (d.Get "cdc_start_time") <;>
  simp_all

/-- No call of a read that returns is a modify call. -/
theorem resourceAwsDmsReplicationTaskRead_countP_isModify (lib : Lib) (client : AWSClient)
    (env : ReadEnv) (d : ResourceData) (r : HandlerResult)
    (h : resourceAwsDmsReplicationTaskRead lib client env d = .ok r) :
    r.calls.countP Call.isModify = 0 := by
  rcases resourceAwsDmsReplicationTaskRead_calls lib client env d r h with hc | hc <;>
    · rw [hc]
      rfl

/-- No probe of a wait is a modify call. -/
theorem probeCalls_countP_isModify (d : ResourceData) (n : Nat) :
    (probeCalls d n).countP Call.isModify = 0 := by
  rw [List.countP_eq_zero]
  intro c hc
  rw [mem_probeCalls d n c hc]
  simp [Call.isModify]

/-- C28 as stated fails: with migration_type changed, tags_all changed and the
tag update denied, the update handler returns the tag error after the tag update
call and issues no ModifyReplicationTask call. -/
theorem resourceAwsDmsReplicationTaskUpdate_tag_error_no_modify :
    changedTagsData.HasChange "migration_type" = true
    ∧ resourceAwsDmsReplicationTaskUpdate stubLib plainClient updateEnvTagsDenied
        changedTagsData
      = .ok { d := changedTagsData,
              err := some (.errorf "error updating DMS Replication Task (%s) tags: %s"
                ["arn:task"] (.sdk (.aws "AccessDeniedException" "denied"))),
              calls := [Call.UpdateTags "arn:task" [] [("env", "prod")]] } :=
  ⟨by decide, rfl⟩

/-- C28 as amended: (1) if none of cdc_start_position, cdc_start_time,
migration_type, replication_task_settings and table_mappings has changed, the
update handler issues no modify call, no probe and no read: with tags_all
unchanged it returns nil with an empty call log, with tags_all changed its only
call is the tag update and it returns nil unless that call failed. (2) The
request it builds carries the ARN attribute and exactly the changed fields. (3)
If at least one of the five has changed, cdc_start_time parses and the tag
update, when tags_all changed, did not fail, every run that returns has issued
exactly one ModifyReplicationTask call, with that request. -/
theorem resourceAwsDmsReplicationTaskUpdate_modify_call :
    (∀ (lib : Lib) (client : AWSClient) (env : UpdateEnv) (d : ResourceData),
      d.HasChange "cdc_start_position" = false → d.HasChange "cdc_start_time" = false →
      d.HasChange "migration_type" = false →
      d.HasChange "replication_task_settings" = false →
      d.HasChange "table_mappings" = false →
      ((d.priorTagsAll != d.tagsAll) = false →
        resourceAwsDmsReplicationTaskUpdate lib client env d
          = .ok { d := d, err := none, calls := [] })
      ∧ ((d.priorTagsAll != d.tagsAll) = true →
        resourceAwsDmsReplicationTaskUpdate lib client env d
          = .ok { d := d,
                  err := (env.updateTags (d.Get "replication_task_arn") d.priorTagsAll
                      d.tagsAll).map
                    (fun err => .errorf "error updating DMS Replication Task (%s) tags: %s"
                      [d.Get "replication_task_arn"] err),
                  calls := [Call.UpdateTags (d.Get "replication_task_arn") d.priorTagsAll
                    d.tagsAll] }))
    ∧ (∀ (d : ResourceData) (request : ModifyReplicationTaskInput) (b : Bool),
      updateRequest d = .ok (request, b) →
      request
        = { ReplicationTaskArn := some (d.Get "replication_task_arn"),
            CdcStartPosition :=
              if d.HasChange "cdc_start_position" then some (d.Get "cdc_start_position")
              else none,
            CdcStartTime :=
              if d.HasChange "cdc_start_time" then
                (match ParseInt (d.Get "cdc_start_time") with
                  | .ok seconds => some seconds
                  | .error _ => none)
              else none,
            MigrationType :=
              if d.HasChange "migration_type" then some (d.Get "migration_type") else none,
            ReplicationTaskSettings :=
              if d.HasChange "replication_task_settings" then
                some (d.Get "replication_task_settings")
              else none,
            TableMappings :=
              if d.HasChange "table_mappings" then some (d.Get "table_mappings") else none }
      ∧ b = (d.HasChange "cdc_start_position" || d.HasChange "cdc_start_time"
          || d.HasChange "migration_type" || d.HasChange "replication_task_settings"
          || d.HasChange "table_mappings"))
    ∧ (∀ (lib : Lib) (client : AWSClient) (env : UpdateEnv) (d : ResourceData)
        (request : ModifyReplicationTaskInput) (r : HandlerResult),
      updateRequest d = .ok (request, true) →
      ((d.priorTagsAll != d.tagsAll) = true →
        env.updateTags (d.Get "replication_task_arn") d.priorTagsAll d.tagsAll = none) →
      resourceAwsDmsReplicationTaskUpdate lib client env d = .ok r →
      r.calls.countP Call.isModify = 1 ∧ Call.ModifyReplicationTask request ∈ r.calls) := by
  refine ⟨?_, updateRequest_eq, ?_⟩
  · intro lib client env d h1 h2 h3 h4 h5
    have hreq : updateRequest d
        = .ok ({ ReplicationTaskArn := some (d.Get "replication_task_arn"),
                 CdcStartPosition := none, CdcStartTime := none, MigrationType := none,
                 ReplicationTaskSettings := none, TableMappings := none }, false) := by
      simp [updateRequest, h1, h2, h3, h4, h5]
    refine ⟨?_, ?_⟩
    · intro ht
      simp [resourceAwsDmsReplicationTaskUpdate, hreq, ht]
    · intro ht
      cases hu : env.updateTags (d.Get "replication_task_arn") d.priorTagsAll d.tagsAll <;>
        simp [resourceAwsDmsReplicationTaskUpdate, hreq, ht, hu]
  · intro lib client env d request r hreq htags h
    unfold resourceAwsDmsReplicationTaskUpdate at h
    rw [hreq] at h
    simp only at h
    cases hchg : (d.priorTagsAll != d.tagsAll) with
    | false =>
      simp only [hchg, Bool.false_eq_true, if_false, if_true, List.nil_append] at h
      split at h
      · cases h
        exact ⟨rfl, by simp⟩
      · split at h
        · cases h
        · split at h
          · cases h
            refine ⟨?_, by simp⟩
            have := probeCalls_countP_isModify d ‹WaitOutcome›.probes
            simp [List.countP_append, List.countP_cons, Call.isModify, this]
          · split at h
            · cases h
            · rename_i rr hread
              cases h
              refine ⟨?_, by simp⟩
              have h1 := probeCalls_countP_isModify d ‹WaitOutcome›.probes
              have h2 := resourceAwsDmsReplicationTaskRead_countP_isModify lib client env.read
                d rr hread
              simp [List.countP_append, List.countP_cons, Call.isModify, h1, h2]
    | true =>
      have hu := htags hchg
      simp only [hchg, if_true, hu] at h
      split at h
      · cases h
        refine ⟨?_, by simp⟩
        simp [List.countP_cons, Call.isModify]
      · split at h
        · cases h
        · split at h
          · cases h
            refine ⟨?_, by simp⟩
            have := probeCalls_countP_isModify d ‹WaitOutcome›.probes
            simp [List.countP_append, List.countP_cons, Call.isModify, this]
          · split at h
            · cases h
            · rename_i rr hread
              cases h
              refine ⟨?_, by simp⟩
              have h1 := probeCalls_countP_isModify d ‹WaitOutcome›.probes
              have h2 := resourceAwsDmsReplicationTaskRead_countP_isModify lib client env.read
                d rr hread
              simp [List.countP_append, List.countP_cons, Call.isModify, h1, h2]

/-- C28 as amended, at concrete inputs: with only migration_type changed the
update handler issues one modify call that carries the ARN and the new migration
type and nothing else. -/
theorem resourceAwsDmsReplicationTaskUpdate_modify_call_witness :
    ∃ r, resourceAwsDmsReplicationTaskUpdate stubLib plainClient updateEnvFailed changedData
        = .ok r
      ∧ r.calls.countP Call.isModify = 1
      ∧ Call.ModifyReplicationTask
          { ReplicationTaskArn := some "arn:task", CdcStartPosition := none,
            CdcStartTime := none, MigrationType := some "full-load",
            ReplicationTaskSettings := none, TableMappings := none } ∈ r.calls :=
  ⟨_, rfl,
    resourceAwsDmsReplicationTaskUpdate_modify_call.2.2 stubLib plainClient updateEnvFailed
      changedData _ _ rfl (by decide) rfl⟩

/-! ### Idempotence and rejection of the clean-up -/

/-- The clean-up is the object pattern for "ControlTablesSettings" followed by
the one for "Logging". -/
theorem removeReadOnlyKeys_eq (m : JsonMap) :
    removeReadOnlyKeys m
      = storeObject
          (storeObject m "ControlTablesSettings"
            (fun o => mapDelete o "historyTimeslotInMinutes"))
          "Logging"
          (fun o => mapDelete (mapDelete o "CloudWatchLogGroup") "CloudWatchLogStream") :=
  rfl

/-- Storing twice under the same key keeps the second value. -/
theorem mapStore_mapStore (m : JsonMap) (key : String) (v w : JsonValue) :
    mapStore (mapStore m key v) key w = mapStore m key w := by
  unfold mapStore
  rw [List.map_map]
  apply List.map_congr_left
  intro kv _
  simp only [Function.comp]
  by_cases h : (kv.1 == key) = true <;> simp [h]

/-- Stores under different keys commute. -/
theorem mapStore_comm (m : JsonMap) (k1 k2 : String) (v1 v2 : JsonValue) (hne : k1 ≠ k2) :
    mapStore (mapStore m k1 v1) k2 v2 = mapStore (mapStore m k2 v2) k1 v1 := by
  unfold mapStore
  rw [List.map_map, List.map_map]
  apply List.map_congr_left
  intro kv _
  simp only [Function.comp]
  by_cases h1 : kv.1 = k1
  · have h2 : ¬ kv.1 = k2 := fun h => hne (h1.symm.trans h)
    simp [h1, h2, hne]
  · by_cases h2 : kv.1 = k2
    · simp [h1, h2, Ne.symm hne]
    · simp [h1, h2]

/-- The value under a key after the object pattern was applied to some key. -/
theorem mapIndex_storeObject (m : JsonMap) (key k : String) (f : JsonMap → JsonMap) :
    mapIndex (storeObject m key f) k
      = if k = key then
          (match mapIndex m key with
            | some (.object o) => some (.object (f o))
            | other => other)
        else mapIndex m k :=
  mapIndex_store_object m key k f

/-- The object pattern on a key that holds an object. -/
theorem storeObject_of_object (m : JsonMap) (key : String) (f : JsonMap → JsonMap)
    (o : JsonMap) (h : mapIndex m key = some (.object o)) :
    storeObject m key f = mapStore m key (.object (f o)) := by
  simp [storeObject, h]

/-- The object pattern on a key that holds no object. -/
theorem storeObject_of_not_object (m : JsonMap) (key : String) (f : JsonMap → JsonMap)
    (h : ∀ o, mapIndex m key ≠ some (.object o)) : storeObject m key f = m := by
  unfold storeObject
  split
  · rename_i o ho
    exact absurd ho (h o)
  · rfl

/-- The object pattern applied twice with an idempotent change is the pattern
applied once. -/
theorem storeObject_idem (m : JsonMap) (key : String) (f : JsonMap → JsonMap)
    (hf : ∀ o, f (f o) = f o) :
    storeObject (storeObject m key f) key f = storeObject m key f := by
  by_cases hobj : ∃ o, mapIndex m key = some (.object o)
  · obtain ⟨o, ho⟩ := hobj
    have hidx := mapIndex_storeObject m key key f
    simp only [if_true, ho] at hidx
    rw [storeObject_of_object (storeObject m key f) key f (f o) hidx,
      storeObject_of_object m key f o ho, mapStore_mapStore, hf]
  · have hno : ∀ o, mapIndex m key ≠ some (.object o) := fun o ho => hobj ⟨o, ho⟩
    rw [storeObject_of_not_object m key f hno, storeObject_of_not_object m key f hno]

/-- The object patterns for two different keys commute. -/
theorem storeObject_comm (m : JsonMap) (k1 k2 : String) (f1 f2 : JsonMap → JsonMap)
    (hne : k1 ≠ k2) :
    storeObject (storeObject m k1 f1) k2 f2 = storeObject (storeObject m k2 f2) k1 f1 := by
  have hidx12 : mapIndex (storeObject m k1 f1) k2 = mapIndex m k2 := by
    rw [mapIndex_storeObject]
    simp [Ne.symm hne]
  have hidx21 : mapIndex (storeObject m k2 f2) k1 = mapIndex m k1 := by
    rw [mapIndex_storeObject]
    simp [hne]
  by_cases h1 : ∃ o, mapIndex m k1 = some (.object o)
  · obtain ⟨o1, ho1⟩ := h1
    by_cases h2 : ∃ o, mapIndex m k2 = some (.object o)
    · obtain ⟨o2, ho2⟩ := h2
      rw [storeObject_of_object (storeObject m k1 f1) k2 f2 o2 (hidx12.trans ho2),
        storeObject_of_object (storeObject m k2 f2) k1 f1 o1 (hidx21.trans ho1),
        storeObject_of_object m k1 f1 o1 ho1, storeObject_of_object m k2 f2 o2 ho2,
        mapStore_comm _ _ _ _ _ hne]
    · have hno2 : ∀ o, mapIndex m k2 ≠ some (.object o) := fun o ho => h2 ⟨o, ho⟩
      rw [storeObject_of_not_object (storeObject m k1 f1) k2 f2 (by rw [hidx12]; exact hno2),
        storeObject_of_not_object m k2 f2 hno2]
  · have hno1 : ∀ o, mapIndex m k1 ≠ some (.object o) := fun o ho => h1 ⟨o, ho⟩
    rw [storeObject_of_not_object m k1 f1 hno1,
      storeObject_of_not_object (storeObject m k2 f2) k1 f1 (by rw [hidx21]; exact hno1)]

/-- Deleting a key twice is deleting it once. -/
theorem mapDelete_mapDelete (m : JsonMap) (key : String) :
    mapDelete (mapDelete m key) key = mapDelete m key := by
  unfold mapDelete
  rw [List.filter_filter]
  simp

/-- Deletes of different keys commute. -/
theorem mapDelete_comm (m : JsonMap) (k1 k2 : String) :
    mapDelete (mapDelete m k1) k2 = mapDelete (mapDelete m k2) k1 := by
  unfold mapDelete
  rw [List.filter_filter, List.filter_filter]
  congr 1
  funext kv
  exact Bool.and_comm _ _

/-- The clean-up applied twice is the clean-up applied once. -/
theorem removeReadOnlyKeys_idem (m : JsonMap) :
    removeReadOnlyKeys (removeReadOnlyKeys m) = removeReadOnlyKeys m := by
  have hC : ∀ o : JsonMap,
      (fun o => mapDelete o "historyTimeslotInMinutes")
        ((fun o => mapDelete o "historyTimeslotInMinutes") o)
      = (fun o => mapDelete o "historyTimeslotInMinutes") o :=
    fun o => mapDelete_mapDelete o _
  have hL : ∀ o : JsonMap,
      (fun o => mapDelete (mapDelete o "CloudWatchLogGroup") "CloudWatchLogStream")
        ((fun o => mapDelete (mapDelete o "CloudWatchLogGroup") "CloudWatchLogStream") o)
      = (fun o => mapDelete (mapDelete o "CloudWatchLogGroup") "CloudWatchLogStream") o := by
    intro o
    simp only [mapDelete, List.filter_filter]
    congr 1
    funext kv
    cases (kv.1 != "CloudWatchLogGroup") <;> cases (kv.1 != "CloudWatchLogStream") <;> rfl
  rw [removeReadOnlyKeys_eq, removeReadOnlyKeys_eq]
  rw [storeObject_comm _ "Logging" "ControlTablesSettings" _ _ (by decide)]
  rw [storeObject_idem _ "ControlTablesSettings" _ hC]
  rw [storeObject_idem _ "Logging" _ hL]

/-- The JSON stand-ins decode what they encode. -/
theorem sampleMarshal_round_trip (m : Option JsonMap) (t : String)
    (h : sampleMarshal m = .ok t) : sampleUnmarshal t = .ok m := by
  unfold sampleMarshal at h
  split at h
  · cases h
    rfl
  · cases h
    rfl
  · split at h
    · rename_i hkey
      cases h
      subst hkey
      rfl
    · cases h
  · cases h

/-- Claim C29. dmsReplicationTaskRemoveReadOnlySettings is idempotent: with a
JSON codec that decodes what it encodes (`hround`), whenever the function
succeeds on `s` with output `t`, it succeeds on `t` and returns `t` again. -/
theorem dmsReplicationTaskRemoveReadOnlySettings_idempotent (lib : Lib)
    (hround : ∀ m t, lib.Marshal m = .ok t → lib.Unmarshal t = .ok m)
    (s t : String)
    (h : dmsReplicationTaskRemoveReadOnlySettings lib s = (some t, none)) :
    dmsReplicationTaskRemoveReadOnlySettings lib t = (some t, none) := by
  unfold dmsReplicationTaskRemoveReadOnlySettings at h
  split at h
  · cases h
  · rename_i settingsData hdec
    split at h
    · cases h
    · rename_i cleaned henc
      cases h
      have hdec2 := hround _ _ henc
      have hidem : (settingsData.map removeReadOnlyKeys).map removeReadOnlyKeys
          = settingsData.map removeReadOnlyKeys := by
        cases settingsData with
        | none => rfl
        | some m => simp [removeReadOnlyKeys_idem]
      unfold dmsReplicationTaskRemoveReadOnlySettings
      rw [hdec2]
      simp only [hidem, henc]

/-- C29 at a concrete input: `{"Logging":{"CloudWatchLogGroup":"g"}}` is cleaned
to `{"Logging":{}}`, and cleaning `{"Logging":{}}` returns it unchanged. -/
theorem dmsReplicationTaskRemoveReadOnlySettings_idempotent_witness :
    (∀ m t, jsonLib.Marshal m = .ok t → jsonLib.Unmarshal t = .ok m)
    ∧ dmsReplicationTaskRemoveReadOnlySettings jsonLib loggingSettingsText
        = (some emptyLoggingSettingsText, none)
    ∧ dmsReplicationTaskRemoveReadOnlySettings jsonLib emptyLoggingSettingsText
        = (some emptyLoggingSettingsText, none) :=
  ⟨sampleMarshal_round_trip, rfl,
    dmsReplicationTaskRemoveReadOnlySettings_idempotent jsonLib sampleMarshal_round_trip
      loggingSettingsText emptyLoggingSettingsText rfl⟩

/-! ### The instance data source read -/

/-- The identity is untouched by `d.Set`. -/
theorem InstanceData.Id_Set (d : InstanceData) (key : String) (v : AttrValue) :
    (d.Set key v).Id = d.Id := rfl

/-- Reading an attribute that was just set. -/
theorem InstanceData.Get_Set_self (d : InstanceData) (key : String) (v : AttrValue) :
    (d.Set key v).Get key = v := by
  simp [InstanceData.Get, InstanceData.Set, List.lookup_cons]

/-- Reading an attribute after another one was set. -/
theorem InstanceData.Get_Set_ne (d : InstanceData) (key k : String) (v : AttrValue)
    (h : k ≠ key) : (d.Set key v).Get k = d.Get k := by
  have hk : (k == key) = false := by simp [h]
  simp [InstanceData.Get, InstanceData.Set, List.lookup_cons, hk, lookup_filter_ne, h]

/-- The placement statements keep the identity. -/
theorem setPlacementAttributes_id (d d1 : InstanceData) (inst : Instance)
    (h : setPlacementAttributes d inst = .ok d1) : d1.Id = d.Id := by
  cases hp : inst.Placement with
  | none => simp [setPlacementAttributes, hp] at h
  | some placement =>
    simp only [setPlacementAttributes, hp] at h
    cases h
    split_ifs <;> rfl

/-- The iam_instance_profile statements keep the identity. -/
theorem setIamInstanceProfile_id (env : InstanceEnv) (d : InstanceData) (inst : Instance) :
    (setIamInstanceProfile env d inst).1.Id = d.Id := by
  unfold setIamInstanceProfile
  split
  · split
    · split <;> rfl
    · rfl
  · rfl

/-- The loop over the network interfaces keeps the identity. -/
theorem setNetworkInterfaces_id (env : InstanceEnv)
    (l : List (Option InstanceNetworkInterface)) :
    ∀ (d d1 : InstanceData) (e : Option GoError),
      setNetworkInterfaces env l d = .ok (d1, e) → d1.Id = d.Id := by
  induction l with
  | nil =>
    intro d d1 e h
    simp only [setNetworkInterfaces] at h
    cases h
    rfl
  | cons ni rest ih =>
    intro d d1 e h
    cases ni with
    | none => simp [setNetworkInterfaces] at h
    | some ni =>
      unfold setNetworkInterfaces at h
      split at h
      · cases h
      · split at h
        · split at h
          · cases h
          · split at h
            · cases h
              rfl
            · split at h
              · cases h
              · split at h
                · cases h
                  rfl
                · exact (ih _ _ _ h).trans rfl
        · exact ih _ _ _ h

/-- The two DescribeInstanceAttribute blocks: the identity is kept, the calls are
DescribeInstanceAttribute calls, and no error is returned exactly when both
operations returned none. -/
theorem readInstanceAttributes_result (env : InstanceEnv) (d d1 : InstanceData)
    (e : Option GoError) (calls : List Ec2Call)
    (h : readInstanceAttributes env d = .ok (d1, e, calls)) :
    d1.Id = d.Id
    ∧ (∀ c ∈ calls, ∃ input, c = Ec2Call.DescribeInstanceAttribute input)
    ∧ calls.length ≤ 2
    ∧ (∀ err, e = some err → ∃ input sdkErr,
        Ec2Call.DescribeInstanceAttribute input ∈ calls
        ∧ (env.DescribeInstanceAttribute input).2 = some sdkErr ∧ err = .sdk sdkErr)
    ∧ (e = none → ∀ c ∈ calls, ∀ input, c = Ec2Call.DescribeInstanceAttribute input →
        (env.DescribeInstanceAttribute input).2 = none) := by
  unfold readInstanceAttributes at h
  simp only at h
  split at h
  · rename_i x sdkErr hcall
    cases h
    refine ⟨rfl, ?_, by simp, ?_, by simp⟩
    · intro c hc
      simp only [List.mem_singleton] at hc
      exact ⟨_, hc⟩
    · intro err herr
      cases herr
      exact ⟨_, sdkErr, List.mem_cons_self _ _, by rw [hcall], rfl⟩
  · cases h
  · rename_i attr hcall
    split at h
    · cases h
    · rename_i termination hterm
      split at h
      · rename_i x sdkErr hcall2
        cases h
        refine ⟨rfl, ?_, by simp, ?_, by simp⟩
        · intro c hc
          simp only [List.mem_cons, List.mem_singleton, List.not_mem_nil, or_false] at hc
          rcases hc with hc | hc
          · exact ⟨_, hc⟩
          · exact ⟨_, hc⟩
        · intro err herr
          cases herr
          exact ⟨_, sdkErr, List.mem_cons_of_mem _ (List.mem_cons_self _ _),
            by rw [hcall2], rfl⟩
      · rename_i attr2 hcall2
        have hcalls : ∀ c ∈ [Ec2Call.DescribeInstanceAttribute
              { Attribute := some "disableApiTermination", InstanceId := some d.Id },
            Ec2Call.DescribeInstanceAttribute
              { Attribute := some InstanceAttributeNameUserData,
                InstanceId := some (d.Set "disable_api_termination"
                  (.ofBool termination.Value)).Id }],
            ∀ input, c = Ec2Call.DescribeInstanceAttribute input →
              (env.DescribeInstanceAttribute input).2 = none := by
          intro c hc input hci
          simp only [List.mem_cons, List.mem_singleton, List.not_mem_nil, or_false] at hc
          rcases hc with hc | hc
          · rw [hc] at hci
            cases hci
            rw [hcall]
          · rw [hc] at hci
            cases hci
            rw [hcall2]
        have hshape : ∀ c ∈ [Ec2Call.DescribeInstanceAttribute
              { Attribute := some "disableApiTermination", InstanceId := some d.Id },
            Ec2Call.DescribeInstanceAttribute
              { Attribute := some InstanceAttributeNameUserData,
                InstanceId := some (d.Set "disable_api_termination"
                  (.ofBool termination.Value)).Id }],
            ∃ input, c = Ec2Call.DescribeInstanceAttribute input := by
          intro c hc
          simp only [List.mem_cons, List.mem_singleton, List.not_mem_nil, or_false] at hc
          rcases hc with hc | hc
          · exact ⟨_, hc⟩
          · exact ⟨_, hc⟩
        split at h
        · cases h
          refine ⟨?_, hshape, by simp, by simp, fun _ => hcalls⟩
          split_ifs <;> rfl
        · cases h
          exact ⟨rfl, hshape, by simp, by simp, fun _ => hcalls⟩
/-- The credit specification lookup: it is made exactly for the T2 and T3
types, with the identity of the resource data; an error that isAWSErr recognises
as UnsupportedOperation is ignored, another error is returned wrapped. -/
theorem readCreditSpecifications_result (env : InstanceEnv) (d : InstanceData)
    (inst : Instance) :
    ((HasPrefix (StringValue inst.InstanceType) "t2"
        || HasPrefix (StringValue inst.InstanceType) "t3") = false →
      readCreditSpecifications env d inst = ([], none, []))
    ∧ ((HasPrefix (StringValue inst.InstanceType) "t2"
        || HasPrefix (StringValue inst.InstanceType) "t3") = true →
      (readCreditSpecifications env d inst).2.2 = [Ec2Call.getCreditSpecifications d.Id]
      ∧ (∀ specs, env.getCreditSpecifications d.Id = (specs, none) →
          readCreditSpecifications env d inst
            = (specs, none, [Ec2Call.getCreditSpecifications d.Id]))
      ∧ (∀ specs err, env.getCreditSpecifications d.Id = (specs, some err) →
          env.isAWSErr err "UnsupportedOperation" "" = true →
          readCreditSpecifications env d inst
            = (specs, none, [Ec2Call.getCreditSpecifications d.Id]))
      ∧ (∀ specs err, env.getCreditSpecifications d.Id = (specs, some err) →
          env.isAWSErr err "UnsupportedOperation" "" = false →
          readCreditSpecifications env d inst
            = ([], some (.errorf "error getting EC2 Instance (%s) Credit Specifications: %w"
                [d.Id] err), [Ec2Call.getCreditSpecifications d.Id]))) := by
  constructor
  · intro ht
    simp [readCreditSpecifications, ht]
  · intro ht
    refine ⟨?_, ?_, ?_, ?_⟩
    · unfold readCreditSpecifications
      rw [if_pos ht]
      split
      · split <;> rfl
      · rfl
    · intro specs h
      simp [readCreditSpecifications, ht, h]
    · intro specs err h hrec
      simp [readCreditSpecifications, ht, h, hrec]
    · intro specs err h hrec
      simp [readCreditSpecifications, ht, h, hrec]

/-- The paths of instanceDescriptionAttributes that return: a local failure
before any call, or the helper calls, the attribute calls and the credit
specification lookup in this order, each reached only when the one before it
returned no error. -/
theorem instanceDescriptionAttributes_trace (lib : Lib) (env : InstanceEnv)
    (d : InstanceData) (inst : Instance) (ignoreTagsConfig : KeyValueTags)
    (r : InstanceResult)
    (h : instanceDescriptionAttributes lib env d (some inst) ignoreTagsConfig = .ok r) :
    (r.calls = [] ∧ r.err ≠ none ∧ r.d.Id = StringValue inst.InstanceId) ∨
    ∃ dA dB eB, dA.Id = StringValue inst.InstanceId
      ∧ env.readSecurityGroups dA inst = (dB, eB)
      ∧ ((eB ≠ none ∧ r = InstanceResult.mk dB eB [Ec2Call.readSecurityGroups]) ∨
        (eB = none ∧ ∃ dC eC, env.readBlockDevices dB inst = (dC, eC)
          ∧ ((eC ≠ none ∧ r = InstanceResult.mk dC eC
                [Ec2Call.readSecurityGroups, Ec2Call.readBlockDevices]) ∨
            (eC = none ∧ ∃ dC1 dD eD attrCalls, dC1.Id = dC.Id
              ∧ readInstanceAttributes env dC1 = .ok (dD, eD, attrCalls)
              ∧ ((eD ≠ none ∧ r = InstanceResult.mk dD eD
                    ([Ec2Call.readSecurityGroups, Ec2Call.readBlockDevices] ++ attrCalls)) ∨
                (eD = none ∧ ∃ specs eS creditCalls,
                  readCreditSpecifications env dD inst = (specs, eS, creditCalls)
                  ∧ r.calls = [Ec2Call.readSecurityGroups, Ec2Call.readBlockDevices]
                      ++ attrCalls ++ creditCalls
                  ∧ r.d.Id = dD.Id
                  ∧ (eS ≠ none → r.err = eS)
                  ∧ (r.err = none →
                      eS = none ∧ r.d.Get "credit_specification" = .blocks specs))))))) := by
  unfold instanceDescriptionAttributes at h
  simp only at h
  split at h
  · cases h
  · rename_i state hst
    split at h
    · cases h
    · rename_i dP hP
      have hidP : dP.Id = StringValue inst.InstanceId :=
        (setPlacementAttributes_id _ _ _ hP).trans rfl
      split at h
      · rename_i dI err hI
        cases h
        refine Or.inl ⟨rfl, by simp, ?_⟩
        have hid := setIamInstanceProfile_id env
          ((((((((dP.Set "ami" (AttrValue.ofString inst.ImageId)).Set "instance_type"
            (AttrValue.ofString inst.InstanceType)).Set "key_name"
            (AttrValue.ofString inst.KeyName)).Set "public_dns"
            (AttrValue.ofString inst.PublicDnsName)).Set "public_ip"
            (AttrValue.ofString inst.PublicIpAddress)).Set "private_dns"
            (AttrValue.ofString inst.PrivateDnsName)).Set "private_ip"
            (AttrValue.ofString inst.PrivateIpAddress)).Set "outpost_arn"
            (AttrValue.ofString inst.OutpostArn)) inst
        rw [hI] at hid
        exact hid.trans hidP
      · rename_i dI hI
        have hidI : dI.Id = StringValue inst.InstanceId := by
          have hid := setIamInstanceProfile_id env
            ((((((((dP.Set "ami" (AttrValue.ofString inst.ImageId)).Set "instance_type"
              (AttrValue.ofString inst.InstanceType)).Set "key_name"
              (AttrValue.ofString inst.KeyName)).Set "public_dns"
              (AttrValue.ofString inst.PublicDnsName)).Set "public_ip"
              (AttrValue.ofString inst.PublicIpAddress)).Set "private_dns"
              (AttrValue.ofString inst.PrivateDnsName)).Set "private_ip"
              (AttrValue.ofString inst.PrivateIpAddress)).Set "outpost_arn"
              (AttrValue.ofString inst.OutpostArn)) inst
          rw [hI] at hid
          exact hid.trans hidP
        have hidN : ∀ (dN : InstanceData) (e : Option GoError),
            (if inst.NetworkInterfaces.length > 0 then
                setNetworkInterfaces env inst.NetworkInterfaces dI
              else
                Except.ok
                  ((dI.Set "subnet_id" (AttrValue.ofString inst.SubnetId)).Set
                    "network_interface_id" (AttrValue.str ""), none)) = .ok (dN, e) →
            dN.Id = StringValue inst.InstanceId := by
          intro dN e hN
          split_ifs at hN
          · exact (setNetworkInterfaces_id env _ _ _ _ hN).trans hidI
          · cases hN
            exact hidI
        have hidL : ∀ dN : InstanceData, dN.Id = StringValue inst.InstanceId →
            (match inst.Monitoring with
              | some monitoring =>
                (if (StringValue inst.SubnetId != "") = true then
                      (dN.Set "ebs_optimized" (AttrValue.ofBool inst.EbsOptimized)).Set
                        "source_dest_check" (AttrValue.ofBool inst.SourceDestCheck)
                    else dN.Set "ebs_optimized" (AttrValue.ofBool inst.EbsOptimized)).Set
                  "monitoring"
                  (AttrValue.bool
                    (StringValue monitoring.State == "enabled"
                      || StringValue monitoring.State == "pending"))
              | none =>
                if (StringValue inst.SubnetId != "") = true then
                  (dN.Set "ebs_optimized" (AttrValue.ofBool inst.EbsOptimized)).Set
                    "source_dest_check" (AttrValue.ofBool inst.SourceDestCheck)
                else dN.Set "ebs_optimized" (AttrValue.ofBool inst.EbsOptimized)).Id
              = StringValue inst.InstanceId := by
          intro dN hdN
          cases inst.Monitoring with
          | none =>
            simp only
            split_ifs <;> exact hdN
          | some monitoring =>
            simp only
            split_ifs <;> exact hdN
        split at h
        · cases h
        · rename_i dN err hN
          cases h
          exact Or.inl ⟨rfl, by simp, hidN _ _ hN⟩
        · rename_i dN hN
          have hidN1 := hidN _ _ hN
          split at h
          · cases h
            exact Or.inl ⟨rfl, by simp, hidL dN hidN1⟩
          · split at h
            · rename_i dB err hsg
              cases h
              refine Or.inr ⟨_, _, _, ?_, hsg, Or.inl ⟨by simp, rfl⟩⟩
              exact hidL dN hidN1
            · rename_i dB hsg
              refine Or.inr ⟨_, _, _, ?_, hsg, Or.inr ⟨rfl, ?_⟩⟩
              · exact hidL dN hidN1
              split at h
              · rename_i dC err hbd
                cases h
                exact ⟨_, _, hbd, Or.inl ⟨by simp, rfl⟩⟩
              · rename_i dC hbd
                refine ⟨_, _, hbd, Or.inr ⟨rfl, ?_⟩⟩
                have hidC : (if (!dC.GetOk "ephemeral_block_device") = true then
                      dC.Set "ephemeral_block_device" (AttrValue.blocks [])
                    else dC).Id = dC.Id := by
                  split_ifs <;> rfl
                split at h
                · cases h
                · rename_i dD err attrCalls hattr
                  cases h
                  exact ⟨_, _, _, _, hidC, hattr, Or.inl ⟨by simp, rfl⟩⟩
                · rename_i dD attrCalls hattr
                  refine ⟨_, _, _, _, hidC, hattr, Or.inr ⟨rfl, ?_⟩⟩
                  split at h
                  · rename_i specs err creditCalls hcredit
                    cases h
                    exact ⟨_, _, _, hcredit, rfl, rfl, fun _ => rfl, fun hn => by simp at hn⟩
                  · rename_i specs creditCalls hcredit
                    refine ⟨_, _, _, hcredit, ?_⟩
                    split at h
                    · cases h
                      exact ⟨rfl, rfl, fun hne => absurd rfl hne, fun hn => by simp at hn⟩
                    · split at h
                      · cases h
                        exact ⟨rfl, rfl, fun hne => absurd rfl hne, fun hn => by simp at hn⟩
                      · split at h
                        · cases h
                          exact ⟨rfl, rfl, fun hne => absurd rfl hne, fun hn => by simp at hn⟩
                        · cases h
                          refine ⟨rfl, rfl, fun hne => absurd rfl hne, fun _ => ⟨rfl, ?_⟩⟩
                          rw [InstanceData.Get_Set_ne _ _ _ _ (by decide),
                            InstanceData.Get_Set_ne _ _ _ _ (by decide),
                            InstanceData.Get_Set_self]
/-- The shape of a credit specification lookup: no call for other types than T2
and T3, otherwise one call with the identity of the resource data; no error is
returned when the lookup returned none or an error that isAWSErr recognises as
UnsupportedOperation, and every other error is returned wrapped. -/
theorem readCreditSpecifications_cases (env : InstanceEnv) (d : InstanceData)
    (inst : Instance) (specs : List (List (String × String))) (e : Option GoError)
    (creditCalls : List Ec2Call)
    (h : readCreditSpecifications env d inst = (specs, e, creditCalls)) :
    ((HasPrefix (StringValue inst.InstanceType) "t2"
        || HasPrefix (StringValue inst.InstanceType) "t3") = false
      ∧ specs = [] ∧ e = none ∧ creditCalls = [])
    ∨ ((HasPrefix (StringValue inst.InstanceType) "t2"
        || HasPrefix (StringValue inst.InstanceType) "t3") = true
      ∧ creditCalls = [Ec2Call.getCreditSpecifications d.Id]
      ∧ ((e = none ∧ ((env.getCreditSpecifications d.Id).2 = none
            ∨ ∃ err, (env.getCreditSpecifications d.Id).2 = some err
                ∧ env.isAWSErr err "UnsupportedOperation" "" = true))
        ∨ (∃ err, (env.getCreditSpecifications d.Id).2 = some err
            ∧ env.isAWSErr err "UnsupportedOperation" "" = false
            ∧ e = some (.errorf "error getting EC2 Instance (%s) Credit Specifications: %w"
                [d.Id] err)))) := by
  unfold readCreditSpecifications at h
  split_ifs at h with ht
  · right
    refine ⟨ht, ?_⟩
    split at h
    · rename_i x err hcall
      split_ifs at h with hrec
      · cases h
        refine ⟨rfl, Or.inr ⟨err, by rw [hcall], ?_, rfl⟩⟩
        simpa using hrec
      · cases h
        refine ⟨rfl, Or.inl ⟨rfl, Or.inr ⟨err, by rw [hcall], ?_⟩⟩⟩
        simpa using hrec
    · rename_i x hcall
      cases h
      exact ⟨rfl, Or.inl ⟨rfl, Or.inl (by rw [hcall])⟩⟩
  · left
    cases h
    refine ⟨?_, rfl, rfl, rfl⟩
    simpa using ht

/-- The calls of instanceDescriptionAttributes on every returning path: the two
helper calls, then at most two DescribeInstanceAttribute calls, then at most one
credit specification lookup, which is made only for a T2 or T3 type. -/
theorem instanceDescriptionAttributes_calls (lib : Lib) (env : InstanceEnv)
    (d : InstanceData) (inst : Instance) (ignoreTagsConfig : KeyValueTags)
    (r : InstanceResult)
    (h : instanceDescriptionAttributes lib env d (some inst) ignoreTagsConfig = .ok r) :
    ∃ helperCalls attrCalls creditCalls,
      r.calls = helperCalls ++ attrCalls ++ creditCalls
      ∧ (helperCalls = [] ∨ helperCalls = [Ec2Call.readSecurityGroups]
          ∨ helperCalls = [Ec2Call.readSecurityGroups, Ec2Call.readBlockDevices])
      ∧ (∀ c ∈ attrCalls, ∃ input, c = Ec2Call.DescribeInstanceAttribute input)
      ∧ attrCalls.length ≤ 2
      ∧ (creditCalls = [] ∨
          ((HasPrefix (StringValue inst.InstanceType) "t2"
              || HasPrefix (StringValue inst.InstanceType) "t3") = true
            ∧ ∃ id, creditCalls = [Ec2Call.getCreditSpecifications id])) := by
  rcases instanceDescriptionAttributes_trace lib env d inst ignoreTagsConfig r h with
    ⟨hc, _, _⟩ | ⟨dA, dB, eB, _, _, hB⟩
  · exact ⟨[], [], [], by simp [hc], Or.inl rfl, by simp, by simp, Or.inl rfl⟩
  · rcases hB with ⟨_, hr⟩ | ⟨_, dC, eC, _, hC⟩
    · exact ⟨[Ec2Call.readSecurityGroups], [], [], by simp [hr], Or.inr (Or.inl rfl),
        by simp, by simp, Or.inl rfl⟩
    · rcases hC with ⟨_, hr⟩ | ⟨_, dC1, dD, eD, attrCalls, _, hattr, hD⟩
      · exact ⟨[Ec2Call.readSecurityGroups, Ec2Call.readBlockDevices], [], [],
          by simp [hr], Or.inr (Or.inr rfl), by simp, by simp, Or.inl rfl⟩
      · have hres := readInstanceAttributes_result env dC1 dD eD attrCalls hattr
        rcases hD with ⟨_, hr⟩ | ⟨_, specs, eS, creditCalls, hcredit, hcalls, _, _, _⟩
        · exact ⟨[Ec2Call.readSecurityGroups, Ec2Call.readBlockDevices], attrCalls, [],
            by simp [hr], Or.inr (Or.inr rfl), hres.2.1, hres.2.2.1, Or.inl rfl⟩
        · refine ⟨[Ec2Call.readSecurityGroups, Ec2Call.readBlockDevices], attrCalls,
            creditCalls, hcalls, Or.inr (Or.inr rfl), hres.2.1, hres.2.2.1, ?_⟩
          rcases readCreditSpecifications_cases env dD inst specs eS creditCalls hcredit with
            ⟨_, _, _, hcc⟩ | ⟨ht, hcc, _⟩
          · exact Or.inl hcc
          · exact Or.inr ⟨ht, _, hcc⟩

/-- The identity after instanceDescriptionAttributes is the InstanceId of the
instance, when the two helpers leave the identity alone. -/
theorem instanceDescriptionAttributes_id (lib : Lib) (env : InstanceEnv)
    (d : InstanceData) (inst : Instance) (ignoreTagsConfig : KeyValueTags)
    (r : InstanceResult)
    (hsg : ∀ d1 i, (env.readSecurityGroups d1 i).1.Id = d1.Id)
    (hbd : ∀ d1 i, (env.readBlockDevices d1 i).1.Id = d1.Id)
    (h : instanceDescriptionAttributes lib env d (some inst) ignoreTagsConfig = .ok r) :
    r.d.Id = StringValue inst.InstanceId := by
  rcases instanceDescriptionAttributes_trace lib env d inst ignoreTagsConfig r h with
    ⟨_, _, hid⟩ | ⟨dA, dB, eB, hidA, hcallB, hB⟩
  · exact hid
  · have hidB : dB.Id = StringValue inst.InstanceId := by
      have := hsg dA inst
      rw [hcallB] at this
      exact this.trans hidA
    rcases hB with ⟨_, hr⟩ | ⟨_, dC, eC, hcallC, hC⟩
    · rw [hr]
      exact hidB
    · have hidC : dC.Id = StringValue inst.InstanceId := by
        have := hbd dB inst
        rw [hcallC] at this
        exact this.trans hidB
      rcases hC with ⟨_, hr⟩ | ⟨_, dC1, dD, eD, attrCalls, hid1, hattr, hD⟩
      · rw [hr]
        exact hidC
      · have hidD : dD.Id = StringValue inst.InstanceId :=
          ((readInstanceAttributes_result env dC1 dD eD attrCalls hattr).1.trans hid1).trans hidC
        rcases hD with ⟨_, hr⟩ | ⟨_, specs, eS, creditCalls, _, _, hid, _, _⟩
        · rw [hr]
          exact hidD
        · exact hid.trans hidD
/-- The inner filter loop on a list without nil pointers appends the instances
that pass the condition, in order. -/
theorem appendLiveInstances_map_some (l : List Instance) :
    ∀ acc, appendLiveInstances (l.map some) acc = .ok (acc ++ l.filter isLive) := by
  induction l with
  | nil =>
    intro acc
    simp [appendLiveInstances]
  | cons inst rest ih =>
    intro acc
    by_cases hl : isLive inst = true
    · simp [appendLiveInstances, hl, ih]
    · simp [appendLiveInstances, hl, ih]

/-- The outer filter loop on a response without nil pointers appends the
instances of all reservations that pass the condition, in order. -/
theorem filterReservations_responseOf (rs : List (List Instance)) :
    ∀ acc, filterReservations (responseOf rs).Reservations acc
      = .ok (acc ++ rs.flatten.filter isLive) := by
  induction rs with
  | nil =>
    intro acc
    simp [responseOf, filterReservations]
  | cons l rest ih =>
    intro acc
    have ih1 := ih (acc ++ l.filter isLive)
    simp only [responseOf] at ih1
    simp [responseOf, filterReservations, appendLiveInstances_map_some, ih1]

/-- Every instance that the inner filter loop appends passes the condition. -/
theorem appendLiveInstances_live (l : List (Option Instance)) :
    ∀ acc out, appendLiveInstances l acc = .ok out →
      (∀ i ∈ acc, isLive i = true) → ∀ i ∈ out, isLive i = true := by
  induction l with
  | nil =>
    intro acc out h hacc
    simp only [appendLiveInstances] at h
    cases h
    exact hacc
  | cons x rest ih =>
    intro acc out h hacc
    cases x with
    | none => simp [appendLiveInstances] at h
    | some inst =>
      simp only [appendLiveInstances] at h
      split_ifs at h with hl
      · refine ih _ _ h ?_
        intro i hi
        rcases List.mem_append.mp hi with hi | hi
        · exact hacc i hi
        · simp only [List.mem_singleton] at hi
          rw [hi]
          exact hl
      · exact ih _ _ h hacc

/-- Every instance that the outer filter loop collects passes the condition. -/
theorem filterReservations_live (l : List (Option Reservation)) :
    ∀ acc out, filterReservations l acc = .ok out →
      (∀ i ∈ acc, isLive i = true) → ∀ i ∈ out, isLive i = true := by
  induction l with
  | nil =>
    intro acc out h hacc
    simp only [filterReservations] at h
    cases h
    exact hacc
  | cons x rest ih =>
    intro acc out h hacc
    cases x with
    | none => simp [filterReservations] at h
    | some res =>
      simp only [filterReservations] at h
      split at h
      · cases h
      · rename_i mid hmid
        exact ih _ _ h (appendLiveInstances_live _ _ _ hmid hacc)

/-- The condition of the filter loop in words: the State pointer is not nil and
the state name is not "terminated". -/
theorem isLive_iff (inst : Instance) :
    isLive inst = true ↔
      ∃ state, inst.State = some state ∧ StringValue state.Name ≠ "terminated" := by
  unfold isLive
  cases inst.State with
  | none => simp
  | some state => simp [InstanceStateNameTerminated]

/-- The selected instance passes the condition of the filter loop. -/
theorem selectInstance_live (resp : DescribeInstancesOutput) (inst : Instance)
    (h : selectInstance resp = .ok (.ok inst)) : isLive inst = true := by
  unfold selectInstance at h
  split_ifs at h with hlen
  · cases h
  · split at h
    · cases h
    · rename_i filtered hfiltered
      split_ifs at h with h1 h2
      · cases h
      · cases h
      · split at h
        · rename_i first rest
          cases h
          exact filterReservations_live _ _ _ hfiltered (by simp) _ (List.mem_cons_self _ _)
        · cases h

/-- The selection on a response without nil pointers, by the instances that
pass the condition of the filter loop. -/
theorem selectInstance_responseOf (rs : List (List Instance)) :
    selectInstance (responseOf rs)
      = .ok (match rs.flatten.filter isLive with
          | [] => .error noResultsError
          | [inst] => .ok inst
          | _ :: _ :: _ => .error moreThanOneError) := by
  unfold selectInstance
  by_cases hrs : rs = []
  · subst hrs
    simp [responseOf]
  · have hlen : ((responseOf rs).Reservations.length == 0) = false := by
      cases rs with
      | nil => exact absurd rfl hrs
      | cons l rest => simp [responseOf]
    rw [if_neg (by simp [hlen])]
    rw [filterReservations_responseOf rs []]
    simp only [List.nil_append]
    cases hlive : rs.flatten.filter isLive with
    | nil => simp
    | cons first rest =>
      cases rest with
      | nil => simp
      | cons second rest => simp

/-- The returning paths of dataSourceAwsInstanceRead. -/
theorem dataSourceAwsInstanceRead_cases (lib : Lib) (client : InstanceClient)
    (env : InstanceReadEnv) (d : InstanceData) (r : InstanceResult)
    (h : dataSourceAwsInstanceRead lib client env d = .ok r) :
    ((!d.GetOk "filter" && !d.GetOk "instance_id" && !d.GetOk "instance_tags") = true
      ∧ r = InstanceResult.mk d
          (some (.message "One of filters, instance_tags, or instance_id must be assigned")) [])
    ∨ ((!d.GetOk "filter" && !d.GetOk "instance_id" && !d.GetOk "instance_tags") = false
      ∧ ((∃ x e, env.DescribeInstances (searchParams env d) = (x, some e)
            ∧ r = InstanceResult.mk d (some (.sdk e))
                [Ec2Call.DescribeInstances (searchParams env d)])
        ∨ (∃ resp err, env.DescribeInstances (searchParams env d) = (some resp, none)
            ∧ selectInstance resp = .ok (.error err)
            ∧ r = InstanceResult.mk d (some err)
                [Ec2Call.DescribeInstances (searchParams env d)])
        ∨ (∃ resp inst r1, env.DescribeInstances (searchParams env d) = (some resp, none)
            ∧ selectInstance resp = .ok (.ok inst)
            ∧ describeSelected lib client env d inst = .ok r1
            ∧ r = InstanceResult.mk r1.d r1.err
                (Ec2Call.DescribeInstances (searchParams env d) :: r1.calls)))) := by
  unfold dataSourceAwsInstanceRead at h
  split_ifs at h with hguard
  · cases h
    exact Or.inl ⟨hguard, rfl⟩
  · refine Or.inr ⟨by simpa using hguard, ?_⟩
    simp only at h
    split at h
    · rename_i x e hcall
      cases h
      exact Or.inl ⟨x, e, hcall, rfl⟩
    · cases h
    · rename_i resp hcall
      split at h
      · cases h
      · rename_i err hsel
        cases h
        exact Or.inr (Or.inl ⟨resp, err, hcall, hsel, rfl⟩)
      · rename_i inst hsel
        split at h
        · cases h
        · rename_i r1 hr1
          cases h
          exact Or.inr (Or.inr ⟨resp, inst, r1, hcall, hsel, hr1, rfl⟩)

/-- The returning paths of the statements after the selection: the error of
instanceDescriptionAttributes, the error of the password data lookup, or the
ARN set on the data that instanceDescriptionAttributes and the lookup left. -/
theorem describeSelected_cases (lib : Lib) (client : InstanceClient)
    (env : InstanceReadEnv) (d : InstanceData) (inst : Instance) (r : InstanceResult)
    (h : describeSelected lib client env d inst = .ok r) :
    ∃ r0, instanceDescriptionAttributes lib env.attributes d (some inst)
        client.IgnoreTagsConfig = .ok r0
      ∧ ((∃ err, r0.err = some err ∧ r = InstanceResult.mk r0.d (some err) r0.calls)
        ∨ (r0.err = none ∧ r0.d.GetBool "get_password_data" = true
            ∧ ∃ x err,
              env.getAwsEc2InstancePasswordData (StringValue inst.InstanceId) = (x, some err)
              ∧ r = InstanceResult.mk r0.d (some err)
                  (r0.calls ++ [Ec2Call.getAwsEc2InstancePasswordData
                    (StringValue inst.InstanceId)]))
        ∨ (r0.err = none ∧ ∃ d1 passwordCalls,
            ((r0.d.GetBool "get_password_data" = false ∧ d1 = r0.d ∧ passwordCalls = [])
              ∨ (r0.d.GetBool "get_password_data" = true
                ∧ ∃ passwordData,
                  env.getAwsEc2InstancePasswordData (StringValue inst.InstanceId)
                    = (passwordData, none)
                  ∧ d1 = r0.d.Set "password_data" (.str passwordData)
                  ∧ passwordCalls = [Ec2Call.getAwsEc2InstancePasswordData
                      (StringValue inst.InstanceId)]))
            ∧ r = InstanceResult.mk
                (d1.Set "arn" (.str (ARN.String
                  (ARN.mk client.partition Ec2ServiceName client.region client.accountid
                    ("instance/" ++ d1.Id)))))
                none (r0.calls ++ passwordCalls))) := by
  unfold describeSelected at h
  split at h
  · cases h
  · rename_i r0 hr0
    refine ⟨r0, hr0, ?_⟩
    split at h
    · rename_i err herr
      cases h
      exact Or.inl ⟨err, herr, rfl⟩
    · rename_i herr
      simp only at h
      by_cases hget : r0.d.GetBool "get_password_data" = true
      · rw [if_pos hget] at h
        cases hpw : env.getAwsEc2InstancePasswordData (StringValue inst.InstanceId) with
        | mk passwordData pwErr =>
          cases pwErr with
          | some err =>
            simp only [hpw] at h
            cases h
            exact Or.inr (Or.inl ⟨herr, hget, passwordData, err, rfl, rfl⟩)
          | none =>
            simp only [hpw] at h
            cases h
            exact Or.inr (Or.inr ⟨herr, _, _, Or.inr ⟨hget, passwordData, rfl, rfl, rfl⟩, rfl⟩)
      · rw [if_neg hget] at h
        simp only at h
        cases h
        exact Or.inr (Or.inr ⟨herr, _, _, Or.inl ⟨by simpa using hget, rfl, rfl⟩, rfl⟩)

/-- A fault of instanceDescriptionAttributes on a non-nil instance is the nil
State, or a fault of the placement statements, of the loop over the network
interfaces, or of the DescribeInstanceAttribute blocks. -/
theorem instanceDescriptionAttributes_fault (lib : Lib) (env : InstanceEnv)
    (d : InstanceData) (inst : Instance) (ignoreTagsConfig : KeyValueTags) (p : Panic)
    (h : instanceDescriptionAttributes lib env d (some inst) ignoreTagsConfig = .error p) :
    inst.State = none
    ∨ (∃ d1, setPlacementAttributes d1 inst = .error p)
    ∨ (∃ d1, setNetworkInterfaces env inst.NetworkInterfaces d1 = .error p)
    ∨ (∃ d1, readInstanceAttributes env d1 = .error p) := by
  unfold instanceDescriptionAttributes at h
  simp only at h
  split at h
  · rename_i hst
    exact Or.inl hst
  · split at h
    · rename_i p1 hP
      cases h
      exact Or.inr (Or.inl ⟨_, hP⟩)
    · split at h
      · cases h
      · split at h
        · rename_i p1 hN
          cases h
          split_ifs at hN
          exact Or.inr (Or.inr (Or.inl ⟨_, hN⟩))
        · cases h
        · split at h
          · cases h
          · split at h
            · cases h
            · split at h
              · cases h
              · split at h
                · rename_i p1 hattr
                  cases h
                  exact Or.inr (Or.inr (Or.inr ⟨_, hattr⟩))
                · cases h
                · split at h
                  · cases h
                  · split at h
                    · cases h
                    · split at h
                      · cases h
                      · split at h
                        · cases h
                        · cases h

/-- Claim C21. With one of the three search keys set and a DescribeInstances
response without nil pointers, let the live instances be those of all
reservations whose State is not nil and not named "terminated".
dataSourceAwsInstanceRead selects an instance exactly when there is one live
instance, and then goes on with it; with no live instance (also with no
reservation at all) it returns the "no results" error, with two or more the "more
than one result" error, and in both cases the resource data, hence the id, is
left as it was. A read that returns no error has selected the one live
instance. -/
theorem dataSourceAwsInstanceRead_selection (lib : Lib) (client : InstanceClient)
    (env : InstanceReadEnv) (d : InstanceData) (rs : List (List Instance))
    (hset : d.GetOk "filter" = true ∨ d.GetOk "instance_id" = true
      ∨ d.GetOk "instance_tags" = true)
    (hresp : env.DescribeInstances (searchParams env d) = (some (responseOf rs), none)) :
    (∀ inst, isLive inst = true ↔
        ∃ state, inst.State = some state ∧ StringValue state.Name ≠ "terminated")
    ∧ (∀ inst, selectInstance (responseOf rs) = .ok (.ok inst) ↔
        rs.flatten.filter isLive = [inst])
    ∧ (∀ inst, rs.flatten.filter isLive = [inst] →
        dataSourceAwsInstanceRead lib client env d
          = (match describeSelected lib client env d inst with
              | .error p => .error p
              | .ok r => .ok (InstanceResult.mk r.d r.err
                  (Ec2Call.DescribeInstances (searchParams env d) :: r.calls))))
    ∧ (rs.flatten.filter isLive = [] →
        dataSourceAwsInstanceRead lib client env d
          = .ok (InstanceResult.mk d (some noResultsError)
              [Ec2Call.DescribeInstances (searchParams env d)]))
    ∧ (2 ≤ (rs.flatten.filter isLive).length →
        dataSourceAwsInstanceRead lib client env d
          = .ok (InstanceResult.mk d (some moreThanOneError)
              [Ec2Call.DescribeInstances (searchParams env d)]))
    ∧ (∀ r, dataSourceAwsInstanceRead lib client env d = .ok r → r.err = none →
        ∃ inst, rs.flatten.filter isLive = [inst]) := by
  have hguard : (!d.GetOk "filter" && !d.GetOk "instance_id" && !d.GetOk "instance_tags")
      = false := by
    rcases hset with h1 | h1 | h1 <;> simp [h1]
  have hsel := selectInstance_responseOf rs
  have hread : ∀ x, selectInstance (responseOf rs) = .ok x →
      dataSourceAwsInstanceRead lib client env d
        = (match x with
            | .error err => .ok (InstanceResult.mk d (some err)
                [Ec2Call.DescribeInstances (searchParams env d)])
            | .ok inst =>
              match describeSelected lib client env d inst with
              | .error p => .error p
              | .ok r => .ok (InstanceResult.mk r.d r.err
                  (Ec2Call.DescribeInstances (searchParams env d) :: r.calls))) := by
    intro x hx
    unfold dataSourceAwsInstanceRead
    rw [if_neg (by simp [hguard])]
    simp only [hresp, hx]
    cases x <;> rfl
  have hnone : rs.flatten.filter isLive = [] →
      dataSourceAwsInstanceRead lib client env d
        = .ok (InstanceResult.mk d (some noResultsError)
            [Ec2Call.DescribeInstances (searchParams env d)]) := by
    intro hlive
    rw [hlive] at hsel
    exact hread _ hsel
  have hmany : 2 ≤ (rs.flatten.filter isLive).length →
      dataSourceAwsInstanceRead lib client env d
        = .ok (InstanceResult.mk d (some moreThanOneError)
            [Ec2Call.DescribeInstances (searchParams env d)]) := by
    intro hlive
    cases hl : rs.flatten.filter isLive with
    | nil => simp [hl] at hlive
    | cons first rest =>
      cases rest with
      | nil => simp [hl] at hlive
      | cons second rest =>
        rw [hl] at hsel
        exact hread _ hsel
  refine ⟨isLive_iff, ?_, ?_, hnone, hmany, ?_⟩
  · intro inst
    rw [hsel]
    cases hl : rs.flatten.filter isLive with
    | nil => simp
    | cons first rest =>
      cases rest with
      | nil => simp
      | cons second rest => simp
  · intro inst hlive
    rw [hlive] at hsel
    exact hread _ hsel
  · intro r hr herr
    cases hl : rs.flatten.filter isLive with
    | nil =>
      rw [hnone hl] at hr
      cases hr
      cases herr
    | cons first rest =>
      cases rest with
      | nil => exact ⟨first, rfl⟩
      | cons second rest =>
        rw [hmany (by simp [hl])] at hr
        cases hr
        cases herr

/-- C21 at a concrete input: of a terminated and a running instance "i-1" in the
first of two reservations the running one is selected. -/
theorem dataSourceAwsInstanceRead_selection_witness :
    (instanceReadEnv plainInstanceEnv
        [[instanceInState "terminated", instanceInState "running"], []]).DescribeInstances
      (searchParams (instanceReadEnv plainInstanceEnv
        [[instanceInState "terminated", instanceInState "running"], []]) instanceIdData)
      = (some (responseOf [[instanceInState "terminated", instanceInState "running"], []]),
          none)
    ∧ selectInstance
        (responseOf [[instanceInState "terminated", instanceInState "running"], []])
      = .ok (.ok (instanceInState "running")) :=
  ⟨rfl, ((dataSourceAwsInstanceRead_selection stubLib regionClient
    (instanceReadEnv plainInstanceEnv
      [[instanceInState "terminated", instanceInState "running"], []])
    instanceIdData [[instanceInState "terminated", instanceInState "running"], []]
    (Or.inr (Or.inl (by decide))) rfl).2.1 (instanceInState "running")).mpr (by decide)⟩

/-- Claim C22. dataSourceAwsInstanceRead with none of filter, instance_id and
instance_tags set returns the error "One of filters, instance_tags, or instance_id
must be assigned" without any call on the connection and without touching the
resource data. With at least one of them set, every returning path has issued the
DescribeInstances query first, with the search parameters built from the keys
that are set. -/
theorem dataSourceAwsInstanceRead_requires_search_key (lib : Lib) (client : InstanceClient)
    (env : InstanceReadEnv) (d : InstanceData) :
    ((d.GetOk "filter" = false ∧ d.GetOk "instance_id" = false
        ∧ d.GetOk "instance_tags" = false) →
      dataSourceAwsInstanceRead lib client env d
        = .ok (InstanceResult.mk d
            (some (.message "One of filters, instance_tags, or instance_id must be assigned"))
            []))
    ∧ ((d.GetOk "filter" = true ∨ d.GetOk "instance_id" = true
        ∨ d.GetOk "instance_tags" = true) →
      ∀ r, dataSourceAwsInstanceRead lib client env d = .ok r →
        ∃ rest, r.calls = Ec2Call.DescribeInstances (searchParams env d) :: rest)
    ∧ (searchParams env d).InstanceIds
        = (if d.GetOk "instance_id" then [some (d.GetString "instance_id")] else [])
    ∧ (searchParams env d).Filters
        = (if d.GetOk "filter" then env.buildAwsDataSourceFilters (d.Get "filter") else [])
          ++ (if d.GetOk "instance_tags" then env.ec2TagFiltersFromMap (d.Get "instance_tags")
              else []) := by
  refine ⟨?_, ?_, ?_, ?_⟩
  · rintro ⟨h1, h2, h3⟩
    simp [dataSourceAwsInstanceRead, h1, h2, h3]
  · intro hset r hr
    have hguard : (!d.GetOk "filter" && !d.GetOk "instance_id" && !d.GetOk "instance_tags")
        = false := by
      rcases hset with h1 | h1 | h1 <;> simp [h1]
    rcases dataSourceAwsInstanceRead_cases lib client env d r hr with
      ⟨hg, _⟩ | ⟨_, hcases⟩
    · rw [hguard] at hg
      cases hg
    · rcases hcases with ⟨_, _, _, hr1⟩ | ⟨_, _, _, _, hr1⟩ | ⟨_, _, r1, _, _, _, hr1⟩
      · exact ⟨[], by rw [hr1]⟩
      · exact ⟨[], by rw [hr1]⟩
      · exact ⟨r1.calls, by rw [hr1]⟩
  · unfold searchParams
    simp only
    split_ifs <;> rfl
  · unfold searchParams
    simp only
    split_ifs <;> simp

/-- C22 at a concrete input: a configuration without filter, instance_tags and
instance_id gets the error and an empty call log. -/
theorem dataSourceAwsInstanceRead_requires_search_key_witness :
    dataSourceAwsInstanceRead stubLib regionClient
        (instanceReadEnv plainInstanceEnv [[instanceInState "running"]]) emptyInstanceData
      = .ok (InstanceResult.mk emptyInstanceData
          (some (.message "One of filters, instance_tags, or instance_id must be assigned"))
          []) :=
  (dataSourceAwsInstanceRead_requires_search_key stubLib regionClient
    (instanceReadEnv plainInstanceEnv [[instanceInState "running"]]) emptyInstanceData).1
    ⟨by decide, by decide, by decide⟩

/-- Claim C27. An instance that dataSourceAwsInstanceRead selects, which is the
one it passes to instanceDescriptionAttributes, has a State that is not nil and
not named "terminated"; so when instanceDescriptionAttributes faults for it, the
fault is not the access `instance.State.Name` but one of the placement
statements, of the loop over the network interfaces or of the
DescribeInstanceAttribute blocks. -/
theorem dataSourceAwsInstanceRead_passes_live_instance (lib : Lib)
    (client : InstanceClient) (env : InstanceReadEnv) (d : InstanceData)
    (resp : DescribeInstancesOutput) (inst : Instance)
    (hsel : selectInstance resp = .ok (.ok inst)) :
    (∃ state, inst.State = some state ∧ StringValue state.Name ≠ "terminated")
    ∧ (∀ (d1 : InstanceData) (p : Panic),
        instanceDescriptionAttributes lib env.attributes d1 (some inst)
            client.IgnoreTagsConfig = .error p →
          (∃ d2, setPlacementAttributes d2 inst = .error p)
          ∨ (∃ d2, setNetworkInterfaces env.attributes inst.NetworkInterfaces d2 = .error p)
          ∨ (∃ d2, readInstanceAttributes env.attributes d2 = .error p))
    ∧ ((d.GetOk "filter" = true ∨ d.GetOk "instance_id" = true
          ∨ d.GetOk "instance_tags" = true) →
        env.DescribeInstances (searchParams env d) = (some resp, none) →
        dataSourceAwsInstanceRead lib client env d
          = (match describeSelected lib client env d inst with
              | .error p => .error p
              | .ok r => .ok (InstanceResult.mk r.d r.err
                  (Ec2Call.DescribeInstances (searchParams env d) :: r.calls)))
        ∧ ∀ r, describeSelected lib client env d inst = .ok r →
            ∃ r0, instanceDescriptionAttributes lib env.attributes d (some inst)
              client.IgnoreTagsConfig = .ok r0) := by
  have hlive := (isLive_iff inst).mp (selectInstance_live resp inst hsel)
  refine ⟨hlive, ?_, ?_⟩
  · intro d1 p hp
    rcases instanceDescriptionAttributes_fault lib env.attributes d1 inst
        client.IgnoreTagsConfig p hp with hst | hrest
    · obtain ⟨state, hstate, _⟩ := hlive
      rw [hstate] at hst
      cases hst
    · exact hrest
  · intro hset hresp
    have hguard : (!d.GetOk "filter" && !d.GetOk "instance_id" && !d.GetOk "instance_tags")
        = false := by
      rcases hset with h1 | h1 | h1 <;> simp [h1]
    unfold dataSourceAwsInstanceRead
    rw [if_neg (by simp [hguard])]
    refine ⟨?_, ?_⟩
    · simp only [hresp, hsel]
    · intro r hr
      obtain ⟨r0, hr0, _⟩ := describeSelected_cases lib client env d inst r hr
      exact ⟨r0, hr0⟩

/-- C27 at a concrete input: the running instance "i-1" is selected. -/
theorem dataSourceAwsInstanceRead_passes_live_instance_witness :
    selectInstance (responseOf [[instanceInState "running"]])
      = .ok (.ok (instanceInState "running"))
    ∧ ∃ state, (instanceInState "running").State = some state
        ∧ StringValue state.Name ≠ "terminated" :=
  ⟨rfl, (dataSourceAwsInstanceRead_passes_live_instance stubLib regionClient
    (instanceReadEnv plainInstanceEnv [[instanceInState "running"]]) instanceIdData
    (responseOf [[instanceInState "running"]]) (instanceInState "running") rfl).1⟩

/-- The text of the ARN of an instance, part by part. -/
theorem ARN_String_instance (partition region accountid id : String) :
    ARN.String (ARN.mk partition Ec2ServiceName region accountid ("instance/" ++ id))
      = "arn:" ++ partition ++ ":ec2:" ++ region ++ ":" ++ accountid ++ ":instance/" ++ id := by
  have h1 : ∀ x : String, ":" ++ ("ec2" ++ (":" ++ x)) = ":ec2:" ++ x := by
    intro x
    rw [← String.append_assoc, ← String.append_assoc]
    rfl
  have h2 : ∀ x : String, ":" ++ ("instance/" ++ x) = ":instance/" ++ x := by
    intro x
    rw [← String.append_assoc]
    rfl
  simp only [ARN.String, Ec2ServiceName, String.append_assoc, h1, h2]

/-- A read that returns no error: the query returned a response, one instance
was selected, and the helper calls, the attribute calls, the credit
specification lookup and the password data lookup, in this order, all ended
without a returned error; the ARN is set last. -/
theorem dataSourceAwsInstanceRead_success (lib : Lib) (client : InstanceClient)
    (env : InstanceReadEnv) (d : InstanceData) (r : InstanceResult)
    (h : dataSourceAwsInstanceRead lib client env d = .ok r) (hok : r.err = none) :
    ∃ (resp : DescribeInstancesOutput) (inst : Instance) (r0 : InstanceResult)
        (d1 : InstanceData) (passwordCalls : List Ec2Call),
      env.DescribeInstances (searchParams env d) = (some resp, none)
      ∧ selectInstance resp = .ok (.ok inst)
      ∧ instanceDescriptionAttributes lib env.attributes d (some inst)
          client.IgnoreTagsConfig = .ok r0
      ∧ r0.err = none
      ∧ d1.Id = r0.d.Id
      ∧ (passwordCalls = []
          ∨ (passwordCalls
                = [Ec2Call.getAwsEc2InstancePasswordData (StringValue inst.InstanceId)]
              ∧ (env.getAwsEc2InstancePasswordData (StringValue inst.InstanceId)).2 = none))
      ∧ r.d = d1.Set "arn" (.str (ARN.String
          (ARN.mk client.partition Ec2ServiceName client.region client.accountid
            ("instance/" ++ d1.Id))))
      ∧ r.calls = Ec2Call.DescribeInstances (searchParams env d)
          :: (r0.calls ++ passwordCalls) := by
  rcases dataSourceAwsInstanceRead_cases lib client env d r h with
    ⟨_, hr⟩ | ⟨_, hcases⟩
  · rw [hr] at hok
    cases hok
  · rcases hcases with ⟨_, _, _, hr⟩ | ⟨_, _, _, _, hr⟩ | ⟨resp, inst, r1, hresp, hsel, hr1, hr⟩
    · rw [hr] at hok
      cases hok
    · rw [hr] at hok
      cases hok
    · obtain ⟨r0, hr0, hpaths⟩ := describeSelected_cases lib client env d inst r1 hr1
      rcases hpaths with ⟨err, _, hr1eq⟩ | ⟨_, _, _, err, _, hr1eq⟩
        | ⟨herr0, d1, passwordCalls, hpw, hr1eq⟩
      · rw [hr, hr1eq] at hok
        cases hok
      · rw [hr, hr1eq] at hok
        cases hok
      · refine ⟨resp, inst, r0, d1, passwordCalls, hresp, hsel, hr0, herr0, ?_, ?_, ?_, ?_⟩
        · rcases hpw with ⟨_, hd1, _⟩ | ⟨_, _, _, hd1, _⟩
          · rw [hd1]
          · rw [hd1]
            rfl
        · rcases hpw with ⟨_, _, hpc⟩ | ⟨_, passwordData, hcall, _, hpc⟩
          · exact Or.inl hpc
          · exact Or.inr ⟨hpc, by rw [hcall]⟩
        · rw [hr, hr1eq]
        · rw [hr, hr1eq]

/-- The calls of dataSourceAwsInstanceRead on every returning path: none, or the
DescribeInstances query followed by the calls of instanceDescriptionAttributes
and at most one password data lookup. -/
theorem dataSourceAwsInstanceRead_call_log (lib : Lib) (client : InstanceClient)
    (env : InstanceReadEnv) (d : InstanceData) (r : InstanceResult)
    (h : dataSourceAwsInstanceRead lib client env d = .ok r) :
    r.calls = [] ∨ ∃ helperCalls attrCalls creditCalls passwordCalls,
      r.calls = Ec2Call.DescribeInstances (searchParams env d)
        :: (helperCalls ++ attrCalls ++ creditCalls ++ passwordCalls)
      ∧ (helperCalls = [] ∨ helperCalls = [Ec2Call.readSecurityGroups]
          ∨ helperCalls = [Ec2Call.readSecurityGroups, Ec2Call.readBlockDevices])
      ∧ (∀ c ∈ attrCalls, ∃ input, c = Ec2Call.DescribeInstanceAttribute input)
      ∧ attrCalls.length ≤ 2
      ∧ (creditCalls = [] ∨ ∃ id, creditCalls = [Ec2Call.getCreditSpecifications id])
      ∧ (passwordCalls = []
          ∨ ∃ id, passwordCalls = [Ec2Call.getAwsEc2InstancePasswordData id]) := by
  rcases dataSourceAwsInstanceRead_cases lib client env d r h with
    ⟨_, hr⟩ | ⟨_, hcases⟩
  · exact Or.inl (by rw [hr])
  · right
    rcases hcases with ⟨_, _, _, hr⟩ | ⟨_, _, _, _, hr⟩ | ⟨resp, inst, r1, hresp, hsel, hr1, hr⟩
    · exact ⟨[], [], [], [], by rw [hr]; rfl, Or.inl rfl, by simp, by simp, Or.inl rfl,
        Or.inl rfl⟩
    · exact ⟨[], [], [], [], by rw [hr]; rfl, Or.inl rfl, by simp, by simp, Or.inl rfl,
        Or.inl rfl⟩
    · obtain ⟨r0, hr0, hpaths⟩ := describeSelected_cases lib client env d inst r1 hr1
      obtain ⟨helperCalls, attrCalls, creditCalls, hcalls, hhelper, hattr, hlen, hcredit⟩ :=
        instanceDescriptionAttributes_calls lib env.attributes d inst
          client.IgnoreTagsConfig r0 hr0
      have hcredit1 : creditCalls = []
          ∨ ∃ id, creditCalls = [Ec2Call.getCreditSpecifications id] := by
        rcases hcredit with hc | ⟨_, hc⟩
        · exact Or.inl hc
        · exact Or.inr hc
      rcases hpaths with ⟨err, _, hr1eq⟩ | ⟨_, _, _, err, _, hr1eq⟩
        | ⟨herr0, d1, passwordCalls, hpw, hr1eq⟩
      · refine ⟨helperCalls, attrCalls, creditCalls, [], ?_, hhelper, hattr, hlen, hcredit1,
          Or.inl rfl⟩
        rw [hr, hr1eq]
        simp [hcalls]
      · refine ⟨helperCalls, attrCalls, creditCalls,
          [Ec2Call.getAwsEc2InstancePasswordData (StringValue inst.InstanceId)], ?_, hhelper,
          hattr, hlen, hcredit1, Or.inr ⟨_, rfl⟩⟩
        rw [hr, hr1eq]
        simp [hcalls]
      · refine ⟨helperCalls, attrCalls, creditCalls, passwordCalls, ?_, hhelper, hattr, hlen,
          hcredit1, ?_⟩
        · rw [hr, hr1eq]
          simp [hcalls]
        · rcases hpw with ⟨_, _, hpc⟩ | ⟨_, _, _, _, hpc⟩
          · exact Or.inl hpc
          · exact Or.inr ⟨_, hpc⟩

/-- Claim C23. A read that returns no error has set the arn attribute to
"arn:" + partition + ":ec2:" + region + ":" + account id + ":instance/" + id with
the three parts of the client and the id of the resource data; one instance was
selected, and the id is the InstanceId of that instance when the helpers
readSecurityGroups and readBlockDevices, which receive the resource data, leave
the id alone. -/
theorem dataSourceAwsInstanceRead_arn (lib : Lib) (client : InstanceClient)
    (env : InstanceReadEnv) (d : InstanceData) (r : InstanceResult)
    (h : dataSourceAwsInstanceRead lib client env d = .ok r) (hok : r.err = none) :
    r.d.Get "arn"
      = .str ("arn:" ++ client.partition ++ ":ec2:" ++ client.region ++ ":"
          ++ client.accountid ++ ":instance/" ++ r.d.Id)
    ∧ ∃ resp inst, env.DescribeInstances (searchParams env d) = (some resp, none)
        ∧ selectInstance resp = .ok (.ok inst)
        ∧ ((∀ d1 i, (env.attributes.readSecurityGroups d1 i).1.Id = d1.Id) →
            (∀ d1 i, (env.attributes.readBlockDevices d1 i).1.Id = d1.Id) →
            r.d.Id = StringValue inst.InstanceId) := by
  obtain ⟨resp, inst, r0, d1, passwordCalls, hresp, hsel, hr0, _, hid1, _, hd, _⟩ :=
    dataSourceAwsInstanceRead_success lib client env d r h hok
  have hid : r.d.Id = d1.Id := by
    rw [hd]
    rfl
  refine ⟨?_, resp, inst, hresp, hsel, ?_⟩
  · rw [hid, hd, InstanceData.Get_Set_self, ARN_String_instance]
  · intro hsg hbd
    rw [hid, hid1]
    exact instanceDescriptionAttributes_id lib env.attributes d inst client.IgnoreTagsConfig
      r0 hsg hbd hr0

/-- C23 at a concrete input: the read of the running instance "i-1" sets the arn
"arn:aws:ec2:eu-west-1:123456789012:instance/i-1". -/
theorem dataSourceAwsInstanceRead_arn_witness :
    ∃ r, dataSourceAwsInstanceRead stubLib regionClient
        (instanceReadEnv plainInstanceEnv [[instanceInState "running"]]) instanceIdData
        = .ok r
      ∧ r.err = none
      ∧ r.d.Id = "i-1"
      ∧ r.d.Get "arn" = .str "arn:aws:ec2:eu-west-1:123456789012:instance/i-1" := by
  refine ⟨_, rfl, rfl, rfl, ?_⟩
  exact (dataSourceAwsInstanceRead_arn stubLib regionClient
    (instanceReadEnv plainInstanceEnv [[instanceInState "running"]]) instanceIdData _
    rfl rfl).1

/-- Claim C26. Of a returning instanceDescriptionAttributes: a credit
specification lookup in the call log means a T2 or T3 instance type; a run
without error has made the lookup when the type is T2 or T3 and has made none
and set credit_specification to the empty list otherwise; a run without error
has ignored only a lookup error that isAWSErr recognises as
UnsupportedOperation; and every other lookup error is returned, wrapped in
"error getting EC2 Instance (%s) Credit Specifications: %w". -/
theorem instanceDescriptionAttributes_credit_specification (lib : Lib)
    (env : InstanceEnv) (d : InstanceData) (inst : Instance)
    (ignoreTagsConfig : KeyValueTags) (r : InstanceResult)
    (h : instanceDescriptionAttributes lib env d (some inst) ignoreTagsConfig = .ok r) :
    (∀ id, Ec2Call.getCreditSpecifications id ∈ r.calls →
      (HasPrefix (StringValue inst.InstanceType) "t2"
        || HasPrefix (StringValue inst.InstanceType) "t3") = true)
    ∧ (r.err = none →
        (HasPrefix (StringValue inst.InstanceType) "t2"
          || HasPrefix (StringValue inst.InstanceType) "t3") = true →
        ∃ id, Ec2Call.getCreditSpecifications id ∈ r.calls)
    ∧ (r.err = none →
        (HasPrefix (StringValue inst.InstanceType) "t2"
          || HasPrefix (StringValue inst.InstanceType) "t3") = false →
        (∀ id, Ec2Call.getCreditSpecifications id ∉ r.calls)
        ∧ r.d.Get "credit_specification" = .blocks [])
    ∧ (r.err = none → ∀ id err, Ec2Call.getCreditSpecifications id ∈ r.calls →
        (env.getCreditSpecifications id).2 = some err →
        env.isAWSErr err "UnsupportedOperation" "" = true)
    ∧ (∀ id err, Ec2Call.getCreditSpecifications id ∈ r.calls →
        (env.getCreditSpecifications id).2 = some err →
        env.isAWSErr err "UnsupportedOperation" "" = false →
        r.err = some (.errorf "error getting EC2 Instance (%s) Credit Specifications: %w"
          [id] err)) := by
  have hnotattr : ∀ (attrCalls : List Ec2Call),
      (∀ c ∈ attrCalls, ∃ input, c = Ec2Call.DescribeInstanceAttribute input) →
      ∀ id, Ec2Call.getCreditSpecifications id ∉ attrCalls := by
    intro attrCalls hattr id hmem
    obtain ⟨input, hc⟩ := hattr _ hmem
    cases hc
  rcases instanceDescriptionAttributes_trace lib env d inst ignoreTagsConfig r h with
    ⟨hc, herr, _⟩ | ⟨dA, dB, eB, _, _, hB⟩
  · refine ⟨?_, fun hn => absurd hn herr, fun hn => absurd hn herr,
      fun hn => absurd hn herr, ?_⟩
    · intro id hmem
      rw [hc] at hmem
      cases hmem
    · intro id err hmem
      rw [hc] at hmem
      cases hmem
  · rcases hB with ⟨heB, hr⟩ | ⟨_, dC, eC, _, hC⟩
    · have herr : r.err ≠ none := by
        rw [hr]
        exact heB
      refine ⟨?_, fun hn => absurd hn herr, fun hn => absurd hn herr,
        fun hn => absurd hn herr, ?_⟩
      · intro id hmem
        rw [hr] at hmem
        simp at hmem
      · intro id err hmem
        rw [hr] at hmem
        simp at hmem
    · rcases hC with ⟨heC, hr⟩ | ⟨_, dC1, dD, eD, attrCalls, _, hattr, hD⟩
      · have herr : r.err ≠ none := by
          rw [hr]
          exact heC
        refine ⟨?_, fun hn => absurd hn herr, fun hn => absurd hn herr,
          fun hn => absurd hn herr, ?_⟩
        · intro id hmem
          rw [hr] at hmem
          simp at hmem
        · intro id err hmem
          rw [hr] at hmem
          simp at hmem
      · have hres := readInstanceAttributes_result env dC1 dD eD attrCalls hattr
        have hna := hnotattr attrCalls hres.2.1
        rcases hD with ⟨heD, hr⟩ | ⟨_, specs, eS, creditCalls, hcredit, hcalls, _, hS, hnone⟩
        · have herr : r.err ≠ none := by
            rw [hr]
            exact heD
          have hnomem : ∀ id, Ec2Call.getCreditSpecifications id ∉ r.calls := by
            intro id hmem
            rw [hr] at hmem
            simp only [List.mem_append, List.mem_cons, List.mem_singleton, List.not_mem_nil,
              or_false] at hmem
            rcases hmem with (hm | hm) | hm
            · cases hm
            · cases hm
            · exact hna id hm
          exact ⟨fun id hmem => absurd hmem (hnomem id), fun hn => absurd hn herr,
            fun hn => absurd hn herr, fun hn => absurd hn herr,
            fun id err hmem => absurd hmem (hnomem id)⟩
        · have hmemcc : ∀ id, Ec2Call.getCreditSpecifications id ∈ r.calls →
              Ec2Call.getCreditSpecifications id ∈ creditCalls := by
            intro id hmem
            rw [hcalls] at hmem
            simp only [List.mem_append, List.mem_cons, List.mem_singleton, List.not_mem_nil,
              or_false] at hmem
            rcases hmem with ((hm | hm) | hm) | hm
            · cases hm
            · cases hm
            · exact absurd hm (hna id)
            · exact hm
          rcases readCreditSpecifications_cases env dD inst specs eS creditCalls hcredit with
            ⟨ht, hspecs, _, hcc⟩ | ⟨ht, hcc, hlookup⟩
          · have hnomem : ∀ id, Ec2Call.getCreditSpecifications id ∉ r.calls := by
              intro id hmem
              have := hmemcc id hmem
              rw [hcc] at this
              cases this
            refine ⟨fun id hmem => absurd hmem (hnomem id), ?_, ?_,
              fun _ id err hmem => absurd hmem (hnomem id),
              fun id err hmem => absurd hmem (hnomem id)⟩
            · intro _ ht2
              rw [ht] at ht2
              cases ht2
            · intro hn _
              refine ⟨hnomem, ?_⟩
              rw [(hnone hn).2, hspecs]
          · have hid : ∀ id, Ec2Call.getCreditSpecifications id ∈ r.calls → id = dD.Id := by
              intro id hmem
              have := hmemcc id hmem
              rw [hcc] at this
              simp only [List.mem_singleton] at this
              cases this
              rfl
            refine ⟨fun _ _ => ht, ?_, ?_, ?_, ?_⟩
            · intro _ _
              refine ⟨dD.Id, ?_⟩
              rw [hcalls, hcc]
              simp
            · intro _ ht2
              rw [ht] at ht2
              cases ht2
            · intro hn id err hmem hcall
              rw [hid id hmem] at hcall
              rcases hlookup with ⟨_, hl | ⟨err1, hl, hrec⟩⟩ | ⟨err1, hl, _, heS⟩
              · rw [hl] at hcall
                cases hcall
              · rw [hl] at hcall
                cases hcall
                exact hrec
              · have := hS (by rw [heS]; simp)
                rw [hn, heS] at this
                cases this
            · intro id err hmem hcall hrec
              rw [hid id hmem] at hcall ⊢
              rcases hlookup with ⟨_, hl | ⟨err1, hl, hrec1⟩⟩ | ⟨err1, hl, _, heS⟩
              · rw [hl] at hcall
                cases hcall
              · rw [hl] at hcall
                cases hcall
                rw [hrec] at hrec1
                cases hrec1
              · rw [hl] at hcall
                cases hcall
                rw [hS (by rw [heS]; simp), heS]

/-- C26 at a concrete input: for the T2 instance "i-1" the lookup is made with
the id "i-1". -/
theorem instanceDescriptionAttributes_credit_specification_witness :
    ∃ r, instanceDescriptionAttributes stubLib plainInstanceEnv instanceIdData
        (some (instanceInState "running")) [] = .ok r
      ∧ r.err = none
      ∧ ∃ id, Ec2Call.getCreditSpecifications id ∈ r.calls := by
  refine ⟨_, rfl, rfl, ?_⟩
  exact (instanceDescriptionAttributes_credit_specification stubLib plainInstanceEnv
    instanceIdData (instanceInState "running") [] _ rfl).2.1 rfl (by decide)

/-- A run of instanceDescriptionAttributes that returns no error: both helpers,
both DescribeInstanceAttribute blocks and the credit specification lookup ended
without a returned error, and these are all its calls. -/
theorem instanceDescriptionAttributes_success (lib : Lib) (env : InstanceEnv)
    (d : InstanceData) (inst : Instance) (ignoreTagsConfig : KeyValueTags)
    (r : InstanceResult)
    (h : instanceDescriptionAttributes lib env d (some inst) ignoreTagsConfig = .ok r)
    (hok : r.err = none) :
    ∃ (dA dB dC dC1 dD : InstanceData) (attrCalls : List Ec2Call)
        (specs : List (List (String × String))) (creditCalls : List Ec2Call),
      env.readSecurityGroups dA inst = (dB, none)
      ∧ env.readBlockDevices dB inst = (dC, none)
      ∧ readInstanceAttributes env dC1 = .ok (dD, none, attrCalls)
      ∧ readCreditSpecifications env dD inst = (specs, none, creditCalls)
      ∧ r.calls = [Ec2Call.readSecurityGroups, Ec2Call.readBlockDevices] ++ attrCalls
          ++ creditCalls := by
  rcases instanceDescriptionAttributes_trace lib env d inst ignoreTagsConfig r h with
    ⟨_, herr, _⟩ | ⟨dA, dB, eB, _, hsg, hB⟩
  · exact absurd hok herr
  · rcases hB with ⟨heB, hr⟩ | ⟨heB, dC, eC, hbd, hC⟩
    · rw [hr] at hok
      exact absurd hok heB
    · rcases hC with ⟨heC, hr⟩ | ⟨heC, dC1, dD, eD, attrCalls, _, hattr, hD⟩
      · rw [hr] at hok
        exact absurd hok heC
      · rcases hD with ⟨heD, hr⟩ | ⟨heD, specs, eS, creditCalls, hcredit, hcalls, _, _, hnone⟩
        · rw [hr] at hok
          exact absurd hok heD
        · refine ⟨dA, dB, dC, dC1, dD, attrCalls, specs, creditCalls, ?_, ?_, ?_, ?_, hcalls⟩
          · rw [hsg, heB]
          · rw [hbd, heC]
          · rw [hattr, heD]
          · rw [hcredit, (hnone hok).1]

/-- Claim C24, counterexample. The T2 instance "i-1" is read while the credit
specification lookup returns an UnsupportedOperation error: the lookup is in the
call log, and the read returns no error. -/
theorem dataSourceAwsInstanceRead_ignores_unsupported_operation :
    (dataSourceAwsInstanceRead stubLib regionClient
        (instanceReadEnv unsupportedCreditEnv [[instanceInState "running"]])
        instanceIdData).map (fun r => (r.err, r.calls))
      = .ok (none,
          [Ec2Call.DescribeInstances (DescribeInstancesInput.mk [] [some "i-1"]),
            Ec2Call.readSecurityGroups, Ec2Call.readBlockDevices,
            Ec2Call.DescribeInstanceAttribute
              (DescribeInstanceAttributeInput.mk (some "disableApiTermination") (some "i-1")),
            Ec2Call.DescribeInstanceAttribute
              (DescribeInstanceAttributeInput.mk (some "userData") (some "i-1")),
            Ec2Call.getCreditSpecifications "i-1"])
    ∧ unsupportedCreditEnv.getCreditSpecifications "i-1"
      = ([], some (.sdk (.aws "UnsupportedOperation" "The functionality is not supported"))) :=
  ⟨rfl, rfl⟩

/-- Claim C24, as amended. Of a returning dataSourceAwsInstanceRead: an error of
DescribeInstances is returned as it is; an error that
instanceDescriptionAttributes returns, and an error of the password data lookup,
are returned as they are; and a read that returns no error has seen no error from
DescribeInstances, from any DescribeInstanceAttribute call, from the password
data lookup or from the two helpers, and from the credit specification lookup
only an error that isAWSErr recognises as UnsupportedOperation. -/
theorem dataSourceAwsInstanceRead_errors_returned (lib : Lib) (client : InstanceClient)
    (env : InstanceReadEnv) (d : InstanceData) (r : InstanceResult)
    (h : dataSourceAwsInstanceRead lib client env d = .ok r) :
    (∀ x e, (d.GetOk "filter" = true ∨ d.GetOk "instance_id" = true
          ∨ d.GetOk "instance_tags" = true) →
        env.DescribeInstances (searchParams env d) = (x, some e) →
        r.err = some (.sdk e))
    ∧ (∀ resp inst r0,
        (d.GetOk "filter" = true ∨ d.GetOk "instance_id" = true
          ∨ d.GetOk "instance_tags" = true) →
        env.DescribeInstances (searchParams env d) = (some resp, none) →
        selectInstance resp = .ok (.ok inst) →
        instanceDescriptionAttributes lib env.attributes d (some inst)
            client.IgnoreTagsConfig = .ok r0 →
        (∀ err, r0.err = some err → r.err = some err)
        ∧ (r0.err = none → r0.d.GetBool "get_password_data" = true →
            ∀ x err,
              env.getAwsEc2InstancePasswordData (StringValue inst.InstanceId) = (x, some err) →
              r.err = some err))
    ∧ (r.err = none →
        (env.DescribeInstances (searchParams env d)).2 = none
        ∧ (∀ input, Ec2Call.DescribeInstanceAttribute input ∈ r.calls →
            (env.attributes.DescribeInstanceAttribute input).2 = none)
        ∧ (∀ id, Ec2Call.getCreditSpecifications id ∈ r.calls →
            (env.attributes.getCreditSpecifications id).2 = none
            ∨ ∃ err, (env.attributes.getCreditSpecifications id).2 = some err
                ∧ env.attributes.isAWSErr err "UnsupportedOperation" "" = true)
        ∧ (∀ id, Ec2Call.getAwsEc2InstancePasswordData id ∈ r.calls →
            (env.getAwsEc2InstancePasswordData id).2 = none)
        ∧ (∃ (inst : Instance) (dA dB dC : InstanceData),
            env.attributes.readSecurityGroups dA inst = (dB, none)
            ∧ env.attributes.readBlockDevices dB inst = (dC, none))) := by
  have hguard : (d.GetOk "filter" = true ∨ d.GetOk "instance_id" = true
      ∨ d.GetOk "instance_tags" = true) →
      (!d.GetOk "filter" && !d.GetOk "instance_id" && !d.GetOk "instance_tags") = false := by
    intro hset
    rcases hset with h1 | h1 | h1 <;> simp [h1]
  refine ⟨?_, ?_, ?_⟩
  · intro x e hset hcall
    rcases dataSourceAwsInstanceRead_cases lib client env d r h with
      ⟨hg, _⟩ | ⟨_, hcases⟩
    · rw [hguard hset] at hg
      cases hg
    · rcases hcases with ⟨x1, e1, hcall1, hr⟩ | ⟨_, _, hcall1, _⟩ | ⟨_, _, _, hcall1, _⟩
      · rw [hcall] at hcall1
        cases hcall1
        rw [hr]
      · rw [hcall] at hcall1
        cases hcall1
      · rw [hcall] at hcall1
        cases hcall1
  · intro resp inst r0 hset hcall hsel h0
    rcases dataSourceAwsInstanceRead_cases lib client env d r h with
      ⟨hg, _⟩ | ⟨_, hcases⟩
    · rw [hguard hset] at hg
      cases hg
    · rcases hcases with ⟨_, _, hcall1, _⟩ | ⟨resp1, err1, hcall1, hsel1, _⟩
        | ⟨resp1, inst1, r1, hcall1, hsel1, hr1, hr⟩
      · rw [hcall] at hcall1
        cases hcall1
      · rw [hcall] at hcall1
        cases hcall1
        rw [hsel] at hsel1
        cases hsel1
      · rw [hcall] at hcall1
        cases hcall1
        rw [hsel] at hsel1
        cases hsel1
        obtain ⟨r01, hr01, hpaths⟩ := describeSelected_cases lib client env d inst r1 hr1
        rw [h0] at hr01
        cases hr01
        rcases hpaths with ⟨err, herr, hr1eq⟩ | ⟨herr, hget, x, err, hpw, hr1eq⟩
          | ⟨herr, d1, passwordCalls, hpw, hr1eq⟩
        · refine ⟨?_, ?_⟩
          · intro err1 herr1
            rw [hr, hr1eq, ← herr1, herr]
          · intro hnone
            rw [herr] at hnone
            cases hnone
        · refine ⟨?_, ?_⟩
          · intro err1 herr1
            rw [herr] at herr1
            cases herr1
          · intro _ _ x1 err1 hpw1
            rw [hpw] at hpw1
            cases hpw1
            rw [hr, hr1eq]
        · refine ⟨?_, ?_⟩
          · intro err1 herr1
            rw [herr] at herr1
            cases herr1
          · intro _ hget x1 err1 hpw1
            rcases hpw with ⟨hget1, _, _⟩ | ⟨_, passwordData, hpw2, _, _⟩
            · rw [hget] at hget1
              cases hget1
            · rw [hpw1] at hpw2
              cases hpw2
  · intro hok
    obtain ⟨resp, inst, r0, d1, passwordCalls, hresp, hsel, hr0, herr0, _, hpw, _, hcalls⟩ :=
      dataSourceAwsInstanceRead_success lib client env d r h hok
    obtain ⟨dA, dB, dC, dC1, dD, attrCalls, specs, creditCalls, hsg, hbd, hattr, hcredit,
        hcalls0⟩ :=
      instanceDescriptionAttributes_success lib env.attributes d inst client.IgnoreTagsConfig
        r0 hr0 herr0
    have hres := readInstanceAttributes_result env.attributes dC1 dD none attrCalls hattr
    have hcc := readCreditSpecifications_cases env.attributes dD inst specs none creditCalls
      hcredit
    have hccshape : creditCalls = []
        ∨ creditCalls = [Ec2Call.getCreditSpecifications dD.Id] := by
      rcases hcc with ⟨_, _, _, hc⟩ | ⟨_, hc, _⟩
      · exact Or.inl hc
      · exact Or.inr hc
    have hpwshape : passwordCalls = [] ∨ passwordCalls
        = [Ec2Call.getAwsEc2InstancePasswordData (StringValue inst.InstanceId)] := by
      rcases hpw with hp | ⟨hp, _⟩
      · exact Or.inl hp
      · exact Or.inr hp
    have hmem : ∀ c, c ∈ r.calls →
        c = Ec2Call.DescribeInstances (searchParams env d) ∨ c = Ec2Call.readSecurityGroups
        ∨ c = Ec2Call.readBlockDevices ∨ c ∈ attrCalls ∨ c ∈ creditCalls
        ∨ c ∈ passwordCalls := by
      have key : ∀ {α : Type} (a b1 b2 c : α) (A C P : List α),
          c ∈ a :: ([b1, b2] ++ A ++ C ++ P) →
          c = a ∨ c = b1 ∨ c = b2 ∨ c ∈ A ∨ c ∈ C ∨ c ∈ P := by
        intro α a b1 b2 c A C P hc
        simp only [List.mem_append, List.mem_cons, List.mem_singleton, List.not_mem_nil,
          or_false] at hc
        rcases hc with hc | (((hc | hc) | hc) | hc) | hc
        · exact Or.inl hc
        · exact Or.inr (Or.inl hc)
        · exact Or.inr (Or.inr (Or.inl hc))
        · exact Or.inr (Or.inr (Or.inr (Or.inl hc)))
        · exact Or.inr (Or.inr (Or.inr (Or.inr (Or.inl hc))))
        · exact Or.inr (Or.inr (Or.inr (Or.inr (Or.inr hc))))
      intro c hc
      rw [hcalls, hcalls0] at hc
      exact key _ _ _ _ _ _ _ hc
    refine ⟨by rw [hresp], ?_, ?_, ?_, ⟨inst, dA, dB, dC, hsg, hbd⟩⟩
    · intro input hin
      rcases hmem _ hin with hc | hc | hc | hc | hc | hc
      · cases hc
      · cases hc
      · cases hc
      · exact hres.2.2.2.2 rfl _ hc input rfl
      · rcases hccshape with hs | hs
        · rw [hs] at hc
          cases hc
        · rw [hs] at hc
          simp at hc
      · rcases hpwshape with hs | hs
        · rw [hs] at hc
          cases hc
        · rw [hs] at hc
          simp at hc
    · intro id hin
      rcases hmem _ hin with hc | hc | hc | hc | hc | hc
      · cases hc
      · cases hc
      · cases hc
      · obtain ⟨input, hci⟩ := hres.2.1 _ hc
        cases hci
      · rcases hcc with ⟨_, _, _, hs⟩ | ⟨_, hs, hlookup⟩
        · rw [hs] at hc
          cases hc
        · rw [hs] at hc
          simp only [List.mem_singleton] at hc
          cases hc
          rcases hlookup with ⟨_, hl⟩ | ⟨_, _, _, hl⟩
          · exact hl
          · cases hl
      · rcases hpwshape with hs | hs
        · rw [hs] at hc
          cases hc
        · rw [hs] at hc
          simp at hc
    · intro id hin
      rcases hmem _ hin with hc | hc | hc | hc | hc | hc
      · cases hc
      · cases hc
      · cases hc
      · obtain ⟨input, hci⟩ := hres.2.1 _ hc
        cases hci
      · rcases hccshape with hs | hs
        · rw [hs] at hc
          cases hc
        · rw [hs] at hc
          simp at hc
      · rcases hpw with hs | ⟨hs, hnone⟩
        · rw [hs] at hc
          cases hc
        · rw [hs] at hc
          simp only [List.mem_singleton] at hc
          cases hc
          exact hnone

/-- C24 at a concrete input: the read of the running instance "i-1" returns no
error, and no DescribeInstanceAttribute call of its log returned one. -/
theorem dataSourceAwsInstanceRead_errors_returned_witness :
    ∃ r, dataSourceAwsInstanceRead stubLib regionClient
        (instanceReadEnv plainInstanceEnv [[instanceInState "running"]]) instanceIdData
        = .ok r
      ∧ r.err = none
      ∧ ∀ input, Ec2Call.DescribeInstanceAttribute input ∈ r.calls →
          (plainInstanceEnv.DescribeInstanceAttribute input).2 = none := by
  refine ⟨_, rfl, rfl, ?_⟩
  exact ((dataSourceAwsInstanceRead_errors_returned stubLib regionClient
    (instanceReadEnv plainInstanceEnv [[instanceInState "running"]]) instanceIdData _
    rfl).2.2 rfl).2.1

/-! ### The timeout of the wait -/

/-- Claim C9. In the waiter modelled from the spec, where the timeout is the
point after which no further probe is issued: (1) a wait all of whose probes
return a pending label ends in TIMED_OUT with the timeout error after one probe
per probe time that the timeout leaves room for; (2) such a wait of a task
handler never ends in TARGET; (3) in the create wait a probe that always finds
the task in "creating" ends the wait in TIMED_OUT after exactly `n` probes when
the timeout leaves room for `n`, in particular after exactly 2 probes for a
timeout of 2 poll intervals; (4) the create handler then returns the timeout
error after the create call and these probes, without a read. -/
theorem waitForTask_pending_until_timeout :
    (∀ {α β : Type} (conf : StateChangeConf) (Refresh : β → Except Panic (ProbeResult α))
        (remote : List β),
      (∀ c ∈ remote, keepsPending conf Refresh c = true) →
      WaitForState conf Refresh remote 0
        = .ok { state := .TIMED_OUT, probes := remote.length,
                err := some (.timeoutError conf.Target) })
    ∧ (∀ (conf : StateChangeConf) (d : ResourceData) (remote : List DescribeApi)
        (o : WaitOutcome),
      (∀ c ∈ remote,
        keepsPending conf (resourceAwsDmsReplicationTaskStateRefreshFunc d.Id) c = true) →
      waitForTask conf d remote = .ok o →
      o.state = .TIMED_OUT ∧ o.state ≠ .TARGET ∧ o.probes = remote.length)
    ∧ (∀ (d : ResourceData) (n : Nat),
      waitForTask (createStateConf d) d (List.replicate n (describeStatus "creating"))
        = .ok { state := .TIMED_OUT, probes := n, err := some (.timeoutError ["ready"]) })
    ∧ (∀ (d : ResourceData),
      waitForTask (createStateConf d) d [describeStatus "creating", describeStatus "creating"]
        = .ok { state := .TIMED_OUT, probes := 2, err := some (.timeoutError ["ready"]) })
    ∧ (∀ (lib : Lib) (client : AWSClient) (env : CreateEnv) (d : ResourceData)
        (request : CreateReplicationTaskInput),
      createRequest lib client d = .ok request →
      env.create request = none →
      (∀ c ∈ env.wait,
        keepsPending (createStateConf d)
          (resourceAwsDmsReplicationTaskStateRefreshFunc (d.Get "replication_task_id")) c
          = true) →
      resourceAwsDmsReplicationTaskCreate lib client env d
        = .ok { d := d.SetId (d.Get "replication_task_id"),
                err := some (.timeoutError ["ready"]),
                calls := Call.CreateReplicationTask request
                  :: probeCalls (d.SetId (d.Get "replication_task_id")) env.wait.length }) := by
  have hcreating : ∀ (d : ResourceData) (n : Nat),
      waitForTask (createStateConf d) d (List.replicate n (describeStatus "creating"))
        = .ok { state := .TIMED_OUT, probes := n, err := some (.timeoutError ["ready"]) } := by
    intro d n
    have h := WaitForState_all_pending (createStateConf d)
      (resourceAwsDmsReplicationTaskStateRefreshFunc d.Id)
      (List.replicate n (describeStatus "creating"))
      (by
        intro c hc
        rw [List.eq_of_mem_replicate hc]
        rfl)
    simpa [waitForTask, createStateConf] using h
  refine ⟨?_, ?_, hcreating, fun d => hcreating d 2, ?_⟩
  · intro α β conf Refresh remote h
    exact WaitForState_all_pending conf Refresh remote h
  · intro conf d remote o h ho
    have hw := WaitForState_all_pending conf
      (resourceAwsDmsReplicationTaskStateRefreshFunc d.Id) remote h
    unfold waitForTask at ho
    rw [hw] at ho
    cases ho
    exact ⟨rfl, by simp, rfl⟩
  · intro lib client env d request hreq hcreate hwait
    have hw : waitForTask (createStateConf (d.SetId (d.Get "replication_task_id")))
        (d.SetId (d.Get "replication_task_id")) env.wait
        = .ok { state := .TIMED_OUT, probes := env.wait.length,
                err := some (.timeoutError ["ready"]) } :=
      WaitForState_all_pending _ _ env.wait hwait
    simp [resourceAwsDmsReplicationTaskCreate, hreq, hcreate, hw]

/-- C9 at the scenario of the spec: the create wait of "task-1" against a remote
that answers "creating" at both probe times that the timeout leaves room for
ends in TIMED_OUT after exactly 2 probes. -/
theorem waitForTask_pending_until_timeout_witness :
    waitForTask (createStateConf sampleData) sampleData
        [describeStatus "creating", describeStatus "creating"]
      = .ok { state := .TIMED_OUT, probes := 2, err := some (.timeoutError ["ready"]) } :=
  waitForTask_pending_until_timeout.2.2.2.1 sampleData

/-! ### The clean-up at the level of the JSON text -/

/-- The decoded members of an object keep the keys in order, and each value is
the decoded value of the member. -/
theorem decodeMembers_values (ParseFloat : ℚ → Option ℚ) :
    ∀ (members decoded : List (String × JsonValue)),
      decodeMembers ParseFloat members = some decoded →
      List.Forall₂ (fun kv kw => kw.1 = kv.1 ∧ decodeInterface ParseFloat kv.2 = some kw.2)
        members decoded := by
  intro members
  induction members with
  | nil =>
    intro decoded h
    simp only [decodeMembers, Option.some.injEq] at h
    subst h
    exact List.Forall₂.nil
  | cons kv rest ih =>
    intro decoded h
    obtain ⟨key, v⟩ := kv
    simp only [decodeMembers] at h
    split at h
    · rename_i w ws hw hws
      cases h
      exact List.Forall₂.cons ⟨rfl, hw⟩ (ih ws hws)
    · cases h

mutual
/-- With a number conversion that rejects no number, every JSON value is
decoded. -/
theorem decodeInterface_isSome (ParseFloat : ℚ → Option ℚ)
    (h : ∀ value, (ParseFloat value).isSome = true) :
    ∀ v, (decodeInterface ParseFloat v).isSome = true
  | .null => by simp [decodeInterface]
  | .bool b => by simp [decodeInterface]
  | .number value => by simp [decodeInterface, h value]
  | .string s => by simp [decodeInterface]
  | .array items => by simp [decodeInterface, decodeItems_isSome ParseFloat h items]
  | .object members => by simp [decodeInterface, decodeMembers_isSome ParseFloat h members]
/-- With a number conversion that rejects no number, the items of every array
are decoded. -/
theorem decodeItems_isSome (ParseFloat : ℚ → Option ℚ)
    (h : ∀ value, (ParseFloat value).isSome = true) :
    ∀ items, (decodeItems ParseFloat items).isSome = true
  | [] => by simp [decodeItems]
  | v :: rest => by
    have h1 := decodeInterface_isSome ParseFloat h v
    have h2 := decodeItems_isSome ParseFloat h rest
    obtain ⟨w, hw⟩ := Option.isSome_iff_exists.mp h1
    obtain ⟨ws, hws⟩ := Option.isSome_iff_exists.mp h2
    simp [decodeItems, hw, hws]
/-- With a number conversion that rejects no number, the members of every object
are decoded. -/
theorem decodeMembers_isSome (ParseFloat : ℚ → Option ℚ)
    (h : ∀ value, (ParseFloat value).isSome = true) :
    ∀ members, (decodeMembers ParseFloat members).isSome = true
  | [] => by simp [decodeMembers]
  | (key, v) :: rest => by
    have h1 := decodeInterface_isSome ParseFloat h v
    have h2 := decodeMembers_isSome ParseFloat h rest
    obtain ⟨w, hw⟩ := Option.isSome_iff_exists.mp h1
    obtain ⟨ws, hws⟩ := Option.isSome_iff_exists.mp h2
    simp [decodeMembers, hw, hws]
end

/-- A number that the conversion rejects makes the decoding of an object that
holds it as a member fail. -/
theorem decodeMembers_rejected_number (ParseFloat : ℚ → Option ℚ) (key : String)
    (value : ℚ) (h : ParseFloat value = none) :
    ∀ (before after : List (String × JsonValue)),
      decodeMembers ParseFloat (before ++ (key, .number value) :: after) = none := by
  intro before
  induction before with
  | nil =>
    intro after
    simp [decodeMembers, decodeInterface, h]
  | cons kv rest ih =>
    intro after
    obtain ⟨k, v⟩ := kv
    have hrest := ih after
    show decodeMembers ParseFloat ((k, v) :: (rest ++ (key, .number value) :: after)) = none
    rw [decodeMembers, hrest]
    cases decodeInterface ParseFloat v <;> rfl

/-- The function on a text that json.Unmarshal decodes as an object. -/
theorem dmsReplicationTaskRemoveReadOnlySettings_of_object (base : Lib) (codec : JsonCodec)
    (settings : String) (members decoded : List (String × JsonValue))
    (hparse : codec.parse settings = some (.object members))
    (hfit : decodeMembers codec.ParseFloat members = some decoded) :
    (codec.lib base).Unmarshal settings = .ok (some (toMap decoded))
    ∧ dmsReplicationTaskRemoveReadOnlySettings (codec.lib base) settings
      = (some (codec.encode (some (removeReadOnlyKeys (toMap decoded)))), none) := by
  have hun : (codec.lib base).Unmarshal settings = .ok (some (toMap decoded)) := by
    simp [JsonCodec.lib, JsonCodec.Unmarshal, hparse, hfit]
  refine ⟨hun, ?_⟩
  unfold dmsReplicationTaskRemoveReadOnlySettings
  rw [hun]
  rfl

/-- The function on a text that json.Unmarshal rejects. -/
theorem dmsReplicationTaskRemoveReadOnlySettings_of_rejected (base : Lib)
    (codec : JsonCodec) (settings : String)
    (h : (codec.lib base).Unmarshal settings = .error (codec.unmarshalError settings)) :
    dmsReplicationTaskRemoveReadOnlySettings (codec.lib base) settings
      = (none, some (codec.unmarshalError settings)) := by
  unfold dmsReplicationTaskRemoveReadOnlySettings
  rw [h]

/-- Claim C12, counterexample. The text `{"a":12345678901234567890}` is a JSON
object without any of the read-only keys; json.Unmarshal decodes its number to
the float64 12345678901234567168 and json.Marshal writes that as
12345678901234567000, so the function returns `{"a":12345678901234567000}`: the
value of the key "a" is not preserved. -/
theorem dmsReplicationTaskRemoveReadOnlySettings_alters_number :
    sampleCodec.parse bigNumberText = some (.object [("a", .number 12345678901234567890)])
    ∧ dmsReplicationTaskRemoveReadOnlySettings (sampleCodec.lib stubLib) bigNumberText
      = (some roundedNumberText, none)
    ∧ sampleCodec.parse roundedNumberText
      = some (.object [("a", .number 12345678901234567000)])
    ∧ (12345678901234567000 : ℚ) ≠ 12345678901234567890 := by
  refine ⟨rfl, ?_, rfl, by norm_num⟩
  have hfit : decodeMembers sampleCodec.ParseFloat [("a", .number 12345678901234567890)]
      = some [("a", .number 12345678901234567168)] := by
    simp only [decodeMembers, decodeInterface, sampleCodec, sampleParseFloat]
    norm_num
  rw [(dmsReplicationTaskRemoveReadOnlySettings_of_object stubLib sampleCodec bigNumberText
    _ _ rfl hfit).2]
  simp [toMap, mapAssign, mapIndex, removeReadOnlyKeys, sampleCodec, sampleEncode,
    List.lookup]

/-- Claim C12, as amended. For an input that is a JSON object all of whose
numbers fit float64, dmsReplicationTaskRemoveReadOnlySettings returns without
error the text json.Marshal writes for the cleaned map, where the map is the one
json.Unmarshal builds (`decoded`: the keys of the text in order, each value
decoded, a number as its float64) and the cleaned map is that map with exactly
the read-only keys removed: (1) the top-level keys are kept; (2) every key other
than "ControlTablesSettings" and "Logging" keeps its value; (3) the value under
"ControlTablesSettings", when it is an object, loses "historyTimeslotInMinutes"
and is untouched otherwise; (4) the value under "Logging", when it is an object,
loses "CloudWatchLogGroup" and "CloudWatchLogStream" and is untouched otherwise;
(5, 6) inside these two objects every other key keeps its value. -/
theorem dmsReplicationTaskRemoveReadOnlySettings_json_object (base : Lib)
    (codec : JsonCodec) (settings : String) (members decoded : List (String × JsonValue))
    (hparse : codec.parse settings = some (.object members))
    (hfit : decodeMembers codec.ParseFloat members = some decoded) :
    dmsReplicationTaskRemoveReadOnlySettings (codec.lib base) settings
      = (some (codec.encode (some (removeReadOnlyKeys (toMap decoded)))), none)
    ∧ List.Forall₂
        (fun kv kw => kw.1 = kv.1 ∧ decodeInterface codec.ParseFloat kv.2 = some kw.2)
        members decoded
    ∧ (removeReadOnlyKeys (toMap decoded)).map Prod.fst = (toMap decoded).map Prod.fst
    ∧ (∀ k, k ≠ "ControlTablesSettings" → k ≠ "Logging" →
        mapIndex (removeReadOnlyKeys (toMap decoded)) k = mapIndex (toMap decoded) k)
    ∧ mapIndex (removeReadOnlyKeys (toMap decoded)) "ControlTablesSettings"
      = (match mapIndex (toMap decoded) "ControlTablesSettings" with
          | some (.object o) => some (.object (mapDelete o "historyTimeslotInMinutes"))
          | other => other)
    ∧ mapIndex (removeReadOnlyKeys (toMap decoded)) "Logging"
      = (match mapIndex (toMap decoded) "Logging" with
          | some (.object o) =>
            some (.object (mapDelete (mapDelete o "CloudWatchLogGroup") "CloudWatchLogStream"))
          | other => other)
    ∧ (∀ (o : JsonMap) (k : String),
        mapIndex (mapDelete o "historyTimeslotInMinutes") k
          = if k = "historyTimeslotInMinutes" then none else mapIndex o k)
    ∧ (∀ (o : JsonMap) (k : String),
        mapIndex (mapDelete (mapDelete o "CloudWatchLogGroup") "CloudWatchLogStream") k
          = if k = "CloudWatchLogGroup" ∨ k = "CloudWatchLogStream" then none
            else mapIndex o k) := by
  obtain ⟨hun, hres⟩ := dmsReplicationTaskRemoveReadOnlySettings_of_object base codec settings
    members decoded hparse hfit
  have hold := dmsReplicationTaskRemoveReadOnlySettings_decoded (codec.lib base) settings
    (toMap decoded) hun
  exact ⟨hres, decodeMembers_values codec.ParseFloat members decoded hfit, hold.2⟩

/-- C12 as amended, at a concrete input: the document
`{"Logging":{"CloudWatchLogGroup":"g"}}` comes back as `{"Logging":{}}`. -/
theorem dmsReplicationTaskRemoveReadOnlySettings_json_object_witness :
    sampleCodec.parse loggingSettingsText
      = some (.object [("Logging", .object [("CloudWatchLogGroup", .string "g")])])
    ∧ decodeMembers sampleCodec.ParseFloat
        [("Logging", .object [("CloudWatchLogGroup", .string "g")])]
      = some [("Logging", .object [("CloudWatchLogGroup", .string "g")])]
    ∧ dmsReplicationTaskRemoveReadOnlySettings (sampleCodec.lib stubLib) loggingSettingsText
      = (some emptyLoggingSettingsText, none) := by
  have hfit : decodeMembers sampleCodec.ParseFloat
      [("Logging", .object [("CloudWatchLogGroup", .string "g")])]
      = some [("Logging", .object [("CloudWatchLogGroup", .string "g")])] := by
    simp [decodeMembers, decodeInterface, toMap, mapAssign, mapIndex]
  refine ⟨rfl, hfit, ?_⟩
  rw [(dmsReplicationTaskRemoveReadOnlySettings_json_object stubLib sampleCodec
    loggingSettingsText _ _ rfl hfit).1]
  simp [toMap, mapAssign, mapIndex, mapStore, mapDelete, removeReadOnlyKeys, sampleCodec,
    sampleEncode, emptyLoggingSettingsText, List.lookup]

/-- Claim C30, counterexample. The text `{"a":1e999}` is valid JSON with an
object at top level, yet json.Unmarshal rejects it, because the number does not
fit float64, and dmsReplicationTaskRemoveReadOnlySettings returns that error and
a nil string. -/
theorem dmsReplicationTaskRemoveReadOnlySettings_rejects_object :
    sampleCodec.parse outOfRangeNumberText = some (.object [("a", .number (10 ^ 999))])
    ∧ dmsReplicationTaskRemoveReadOnlySettings (sampleCodec.lib stubLib) outOfRangeNumberText
      = (none, some (.message
          "json: cannot unmarshal number 1e999 into Go value of type float64")) := by
  refine ⟨rfl, ?_⟩
  have hrej : decodeMembers sampleCodec.ParseFloat [("a", .number (10 ^ 999))] = none :=
    decodeMembers_rejected_number sampleCodec.ParseFloat "a" (10 ^ 999)
      (by simp [sampleCodec, sampleParseFloat]) [] []
  have hun : (sampleCodec.lib stubLib).Unmarshal outOfRangeNumberText
      = .error (sampleCodec.unmarshalError outOfRangeNumberText) := by
    have hparse : sampleCodec.parse outOfRangeNumberText
        = some (.object [("a", .number (10 ^ 999))]) := rfl
    simp [JsonCodec.lib, JsonCodec.Unmarshal, hparse, hrej]
  rw [dmsReplicationTaskRemoveReadOnlySettings_of_rejected stubLib sampleCodec _ hun]
  simp [sampleCodec, sampleUnmarshalError]

/-- Claim C30, as amended. With encoding/json as modelled:
dmsReplicationTaskRemoveReadOnlySettings returns an error exactly when its input
is not valid JSON whose top-level value is null or an object all of whose numbers
fit float64 (1); the error is the one of json.Unmarshal and the string is then
nil (2); a text that is not JSON (3) and a valid array, string, number or boolean
at top level (4) are rejected, and so is an object with a member that is a number
outside the float64 range (5); `null` is accepted (6); an object all of whose
numbers fit is accepted, and a value under "ControlTablesSettings" or "Logging"
that is not an object is left unchanged at that key (7); and when no number is
outside the float64 range, the error is returned exactly when the input is not
valid JSON whose top-level value is an object or null (8). -/
theorem dmsReplicationTaskRemoveReadOnlySettings_error_iff (base : Lib) (codec : JsonCodec)
    (s : String) :
    ((dmsReplicationTaskRemoveReadOnlySettings (codec.lib base) s).2 ≠ none ↔
      ¬ (codec.parse s = some .null
        ∨ ∃ members decoded, codec.parse s = some (.object members)
            ∧ decodeMembers codec.ParseFloat members = some decoded))
    ∧ ((dmsReplicationTaskRemoveReadOnlySettings (codec.lib base) s).2 ≠ none →
        dmsReplicationTaskRemoveReadOnlySettings (codec.lib base) s
          = (none, some (codec.unmarshalError s)))
    ∧ (codec.parse s = none →
        (dmsReplicationTaskRemoveReadOnlySettings (codec.lib base) s).2 ≠ none)
    ∧ (∀ v, codec.parse s = some v →
        ((∃ items, v = .array items) ∨ (∃ t, v = .string t) ∨ (∃ value, v = .number value)
          ∨ (∃ b, v = .bool b)) →
        (dmsReplicationTaskRemoveReadOnlySettings (codec.lib base) s).2 ≠ none)
    ∧ (∀ before key value after,
        codec.parse s = some (.object (before ++ (key, .number value) :: after)) →
        codec.ParseFloat value = none →
        (dmsReplicationTaskRemoveReadOnlySettings (codec.lib base) s).2 ≠ none)
    ∧ (codec.parse s = some .null →
        dmsReplicationTaskRemoveReadOnlySettings (codec.lib base) s
          = (some (codec.encode none), none))
    ∧ (∀ members decoded, codec.parse s = some (.object members) →
        decodeMembers codec.ParseFloat members = some decoded →
        dmsReplicationTaskRemoveReadOnlySettings (codec.lib base) s
          = (some (codec.encode (some (removeReadOnlyKeys (toMap decoded)))), none)
        ∧ ∀ key, (key = "ControlTablesSettings" ∨ key = "Logging") →
            (∀ o, mapIndex (toMap decoded) key ≠ some (.object o)) →
            mapIndex (removeReadOnlyKeys (toMap decoded)) key = mapIndex (toMap decoded) key)
    ∧ ((∀ value, (codec.ParseFloat value).isSome = true) →
        ((dmsReplicationTaskRemoveReadOnlySettings (codec.lib base) s).2 ≠ none ↔
          ¬ (codec.parse s = some .null ∨ ∃ members, codec.parse s = some (.object members)))) := by
  have hshape : ∀ lib1 : Lib, lib1 = codec.lib base →
      (∀ t, lib1.Unmarshal s = .ok t →
        dmsReplicationTaskRemoveReadOnlySettings lib1 s
          = (some (codec.encode (t.map removeReadOnlyKeys)), none))
      ∧ (∀ e, lib1.Unmarshal s = .error e →
        dmsReplicationTaskRemoveReadOnlySettings lib1 s = (none, some e)) := by
    intro lib1 hlib
    subst hlib
    constructor
    · intro t ht
      unfold dmsReplicationTaskRemoveReadOnlySettings
      rw [ht]
      rfl
    · intro e he
      unfold dmsReplicationTaskRemoveReadOnlySettings
      rw [he]
  obtain ⟨hok, herr⟩ := hshape _ rfl
  have hun : (codec.lib base).Unmarshal s = codec.Unmarshal s := rfl
  have hnull : codec.parse s = some .null →
      dmsReplicationTaskRemoveReadOnlySettings (codec.lib base) s
        = (some (codec.encode none), none) := by
    intro hp
    exact hok none (by rw [hun]; simp [JsonCodec.Unmarshal, hp])
  have hobject : ∀ members decoded, codec.parse s = some (.object members) →
      decodeMembers codec.ParseFloat members = some decoded →
      dmsReplicationTaskRemoveReadOnlySettings (codec.lib base) s
        = (some (codec.encode (some (removeReadOnlyKeys (toMap decoded)))), none) := by
    intro members decoded hp hd
    exact hok (some (toMap decoded)) (by rw [hun]; simp [JsonCodec.Unmarshal, hp, hd])
  have hrejected : ¬ (codec.parse s = some .null
      ∨ ∃ members decoded, codec.parse s = some (.object members)
          ∧ decodeMembers codec.ParseFloat members = some decoded) →
      dmsReplicationTaskRemoveReadOnlySettings (codec.lib base) s
        = (none, some (codec.unmarshalError s)) := by
    intro hnot
    apply herr
    rw [hun]
    unfold JsonCodec.Unmarshal
    cases hp : codec.parse s with
    | none => rfl
    | some v =>
      cases v with
      | null => exact absurd (Or.inl hp) hnot
      | object members =>
        cases hd : decodeMembers codec.ParseFloat members with
        | none => simp [hd]
        | some decoded => exact absurd (Or.inr ⟨members, decoded, hp, hd⟩) hnot
      | bool b => rfl
      | number value => rfl
      | string t => rfl
      | array items => rfl
  have hiff : (dmsReplicationTaskRemoveReadOnlySettings (codec.lib base) s).2 ≠ none ↔
      ¬ (codec.parse s = some .null
        ∨ ∃ members decoded, codec.parse s = some (.object members)
            ∧ decodeMembers codec.ParseFloat members = some decoded) := by
    constructor
    · intro he hacc
      rcases hacc with hp | ⟨members, decoded, hp, hd⟩
      · rw [hnull hp] at he
        exact he rfl
      · rw [hobject members decoded hp hd] at he
        exact he rfl
    · intro hnot
      rw [hrejected hnot]
      simp
  refine ⟨hiff, ?_, ?_, ?_, ?_, hnull, ?_, ?_⟩
  · intro he
    exact hrejected (hiff.mp he)
  · intro hp
    apply hiff.mpr
    rintro (h1 | ⟨members, decoded, h1, _⟩)
    · rw [hp] at h1
      cases h1
    · rw [hp] at h1
      cases h1
  · intro v hp hkind
    apply hiff.mpr
    rintro (h1 | ⟨members, decoded, h1, _⟩)
    · rw [hp] at h1
      cases h1
      rcases hkind with ⟨_, hk⟩ | ⟨_, hk⟩ | ⟨_, hk⟩ | ⟨_, hk⟩ <;> cases hk
    · rw [hp] at h1
      cases h1
      rcases hkind with ⟨_, hk⟩ | ⟨_, hk⟩ | ⟨_, hk⟩ | ⟨_, hk⟩ <;> cases hk
  · intro before key value after hp hrej
    apply hiff.mpr
    rintro (h1 | ⟨members, decoded, h1, hd⟩)
    · rw [hp] at h1
      cases h1
    · rw [hp] at h1
      cases h1
      rw [decodeMembers_rejected_number codec.ParseFloat key value hrej before after] at hd
      cases hd
  · intro members decoded hp hd
    refine ⟨hobject members decoded hp hd, ?_⟩
    intro key hkey hno
    rw [removeReadOnlyKeys_eq]
    rcases hkey with hkey | hkey
    · subst hkey
      rw [storeObject_of_not_object (toMap decoded) "ControlTablesSettings" _ hno,
        mapIndex_storeObject]
      simp
    · subst hkey
      have hidx : ∀ f, mapIndex (storeObject (toMap decoded) "ControlTablesSettings" f)
          "Logging" = mapIndex (toMap decoded) "Logging" := by
        intro f
        rw [mapIndex_storeObject]
        simp
      rw [storeObject_of_not_object _ "Logging" _ (by intro o; rw [hidx]; exact hno o), hidx]
  · intro hall
    rw [hiff]
    constructor
    · rintro hnot (h1 | ⟨members, h1⟩)
      · exact hnot (Or.inl h1)
      · obtain ⟨decoded, hd⟩ := Option.isSome_iff_exists.mp
          (decodeMembers_isSome codec.ParseFloat hall members)
        exact hnot (Or.inr ⟨members, decoded, h1, hd⟩)
    · rintro hnot (h1 | ⟨members, decoded, h1, _⟩)
      · exact hnot (Or.inl h1)
      · exact hnot (Or.inr ⟨members, h1⟩)

/-- C30 as amended, at concrete inputs: the text `[]`, a valid JSON array, is
rejected with a nil string. -/
theorem dmsReplicationTaskRemoveReadOnlySettings_error_iff_witness :
    sampleCodec.parse "[]" = some (.array [])
    ∧ dmsReplicationTaskRemoveReadOnlySettings (sampleCodec.lib stubLib) "[]"
      = (none, some (sampleCodec.unmarshalError "[]")) :=
  ⟨rfl,
    (dmsReplicationTaskRemoveReadOnlySettings_error_iff stubLib sampleCodec "[]").2.1
      ((dmsReplicationTaskRemoveReadOnlySettings_error_iff stubLib sampleCodec "[]").2.2.2.1
        (.array []) rfl (Or.inl ⟨[], rfl⟩))⟩

/-! ### The calls of the instance data source on every path -/

/-- The DescribeInstanceAttribute blocks as an execution give what
`readInstanceAttributes` gives. -/
theorem readInstanceAttributesRun_toResult (env : InstanceEnv) (d : InstanceData) :
    readInstanceAttributes env d
      = (match (readInstanceAttributesRun env d).outcome with
          | .error p => .error p
          | .ok (d1, err) => .ok (d1, err, (readInstanceAttributesRun env d).calls)) := by
  unfold readInstanceAttributes readInstanceAttributesRun
  simp only
  split
  · rfl
  · rfl
  · split
    · rfl
    · split
      · rfl
      · split <;> rfl

/-- The calls of the DescribeInstanceAttribute blocks on every path, faults
included: one or two DescribeInstanceAttribute calls. -/
theorem readInstanceAttributesRun_calls (env : InstanceEnv) (d : InstanceData) :
    (∀ c ∈ (readInstanceAttributesRun env d).calls,
      ∃ input, c = Ec2Call.DescribeInstanceAttribute input)
    ∧ (readInstanceAttributesRun env d).calls.length ≤ 2 := by
  unfold readInstanceAttributesRun
  simp only
  split
  · exact ⟨fun c hc => ⟨_, List.mem_singleton.mp hc⟩, by simp⟩
  · exact ⟨fun c hc => ⟨_, List.mem_singleton.mp hc⟩, by simp⟩
  · split
    · exact ⟨fun c hc => ⟨_, List.mem_singleton.mp hc⟩, by simp⟩
    · have hshape : ∀ (a b : DescribeInstanceAttributeInput),
          ∀ c ∈ [Ec2Call.DescribeInstanceAttribute a, Ec2Call.DescribeInstanceAttribute b],
            ∃ input, c = Ec2Call.DescribeInstanceAttribute input := by
        intro a b c hc
        simp only [List.mem_cons, List.mem_singleton, List.not_mem_nil, or_false] at hc
        rcases hc with hc | hc
        · exact ⟨_, hc⟩
        · exact ⟨_, hc⟩
      split
      · exact ⟨hshape _ _, by simp⟩
      · split
        · exact ⟨hshape _ _, by simp⟩
        · exact ⟨hshape _ _, by simp⟩

/-- The function instanceDescriptionAttributes as an execution gives what
`instanceDescriptionAttributes` gives. -/
theorem instanceDescriptionAttributesRun_toResult (lib : Lib) (env : InstanceEnv)
    (d : InstanceData) (inst : Option Instance) (ignoreTagsConfig : KeyValueTags) :
    instanceDescriptionAttributes lib env d inst ignoreTagsConfig
      = (instanceDescriptionAttributesRun lib env d inst ignoreTagsConfig).toResult := by
  unfold instanceDescriptionAttributes instanceDescriptionAttributesRun InstanceRun.toResult
  cases inst with
  | none => rfl
  | some inst =>
    simp only
    split
    · rfl
    · split
      · rfl
      · split
        · rfl
        · split
          · rfl
          · rfl
          · split
            · rfl
            · split
              · rfl
              · split
                · rfl
                · rw [readInstanceAttributesRun_toResult]
                  generalize readInstanceAttributesRun env _ = run
                  obtain ⟨runCalls, outcome⟩ := run
                  cases outcome with
                  | error p => rfl
                  | ok v =>
                    obtain ⟨d1, e1⟩ := v
                    cases e1 with
                    | some err => rfl
                    | none =>
                      simp only
                      split
                      · rfl
                      · split
                        · rfl
                        · split
                          · rfl
                          · split <;> rfl

/-- The statements after the selection as an execution give what
`describeSelected` gives. -/
theorem describeSelectedRun_toResult (lib : Lib) (client : InstanceClient)
    (env : InstanceReadEnv) (d : InstanceData) (inst : Instance) :
    describeSelected lib client env d inst
      = (describeSelectedRun lib client env d inst).toResult := by
  unfold describeSelected describeSelectedRun
  rw [instanceDescriptionAttributesRun_toResult]
  generalize instanceDescriptionAttributesRun lib env.attributes d (some inst)
    client.IgnoreTagsConfig = run
  obtain ⟨runCalls, outcome⟩ := run
  cases outcome with
  | error p => rfl
  | ok v =>
    obtain ⟨d1, e1⟩ := v
    cases e1 with
    | some err => rfl
    | none =>
      simp only [InstanceRun.toResult]
      split <;> rfl

/-- The function dataSourceAwsInstanceRead as an execution gives what
`dataSourceAwsInstanceRead` gives. -/
theorem dataSourceAwsInstanceReadRun_toResult (lib : Lib) (client : InstanceClient)
    (env : InstanceReadEnv) (d : InstanceData) :
    dataSourceAwsInstanceRead lib client env d
      = (dataSourceAwsInstanceReadRun lib client env d).toResult := by
  unfold dataSourceAwsInstanceRead dataSourceAwsInstanceReadRun
  split
  · rfl
  · simp only
    split
    · rfl
    · rfl
    · split
      · rfl
      · rfl
      · rw [describeSelectedRun_toResult]
        generalize describeSelectedRun lib client env d _ = run
        obtain ⟨runCalls, outcome⟩ := run
        cases outcome with
        | error p => rfl
        | ok v => rfl

/-- The calls of instanceDescriptionAttributes on every path, faults included:
the two helper calls, then at most two DescribeInstanceAttribute calls, then at
most one credit specification lookup. -/
theorem instanceDescriptionAttributesRun_calls (lib : Lib) (env : InstanceEnv)
    (d : InstanceData) (inst : Option Instance) (ignoreTagsConfig : KeyValueTags) :
    ∃ helperCalls attrCalls creditCalls,
      (instanceDescriptionAttributesRun lib env d inst ignoreTagsConfig).calls
        = helperCalls ++ attrCalls ++ creditCalls
      ∧ (helperCalls = [] ∨ helperCalls = [Ec2Call.readSecurityGroups]
          ∨ helperCalls = [Ec2Call.readSecurityGroups, Ec2Call.readBlockDevices])
      ∧ (∀ c ∈ attrCalls, ∃ input, c = Ec2Call.DescribeInstanceAttribute input)
      ∧ attrCalls.length ≤ 2
      ∧ (creditCalls = [] ∨ ∃ id, creditCalls = [Ec2Call.getCreditSpecifications id]) := by
  have hnone : ∃ helperCalls attrCalls creditCalls,
      ([] : List Ec2Call) = helperCalls ++ attrCalls ++ creditCalls
      ∧ (helperCalls = [] ∨ helperCalls = [Ec2Call.readSecurityGroups]
          ∨ helperCalls = [Ec2Call.readSecurityGroups, Ec2Call.readBlockDevices])
      ∧ (∀ c ∈ attrCalls, ∃ input, c = Ec2Call.DescribeInstanceAttribute input)
      ∧ attrCalls.length ≤ 2
      ∧ (creditCalls = [] ∨ ∃ id, creditCalls = [Ec2Call.getCreditSpecifications id]) :=
    ⟨[], [], [], rfl, Or.inl rfl, by simp, by simp, Or.inl rfl⟩
  have hattr : ∀ (d1 : InstanceData) (creditCalls : List Ec2Call),
      (creditCalls = [] ∨ ∃ id, creditCalls = [Ec2Call.getCreditSpecifications id]) →
      ∃ helperCalls attrCalls creditCalls1,
        [Ec2Call.readSecurityGroups, Ec2Call.readBlockDevices]
            ++ (readInstanceAttributesRun env d1).calls ++ creditCalls
          = helperCalls ++ attrCalls ++ creditCalls1
        ∧ (helperCalls = [] ∨ helperCalls = [Ec2Call.readSecurityGroups]
            ∨ helperCalls = [Ec2Call.readSecurityGroups, Ec2Call.readBlockDevices])
        ∧ (∀ c ∈ attrCalls, ∃ input, c = Ec2Call.DescribeInstanceAttribute input)
        ∧ attrCalls.length ≤ 2
        ∧ (creditCalls1 = []
            ∨ ∃ id, creditCalls1 = [Ec2Call.getCreditSpecifications id]) := by
    intro d1 creditCalls hcredit
    exact ⟨_, _, _, rfl, Or.inr (Or.inr rfl), (readInstanceAttributesRun_calls env d1).1,
      (readInstanceAttributesRun_calls env d1).2, hcredit⟩
  have hcredit : ∀ (d1 : InstanceData) (inst1 : Instance) specs e creditCalls,
      readCreditSpecifications env d1 inst1 = (specs, e, creditCalls) →
      (creditCalls = [] ∨ ∃ id, creditCalls = [Ec2Call.getCreditSpecifications id]) := by
    intro d1 inst1 specs e creditCalls h
    rcases readCreditSpecifications_cases env d1 inst1 specs e creditCalls h with
      ⟨_, _, _, hc⟩ | ⟨_, hc, _⟩
    · exact Or.inl hc
    · exact Or.inr ⟨_, hc⟩
  unfold instanceDescriptionAttributesRun
  cases inst with
  | none => exact hnone
  | some inst =>
    simp only
    split
    · exact hnone
    · split
      · exact hnone
      · split
        · exact hnone
        · split
          · exact hnone
          · exact hnone
          · split
            · exact hnone
            · split
              · exact ⟨[Ec2Call.readSecurityGroups], [], [], rfl, Or.inr (Or.inl rfl),
                  by simp, by simp, Or.inl rfl⟩
              · split
                · exact ⟨[Ec2Call.readSecurityGroups, Ec2Call.readBlockDevices], [], [], rfl,
                    Or.inr (Or.inr rfl), by simp, by simp, Or.inl rfl⟩
                · split
                  · simpa using hattr _ [] (Or.inl rfl)
                  · simpa using hattr _ [] (Or.inl rfl)
                  · split
                    · rename_i hc
                      exact hattr _ _ (hcredit _ _ _ _ _ hc)
                    · rename_i hc
                      have hcc := hcredit _ _ _ _ _ hc
                      split
                      · exact hattr _ _ hcc
                      · split
                        · exact hattr _ _ hcc
                        · split
                          · exact hattr _ _ hcc
                          · exact hattr _ _ hcc

/-- The calls of dataSourceAwsInstanceRead on every path, faults included: none,
or the DescribeInstances query followed by the calls of
instanceDescriptionAttributes and at most one password data lookup. -/
theorem dataSourceAwsInstanceReadRun_calls (lib : Lib) (client : InstanceClient)
    (env : InstanceReadEnv) (d : InstanceData) :
    (dataSourceAwsInstanceReadRun lib client env d).calls = []
    ∨ ∃ helperCalls attrCalls creditCalls passwordCalls,
      (dataSourceAwsInstanceReadRun lib client env d).calls
        = Ec2Call.DescribeInstances (searchParams env d)
          :: (helperCalls ++ attrCalls ++ creditCalls ++ passwordCalls)
      ∧ (helperCalls = [] ∨ helperCalls = [Ec2Call.readSecurityGroups]
          ∨ helperCalls = [Ec2Call.readSecurityGroups, Ec2Call.readBlockDevices])
      ∧ (∀ c ∈ attrCalls, ∃ input, c = Ec2Call.DescribeInstanceAttribute input)
      ∧ attrCalls.length ≤ 2
      ∧ (creditCalls = [] ∨ ∃ id, creditCalls = [Ec2Call.getCreditSpecifications id])
      ∧ (passwordCalls = []
          ∨ ∃ id, passwordCalls = [Ec2Call.getAwsEc2InstancePasswordData id]) := by
  have hquery : ∃ helperCalls attrCalls creditCalls passwordCalls,
      [Ec2Call.DescribeInstances (searchParams env d)]
        = Ec2Call.DescribeInstances (searchParams env d)
          :: (helperCalls ++ attrCalls ++ creditCalls ++ passwordCalls)
      ∧ (helperCalls = [] ∨ helperCalls = [Ec2Call.readSecurityGroups]
          ∨ helperCalls = [Ec2Call.readSecurityGroups, Ec2Call.readBlockDevices])
      ∧ (∀ c ∈ attrCalls, ∃ input, c = Ec2Call.DescribeInstanceAttribute input)
      ∧ attrCalls.length ≤ 2
      ∧ (creditCalls = [] ∨ ∃ id, creditCalls = [Ec2Call.getCreditSpecifications id])
      ∧ (passwordCalls = []
          ∨ ∃ id, passwordCalls = [Ec2Call.getAwsEc2InstancePasswordData id]) :=
    ⟨[], [], [], [], rfl, Or.inl rfl, by simp, by simp, Or.inl rfl, Or.inl rfl⟩
  have hselected : ∀ inst, ∃ helperCalls attrCalls creditCalls passwordCalls,
      (describeSelectedRun lib client env d inst).calls
        = helperCalls ++ attrCalls ++ creditCalls ++ passwordCalls
      ∧ (helperCalls = [] ∨ helperCalls = [Ec2Call.readSecurityGroups]
          ∨ helperCalls = [Ec2Call.readSecurityGroups, Ec2Call.readBlockDevices])
      ∧ (∀ c ∈ attrCalls, ∃ input, c = Ec2Call.DescribeInstanceAttribute input)
      ∧ attrCalls.length ≤ 2
      ∧ (creditCalls = [] ∨ ∃ id, creditCalls = [Ec2Call.getCreditSpecifications id])
      ∧ (passwordCalls = []
          ∨ ∃ id, passwordCalls = [Ec2Call.getAwsEc2InstancePasswordData id]) := by
    intro inst
    obtain ⟨helperCalls, attrCalls, creditCalls, hcalls, hhelper, hattr, hlen, hcredit⟩ :=
      instanceDescriptionAttributesRun_calls lib env.attributes d (some inst)
        client.IgnoreTagsConfig
    unfold describeSelectedRun
    simp only
    split
    · exact ⟨helperCalls, attrCalls, creditCalls, [], by simp [hcalls], hhelper, hattr, hlen,
        hcredit, Or.inl rfl⟩
    · exact ⟨helperCalls, attrCalls, creditCalls, [], by simp [hcalls], hhelper, hattr, hlen,
        hcredit, Or.inl rfl⟩
    · split
      · rename_i d1 err passwordCalls hpw
        refine ⟨helperCalls, attrCalls, creditCalls, passwordCalls, by simp [hcalls], hhelper,
          hattr, hlen, hcredit, ?_⟩
        split_ifs at hpw
        · split at hpw
          · cases hpw
            exact Or.inr ⟨_, rfl⟩
          · cases hpw
        · cases hpw
      · rename_i d1 passwordCalls hpw
        refine ⟨helperCalls, attrCalls, creditCalls, passwordCalls, by simp [hcalls], hhelper,
          hattr, hlen, hcredit, ?_⟩
        split_ifs at hpw
        · split at hpw
          · cases hpw
          · cases hpw
            exact Or.inr ⟨_, rfl⟩
        · cases hpw
          exact Or.inl rfl
  unfold dataSourceAwsInstanceReadRun
  split
  · exact Or.inl rfl
  · right
    simp only
    split
    · exact hquery
    · exact hquery
    · split
      · exact hquery
      · exact hquery
      · rename_i inst _
        obtain ⟨helperCalls, attrCalls, creditCalls, passwordCalls, hcalls, hrest⟩ :=
          hselected inst
        exact ⟨helperCalls, attrCalls, creditCalls, passwordCalls, by simp [hcalls], hrest⟩

/-- Claim C25. Take for the calls of the four helpers, which receive the
connection and are not part of the sources, the operations `issued` that they
issue, and let these be describe or get operations. Then on every path of
dataSourceAwsInstanceRead and of instanceDescriptionAttributes, faults included,
every operation issued is a describe or get operation: the executions give what
the two functions give (1, 5); every call on the connection is DescribeInstances,
DescribeInstanceAttribute or the call of a helper, never another operation of the
connection (2); so every operation behind a call is a describe or get operation
(3, 6); and the calls come in the order query, helpers, attributes, credit
specifications, password data (4). -/
theorem dataSourceAwsInstanceRead_only_lookups (lib : Lib) (client : InstanceClient)
    (env : InstanceReadEnv) (d : InstanceData) (issued : Ec2Call → List String)
    (hhelpers : ∀ c, c.isHelper = true →
      ∀ operation ∈ issued c, isDescribeOrGet operation = true) :
    dataSourceAwsInstanceRead lib client env d
      = (dataSourceAwsInstanceReadRun lib client env d).toResult
    ∧ (∀ c ∈ (dataSourceAwsInstanceReadRun lib client env d).calls,
        ((∃ params, c = Ec2Call.DescribeInstances params)
          ∨ (∃ input, c = Ec2Call.DescribeInstanceAttribute input) ∨ c.isHelper = true)
        ∧ ∀ operation, c ≠ Ec2Call.other operation)
    ∧ (∀ c ∈ (dataSourceAwsInstanceReadRun lib client env d).calls,
        ∀ operation ∈ c.operations issued, isDescribeOrGet operation = true)
    ∧ ((dataSourceAwsInstanceReadRun lib client env d).calls = []
      ∨ ∃ helperCalls attrCalls creditCalls passwordCalls,
        (dataSourceAwsInstanceReadRun lib client env d).calls
          = Ec2Call.DescribeInstances (searchParams env d)
            :: (helperCalls ++ attrCalls ++ creditCalls ++ passwordCalls)
        ∧ (helperCalls = [] ∨ helperCalls = [Ec2Call.readSecurityGroups]
            ∨ helperCalls = [Ec2Call.readSecurityGroups, Ec2Call.readBlockDevices])
        ∧ (∀ c ∈ attrCalls, ∃ input, c = Ec2Call.DescribeInstanceAttribute input)
        ∧ attrCalls.length ≤ 2
        ∧ (creditCalls = [] ∨ ∃ id, creditCalls = [Ec2Call.getCreditSpecifications id])
        ∧ (passwordCalls = []
            ∨ ∃ id, passwordCalls = [Ec2Call.getAwsEc2InstancePasswordData id]))
    ∧ (∀ inst, instanceDescriptionAttributes lib env.attributes d inst client.IgnoreTagsConfig
        = (instanceDescriptionAttributesRun lib env.attributes d inst
            client.IgnoreTagsConfig).toResult)
    ∧ (∀ inst, ∀ c ∈ (instanceDescriptionAttributesRun lib env.attributes d inst
          client.IgnoreTagsConfig).calls,
        ∀ operation ∈ c.operations issued, isDescribeOrGet operation = true) := by
  have hkind : ∀ c : Ec2Call,
      ((∃ params, c = Ec2Call.DescribeInstances params)
        ∨ (∃ input, c = Ec2Call.DescribeInstanceAttribute input) ∨ c.isHelper = true) →
      (∀ operation, c ≠ Ec2Call.other operation)
      ∧ ∀ operation ∈ c.operations issued, isDescribeOrGet operation = true := by
    intro c hc
    rcases hc with ⟨params, hc⟩ | ⟨input, hc⟩ | hc
    · subst hc
      refine ⟨fun operation h => (nomatch h), ?_⟩
      intro operation hop
      simp only [Ec2Call.operations, List.mem_singleton] at hop
      subst hop
      decide
    · subst hc
      refine ⟨fun operation h => (nomatch h), ?_⟩
      intro operation hop
      simp only [Ec2Call.operations, List.mem_singleton] at hop
      subst hop
      decide
    · have hissued := hhelpers c hc
      cases c with
      | DescribeInstances params => simp [Ec2Call.isHelper] at hc
      | DescribeInstanceAttribute input => simp [Ec2Call.isHelper] at hc
      | other operation => simp [Ec2Call.isHelper] at hc
      | readSecurityGroups => exact ⟨fun operation h => (nomatch h), hissued⟩
      | readBlockDevices => exact ⟨fun operation h => (nomatch h), hissued⟩
      | getCreditSpecifications id => exact ⟨fun operation h => (nomatch h), hissued⟩
      | getAwsEc2InstancePasswordData id => exact ⟨fun operation h => (nomatch h), hissued⟩
  have hhelperCalls : ∀ helperCalls : List Ec2Call,
      (helperCalls = [] ∨ helperCalls = [Ec2Call.readSecurityGroups]
        ∨ helperCalls = [Ec2Call.readSecurityGroups, Ec2Call.readBlockDevices]) →
      ∀ c ∈ helperCalls, c.isHelper = true := by
    intro helperCalls hh c hc
    rcases hh with hh | hh | hh
    · rw [hh] at hc
      cases hc
    · rw [hh] at hc
      simp only [List.mem_singleton] at hc
      rw [hc]
      rfl
    · rw [hh] at hc
      simp only [List.mem_cons, List.mem_singleton, List.not_mem_nil, or_false] at hc
      rcases hc with hc | hc <;>
        · rw [hc]
          rfl
  have hcreditCalls : ∀ creditCalls : List Ec2Call,
      (creditCalls = [] ∨ ∃ id, creditCalls = [Ec2Call.getCreditSpecifications id]) →
      ∀ c ∈ creditCalls, c.isHelper = true := by
    intro creditCalls hh c hc
    rcases hh with hh | ⟨id, hh⟩
    · rw [hh] at hc
      cases hc
    · rw [hh] at hc
      simp only [List.mem_singleton] at hc
      rw [hc]
      rfl
  have hpasswordCalls : ∀ passwordCalls : List Ec2Call,
      (passwordCalls = []
        ∨ ∃ id, passwordCalls = [Ec2Call.getAwsEc2InstancePasswordData id]) →
      ∀ c ∈ passwordCalls, c.isHelper = true := by
    intro passwordCalls hh c hc
    rcases hh with hh | ⟨id, hh⟩
    · rw [hh] at hc
      cases hc
    · rw [hh] at hc
      simp only [List.mem_singleton] at hc
      rw [hc]
      rfl
  have hread : ∀ c ∈ (dataSourceAwsInstanceReadRun lib client env d).calls,
      (∃ params, c = Ec2Call.DescribeInstances params)
        ∨ (∃ input, c = Ec2Call.DescribeInstanceAttribute input) ∨ c.isHelper = true := by
    intro c hc
    rcases dataSourceAwsInstanceReadRun_calls lib client env d with
      hnil | ⟨helperCalls, attrCalls, creditCalls, passwordCalls, hcalls, hh, ha, _, hcr, hp⟩
    · rw [hnil] at hc
      cases hc
    · rw [hcalls] at hc
      simp only [List.mem_cons, List.mem_append] at hc
      rcases hc with hc | ((hc | hc) | hc) | hc
      · exact Or.inl ⟨_, hc⟩
      · exact Or.inr (Or.inr (hhelperCalls _ hh c hc))
      · exact Or.inr (Or.inl (ha c hc))
      · exact Or.inr (Or.inr (hcreditCalls _ hcr c hc))
      · exact Or.inr (Or.inr (hpasswordCalls _ hp c hc))
  refine ⟨dataSourceAwsInstanceReadRun_toResult lib client env d, ?_, ?_,
    dataSourceAwsInstanceReadRun_calls lib client env d,
    fun inst => instanceDescriptionAttributesRun_toResult lib env.attributes d inst
      client.IgnoreTagsConfig, ?_⟩
  · intro c hc
    exact ⟨hread c hc, (hkind c (hread c hc)).1⟩
  · intro c hc
    exact (hkind c (hread c hc)).2
  · intro inst c hc
    obtain ⟨helperCalls, attrCalls, creditCalls, hcalls, hh, ha, _, hcr⟩ :=
      instanceDescriptionAttributesRun_calls lib env.attributes d inst client.IgnoreTagsConfig
    rw [hcalls] at hc
    simp only [List.mem_append] at hc
    rcases hc with (hc | hc) | hc
    · exact (hkind c (Or.inr (Or.inr (hhelperCalls _ hh c hc)))).2
    · exact (hkind c (Or.inr (Or.inl (ha c hc)))).2
    · exact (hkind c (Or.inr (Or.inr (hcreditCalls _ hcr c hc)))).2

/-- C25 at concrete inputs: the read of the running T2 instance "i-1" with
get_password_data set issues seven calls, and the operations behind them, with
sample operations for the helpers, are describe and get operations; the read of
an instance without placement faults after the DescribeInstances query, its only
call. -/
theorem dataSourceAwsInstanceRead_only_lookups_witness :
    (∀ c, c.isHelper = true →
      ∀ operation ∈ sampleIssued c, isDescribeOrGet operation = true)
    ∧ ((dataSourceAwsInstanceReadRun stubLib regionClient
          (instanceReadEnv plainInstanceEnv [[instanceInState "running"]])
          passwordInstanceData).calls.flatMap (fun c => c.operations sampleIssued)
        = ["DescribeInstances", "DescribeVpcs", "DescribeVolumes",
            "DescribeInstanceAttribute", "DescribeInstanceAttribute",
            "DescribeInstanceCreditSpecifications", "GetPasswordData"])
    ∧ (∀ c ∈ (dataSourceAwsInstanceReadRun stubLib regionClient
          (instanceReadEnv plainInstanceEnv [[instanceInState "running"]])
          passwordInstanceData).calls,
        ∀ operation ∈ c.operations sampleIssued, isDescribeOrGet operation = true)
    ∧ (dataSourceAwsInstanceReadRun stubLib regionClient
          (instanceReadEnv plainInstanceEnv
            [[{ instanceInState "running" with Placement := none }]])
          instanceIdData).calls
        = [Ec2Call.DescribeInstances (DescribeInstancesInput.mk [] [some "i-1"])] := by
  have hsample : ∀ c, c.isHelper = true →
      ∀ operation ∈ sampleIssued c, isDescribeOrGet operation = true := by
    intro c hc operation hop
    cases c <;> simp [sampleIssued, Ec2Call.isHelper] at hc hop <;> subst hop <;> decide
  exact ⟨hsample, rfl,
    (dataSourceAwsInstanceRead_only_lookups stubLib regionClient
      (instanceReadEnv plainInstanceEnv [[instanceInState "running"]]) passwordInstanceData
      sampleIssued hsample).2.2.1, rfl⟩

end Aws
